import Mathlib

/-!
# val-store: authentication and session orchestration client

A shallow embedding of `internal/repositories/valorant_api.go`,
`internal/services/auth_service.go`, `internal/services/shop_service.go` and
`internal/services/user_service.go`.

Conventions of the embedding.

* Go strings are Lean `String`s; the `strings` package functions the code uses
  are defined on the underlying character lists.
* A Go `error` is a `GoError`; the `nil` error is `none : Option GoError`; a
  pair `(x, err)` returned by a fallible function is an `Except GoError _`.
* Every `client.Do(req)` is one *transport call*.  The upstream is a function
  of the number of transport calls made before and of the request; the `World`
  records every call and every `time.Sleep`.
* `int` is taken to be 64 bits wide (`time.Duration` is `int64` on every
  platform); arithmetic that can leave that range is reduced with `wrapInt64`.
-/

namespace ValStore

/-! ## The `strings` package -/

/-- Go `strings.HasPrefix(s, p)` on character lists. -/
def hasPrefixL : List Char → List Char → Bool
  | _, [] => true
  | [], _ :: _ => false
  | c :: s, d :: p => c == d && hasPrefixL s p

/-- Go `strings.Contains(s, sub)` on character lists. -/
def containsL : List Char → List Char → Bool
  | [], sub => sub.isEmpty
  | c :: s, sub => hasPrefixL (c :: s) sub || containsL s sub

/-- Go `strings.Contains(s, sub)`. -/
def strContains (s sub : String) : Bool := containsL s.data sub.data

/-- Go `strings.HasPrefix(s, p)`. -/
def strHasPrefix (s p : String) : Bool := hasPrefixL s.data p.data

/-! ## Errors -/

/-- A Go `error` value, as far as the code observes it: its text, whether its
dynamic type implements `net.Error`, whether it is a `*url.Error`, and what it
wraps. -/
inductive GoError where
  /-- The value of `errors.New(msg)` or of `fmt.Errorf` without `%w`; also any
  other error that is neither a `net.Error` nor a `*url.Error`. -/
  | plain (msg : String)
  /-- An error whose dynamic type implements `net.Error`, such as
  `*net.OpError` or `*net.DNSError`. -/
  | net (msg : String)
  /-- The value `&url.Error{Op: op, URL: u, Err: err}`. -/
  | url (op u : String) (err : GoError)
  /-- The value of `fmt.Errorf(pre + "%w", err)`. -/
  | wrapf (pre : String) (err : GoError)
  deriving DecidableEq, Repr

namespace GoError

/-- The method `Error()`.  For a `*url.Error` the library prints
`Op + " " + strconv.Quote(URL) + ": " + Err.Error()`; the quoting is rendered
with plain double quotes. -/
def Error : GoError → String
  | plain msg => msg
  | net msg => msg
  | url op u err => op ++ " \"" ++ u ++ "\": " ++ err.Error
  | wrapf pre err => pre ++ err.Error

/-- The type assertion `err.(net.Error)` succeeds.  `net.Error` asks for the
methods `Error`, `Timeout` and `Temporary`; `*url.Error` declares all three
(net/url, `func (e *Error) Timeout() bool`, `func (e *Error) Temporary() bool`),
the errors made by `errors.New` and `fmt.Errorf` declare only `Error`. -/
def implementsNetError : GoError → Bool
  | plain _ => false
  | net _ => true
  | url _ _ _ => true
  | wrapf _ _ => false

/-- The method `Unwrap()` reached by `errors.Unwrap`. -/
def unwrap : GoError → Option GoError
  | plain _ => none
  | net _ => none
  | url _ _ err => some err
  | wrapf _ err => some err

end GoError

/-- The string tests of `isNetworkError`, lines 1327-1367, on `err.Error()`. -/
def isNetworkErrorText (errMsg : String) : Bool :=
  if strContains errMsg "Client.Timeout" then true
  else if strContains errMsg "connection" && (strContains errMsg "reset" ||
      strContains errMsg "closed" ||
      strContains errMsg "refused" ||
      strContains errMsg "broken") then true
  else if strContains errMsg "EOF" ||
      strContains errMsg "unexpected EOF" ||
      strContains errMsg "read: connection closed" ||
      strContains errMsg "body closed" then true
  else if strContains errMsg "timeout" ||
      strContains errMsg "deadline exceeded" then true
  else if strContains errMsg "server closed idle connection" ||
      strContains errMsg "no such host" ||
      strContains errMsg "TLS handshake timeout" ||
      strContains errMsg "503" ||
      strContains errMsg "504" then true
  else false

/-- The function `isNetworkError` on a non-nil error. -/
def isNetworkErr : GoError → Bool
  | .url op u inner =>
    if (GoError.url op u inner).implementsNetError then true
    else isNetworkErr inner
  | err =>
    if err.implementsNetError then true
    else isNetworkErrorText err.Error

/-- The function `isNetworkError`; `none` is the `nil` error. -/
def isNetworkError : Option GoError → Bool
  | none => false
  | some err => isNetworkErr err

/-! ## Requests, responses and the transport -/

/-- The body handed to `http.NewRequest`. -/
inductive Body where
  /-- A `nil` body. -/
  | none
  /-- A literal byte string. -/
  | text (s : String)
  /-- The result of `json.Marshal` on a map of strings: its entries, in key
  order. -/
  | jsonObject (fields : List (String × String))
  deriving DecidableEq, Repr

/-- An `*http.Request`: method, URL, header entries and body. -/
structure Request where
  method : String
  url : String
  header : List (String × String)
  body : Body
  deriving DecidableEq, Repr

/-- An `*http.Response`, as far as the code reads it. -/
structure Response where
  /-- The field `StatusCode`. -/
  statusCode : Int
  /-- The value of `Header.Get("Location")`. -/
  location : String
  /-- The bytes of `Body`. -/
  body : String
  /-- What `client.Jar.Cookies` returns for the userinfo URL once the client
  has received this response. -/
  jarCookies : List (String × String)
  deriving DecidableEq, Repr

/-- `Header.Set(key, value)`. -/
def headerSet (h : List (String × String)) (key value : String) : List (String × String) :=
  h.filter (fun kv => kv.1 != key) ++ [(key, value)]

/-- `Header.Add(key, value)`. -/
def headerAdd (h : List (String × String)) (key value : String) : List (String × String) :=
  h ++ [(key, value)]

/-- The upstream and the network between: what the `n`-th transport call
(counting from 0) answers to the request it carries. -/
abbrev Upstream := Nat → Request → Except GoError Response

/-- Which `http.Client` the field `v.client` holds. -/
inductive HTTPClient where
  /-- The client built by `NewValorantAPI`. -/
  | shared
  /-- The client of `authenticateWithCookiesViaAuthorizeEndpoint`, whose
  `CheckRedirect` returns `http.ErrUseLastResponse`. -/
  | noRedirect
  /-- The client of `authenticateWithCookiesViaAuthEndpoint`. -/
  | freshJar
  deriving DecidableEq, Repr

/-- The fields of `ValorantAPI` together with the effects observed so far. -/
structure World where
  client : HTTPClient
  region : String
  accessToken : String
  entitlementsToken : String
  clientVersion : String
  /-- The transport calls made so far, oldest first. -/
  calls : List Request
  /-- The arguments of the `time.Sleep` calls made so far, in nanoseconds,
  oldest first. -/
  sleeps : List Int
  /-- How often `time.Now` has been read. -/
  clockReads : Nat
  deriving DecidableEq, Repr

/-- `v.client.Do(req)`: one transport call. -/
def clientDo (up : Upstream) (req : Request) (w : World) : Except GoError Response × World :=
  (up w.calls.length req, { w with calls := w.calls ++ [req] })

/-- `time.Sleep(d)`. -/
def timeSleep (d : Int) (w : World) : World :=
  { w with sleeps := w.sleeps ++ [d] }

/-! ## `retryHTTPRequest` -/

/-- Two's-complement reduction to the range of `int64`. -/
def wrapInt64 (x : Int) : Int := (x + 2 ^ 63) % 2 ^ 64 - 2 ^ 63

/-- The constant `baseWaitMS`. -/
def baseWaitMS : Int := 500

/-- `time.Millisecond` and `time.Second` in nanoseconds. -/
def millisecond : Int := 1000000

/-- `time.Second` in nanoseconds. -/
def second : Int := 1000000000

/-- The value of `waitTime` that is slept before the iteration `attempt > 0`,
lines 1264-1267: `time.Duration(baseWaitMS*1<<uint(attempt-1)) * time.Millisecond`
capped at `10*time.Second`.  In Go `*` and `<<` have the same precedence and
associate to the left. -/
def waitTime (attempt : Nat) : Int :=
  let shifted := wrapInt64 (wrapInt64 (baseWaitMS * 1) * 2 ^ (attempt - 1))
  let waitTime := wrapInt64 (shifted * millisecond)
  if waitTime > 10 * second then 10 * second else waitTime

/-- The error of line 1306,
`fmt.Errorf("请求失败，经过%d次尝试: %w", attempt, err)`.  With a `nil` operand
`%w` prints `%!w(<nil>)` and nothing is wrapped. -/
def retryError (attempt : Nat) : Option GoError → GoError
  | some err => .wrapf ("请求失败，经过" ++ toString attempt ++ "次尝试: ") err
  | none => .plain ("请求失败，经过" ++ toString attempt ++ "次尝试: %!w(<nil>)")

/-- The loop `for attempt = 0; attempt <= maxRetries; attempt++` of
`retryHTTPRequest`, entered at `attempt` with `remaining` iterations admitted by
the loop condition (`remaining = maxRetries + 1 - attempt`), together with the
`return` of line 1306.  `err` is the variable `err`. -/
def retryLoop (up : Upstream) (maxRetries : Int) :
    Nat → Nat → Option GoError → Request → World → Except GoError Response × World
  | 0, attempt, err, _, w => (.error (retryError attempt err), w)
  | remaining + 1, attempt, _, req, w =>
    -- `req.Clone` and `req.Header.Clone` copy the request value
    let w := if attempt > 0 then timeSleep (waitTime attempt) w else w
    match clientDo up req w with
    | (.ok resp, w) => (.ok resp, w)
    | (.error err, w) =>
      if (attempt : Int) = maxRetries then (.error (retryError attempt (some err)), w)
      else if isNetworkError (some err) then retryLoop up maxRetries remaining (attempt + 1) (some err) req w
      else (.error (retryError attempt (some err)), w)

/-- The method `retryHTTPRequest(req, maxRetries)`. -/
def retryHTTPRequest (up : Upstream) (req : Request) (maxRetries : Int) (w : World) :
    Except GoError Response × World :=
  retryLoop up maxRetries (maxRetries + 1).toNat 0 none req w

/-! ## Models and library functions -/

/-- `models.ValorantAuthResponse`; `uri` is `Response.Parameters.URI`. -/
structure ValorantAuthResponse where
  type : String
  uri : String
  deriving DecidableEq, Repr

/-- `models.ValorantEntitlementResponse`. -/
structure ValorantEntitlementResponse where
  EntitlementToken : String
  deriving DecidableEq, Repr

/-- `models.ValorantUserInfoResponse`, the fields the code reads; `GameName`
and `TagLine` are the fields of `Acct`. -/
structure ValorantUserInfoResponse where
  Sub : String
  Email : String
  Name : String
  Tag : String
  GameName : String
  TagLine : String
  deriving DecidableEq, Repr

/-- A Go `map[string]β`: its entries, one per key. -/
abbrev GoMap (β : Type) := List (String × β)

/-- A Go `map[string]string`. -/
abbrev StrMap := GoMap String

/-- The lookup `v, ok := m[key]`. -/
def mapLookup {β : Type} (m : GoMap β) (key : String) : Option β :=
  (m.find? (fun kv => kv.1 == key)).map (fun kv => kv.2)

/-- The expression `m[key]` on a map of strings, the empty string when the key
is absent. -/
def mapGet (m : StrMap) (key : String) : String :=
  (mapLookup m key).getD ""

/-- The assignment `m[key] = value`. -/
def mapSet {β : Type} (m : GoMap β) (key : String) (value : β) : GoMap β :=
  if (mapLookup m key).isSome then
    m.map (fun kv => if kv.1 == key then (key, value) else kv)
  else m ++ [(key, value)]

/-- `models.UserSession`. -/
structure UserSession where
  UserID : String
  Username : String
  AccessToken : String
  Entitlement : String
  RiotUsername : String
  RiotTagline : String
  Region : String
  Cookies : StrMap
  deriving DecidableEq, Repr

/-- The functions of `encoding/json`, `net/url` and `golang-jwt` the code calls,
which this development does not define: each is a parameter.  `signHS256`
takes the secret and the claims `UserID`, `Username`, `ExpiresAt`, `IssuedAt`. -/
structure Lib where
  /-- `json.NewDecoder(body).Decode` into a `models.ValorantAuthResponse`. -/
  decodeAuthResponse : String → Except GoError ValorantAuthResponse
  /-- `json.NewDecoder(body).Decode` into a struct with the one field
  `entitlements_token`. -/
  decodeEntitlementResponse : String → Except GoError ValorantEntitlementResponse
  /-- `json.NewDecoder(body).Decode` into a `models.ValorantUserInfoResponse`. -/
  decodeUserInfoResponse : String → Except GoError ValorantUserInfoResponse
  /-- `url.Parse(uri)` followed by the field `Fragment`. -/
  urlParseFragment : String → Except GoError String
  /-- `url.ParseQuery(s)`: the pairs in their order. -/
  urlParseQuery : String → Except GoError (List (String × String))
  /-- `jwt.NewWithClaims(jwt.SigningMethodHS256, claims).SignedString(secret)`. -/
  signHS256 : String → String → String → Int → Int → Except GoError String

/-- `strings.Split(s, string(sep))` on character lists. -/
def splitL (sep : Char) : List Char → List (List Char)
  | [] => [[]]
  | c :: cs =>
    if c = sep then [] :: splitL sep cs
    else
      match splitL sep cs with
      | [] => [[c]]
      | p :: ps => (c :: p) :: ps

/-- `strings.Split(s, string(sep))`. -/
def strSplit (s : String) (sep : Char) : List String :=
  (splitL sep s.data).map String.mk

/-- `strings.TrimPrefix(s, p)` on character lists. -/
def trimPrefixL (s p : List Char) : List Char :=
  if hasPrefixL s p then s.drop p.length else s

/-- `strings.TrimPrefix(s, p)`. -/
def strTrimPrefix (s p : String) : String := String.mk (trimPrefixL s.data p.data)

/-- `unicode.ToLower` as far as it can produce an ASCII letter: the letters
`A`-`Z`, the Kelvin sign U+212A (to `k`) and the dotted capital I U+0130 (to
`i`).  Every other character is left as it is; the library maps some of them
to other characters outside ASCII. -/
def toLowerChar (c : Char) : Char :=
  if 'A' ≤ c ∧ c ≤ 'Z' then Char.ofNat (c.toNat + 32)
  else if c = Char.ofNat 0x212A then 'k'
  else if c = Char.ofNat 0x130 then 'i'
  else c

/-- `strings.ToLower`. -/
def strToLower (s : String) : String := String.mk (s.data.map toLowerChar)

/-! ## Regions -/

/-- The constant `defaultRegion`. -/
def defaultRegion : String := "ap"

/-- The constants `models.RegionAP` .. `models.RegionBR`. -/
def RegionAP : String := "ap"

/-- `models.RegionNA`. -/
def RegionNA : String := "na"

/-- `models.RegionEU`. -/
def RegionEU : String := "eu"

/-- `models.RegionKR`. -/
def RegionKR : String := "kr"

/-- `models.RegionLATAM`. -/
def RegionLATAM : String := "latam"

/-- `models.RegionBR`. -/
def RegionBR : String := "br"

/-- The six region codes of `models/internal.go`, in the order of
`UserService.SetUserRegion`. -/
def validRegions : List String :=
  [RegionAP, RegionNA, RegionEU, RegionKR, RegionLATAM, RegionBR]

/-- The method `SetRegion`. -/
def SetRegion (region : String) (w : World) : World :=
  if region = "" then { w with region := defaultRegion }
  else
    let region := strToLower region
    if region = "na" ∨ region = "latam" ∨ region = "br" then { w with region := "na" }
    else if region = "eu" then { w with region := "eu" }
    else if region = "ap" ∨ region = "kr" then { w with region := region }
    else if region = "pbe" then { w with region := "pbe" }
    else { w with region := defaultRegion }

/-! ## The upstream calls of `ValorantAPI` -/

/-- The constant `loginURL` (and `loginUserPassURL`). -/
def loginURL : String := "https://auth.riotgames.com/api/v1/authorization"

/-- The constant `entitlementsURL`. -/
def entitlementsURL : String := "https://entitlements.auth.riotgames.com/api/token/v1"

/-- The constant `userInfoURL`. -/
def userInfoURL : String := "https://auth.riotgames.com/userinfo"

/-- `http.NewRequest(method, url, body)`; the URLs the code passes are
well-formed, so that the call does not fail. -/
def newRequest (method url : String) (body : Body) : Request :=
  { method := method, url := url, header := [], body := body }

/-- The method `addCommonHeaders`. -/
def addCommonHeaders (w : World) (req : Request) : Request :=
  let h := headerSet req.header "User-Agent"
    "RiotClient/43.0.1.4195386.4190634 rso-auth (Windows;10;;Professional, x64)"
  let h := headerSet h "Accept-Language" "en-US,en;q=0.9"
  let h := headerSet h "Accept" "application/json, text/plain, */*"
  let h := headerSet h "Origin" "https://playvalorant.com"
  let h := headerSet h "Referer" "https://playvalorant.com/"
  let h := headerSet h "Content-Type" "application/json"
  let h := headerSet h "Cookie" "dummy=value"
  let h := if w.entitlementsToken ≠ "" then
    headerSet h "X-Riot-Entitlements-JWT" w.entitlementsToken else h
  let h := if w.accessToken ≠ "" then
    headerSet h "Authorization" ("Bearer " ++ w.accessToken) else h
  { req with header := h }

/-- The method `makeRequest(method, url, data, result)`; `result` is the
decoder of the value `result` points to, `none` when `result` is `nil`. -/
def makeRequest {α : Type} (up : Upstream) (method url : String) (data : Body)
    (result : Option (String → Except GoError α)) (w : World) :
    Except GoError (Option α) × World :=
  let req := newRequest method url data
  let req := { req with header := headerAdd req.header "Content-Type" "application/json" }
  let req := { req with header := headerAdd req.header "User-Agent" ("RiotClient/" ++ w.clientVersion) }
  match clientDo up req w with
  | (.error err, w) => (.error err, w)
  | (.ok resp, w) =>
    if resp.statusCode < 200 ∨ resp.statusCode ≥ 300 then
      (.error (.plain ("请求失败，状态码: " ++ toString resp.statusCode ++ ", 响应: " ++ resp.body)), w)
    else
      match result with
      | none => (.ok none, w)
      | some decode =>
        match decode resp.body with
        | .error err => (.error err, w)
        | .ok v => (.ok (some v), w)

/-- The method `requestAuth`. -/
def requestAuth (up : Upstream) (w : World) : Option GoError × World :=
  let data := Body.jsonObject [("client_id", "play-valorant-web-prod"), ("nonce", "1"),
    ("redirect_uri", "https://playvalorant.com/opt_in"), ("response_type", "token id_token"),
    ("scope", "account openid")]
  match makeRequest (α := Unit) up "POST" loginURL data none w with
  | (.error err, w) => (some err, w)
  | (.ok _, w) => (none, w)

/-- The method `requestLogin`. -/
def requestLogin (lib : Lib) (up : Upstream) (username password : String) (w : World) :
    Except GoError ValorantAuthResponse × World :=
  let data := Body.jsonObject [("password", password), ("type", "auth"), ("username", username)]
  match makeRequest up "PUT" loginURL data (some lib.decodeAuthResponse) w with
  | (.error err, w) => (.error err, w)
  | (.ok r, w) =>
    -- `resp` is the zero value when nothing was decoded into it
    let resp := r.getD { type := "", uri := "" }
    if resp.type ≠ "response" then (.error (.plain "登录失败，请检查用户名和密码"), w)
    else (.ok resp, w)

/-- The method `getEntitlementToken`. -/
def getEntitlementToken (lib : Lib) (up : Upstream) (accessToken : String) (w : World) :
    Except GoError String × World :=
  let req := newRequest "POST" entitlementsURL .none
  let req := addCommonHeaders { w with accessToken := accessToken } req
  match clientDo up req w with
  | (.error err, w) => (.error err, w)
  | (.ok resp, w) =>
    if resp.statusCode ≠ 200 then
      (.error (.plain ("获取授权令牌失败，状态码: " ++ toString resp.statusCode)), w)
    else
      match lib.decodeEntitlementResponse resp.body with
      | .error err => (.error err, w)
      | .ok entitlementResp => (.ok entitlementResp.EntitlementToken, w)

/-- The method `getUserInfo`. -/
def getUserInfo (lib : Lib) (up : Upstream) (accessToken : String) (w : World) :
    Except GoError ValorantUserInfoResponse × World :=
  let req := newRequest "GET" userInfoURL .none
  let req := addCommonHeaders { w with accessToken := accessToken } req
  match clientDo up req w with
  | (.error err, w) => (.error err, w)
  | (.ok resp, w) =>
    if resp.statusCode ≠ 200 then
      (.error (.plain ("获取用户信息失败，状态码: " ++ toString resp.statusCode)), w)
    else
      match lib.decodeUserInfoResponse resp.body with
      | .error err => (.error err, w)
      | .ok userInfo => (.ok userInfo, w)

/-- The slice `regionsToTry` of `GetPlayerRegion`. -/
def regionsToTry : List String := ["na", "eu", "ap", "kr", "latam", "br"]

/-- The loop `for _, region := range regionsToTry` of `GetPlayerRegion` over
the regions still to try, with the `return` of line 261 behind it. -/
def probeRegions (up : Upstream) (puuid accessToken entitlementToken : String) :
    List String → World → (String × Option GoError) × World
  | [], w =>
    ((defaultRegion, some (.plain ("无法确定玩家区域，使用默认区域: " ++ defaultRegion))), w)
  | region :: rest, w =>
    let originalRegion := w.region
    let w := SetRegion region w
    let url := "https://pd." ++ w.region ++ ".a.pvp.net/name-service/v2/players"
    let req := newRequest "PUT" url (.text ("[\"" ++ puuid ++ "\"]"))
    let req := addCommonHeaders
      { w with accessToken := accessToken, entitlementsToken := entitlementToken } req
    match clientDo up req w with
    | (.error _, w) =>
      probeRegions up puuid accessToken entitlementToken rest { w with region := originalRegion }
    | (.ok resp, w) =>
      if resp.statusCode = 200 then ((region, none), w)
      else
        probeRegions up puuid accessToken entitlementToken rest { w with region := originalRegion }

/-- The method `GetPlayerRegion`: the returned string and the returned error. -/
def GetPlayerRegion (lib : Lib) (up : Upstream) (accessToken entitlementToken : String)
    (w : World) : (String × Option GoError) × World :=
  match getUserInfo lib up accessToken w with
  | (.error err, w) => (("", some (.wrapf "获取用户信息失败: " err)), w)
  | (.ok userInfo, w) =>
    let puuid := userInfo.Sub
    if puuid = "" then (("", some (.plain "无法获取用户ID")), w)
    else probeRegions up puuid accessToken entitlementToken regionsToTry w

/-- The function `parseAuthURI`. -/
def parseAuthURI (lib : Lib) (uri : String) : Except GoError String :=
  if uri = "" then .error (.plain "空的认证URI")
  else
    match lib.urlParseFragment uri with
    | .error err => .error err
    | .ok fragment =>
      let params := strSplit fragment '&'
      match params.find? (fun param => strHasPrefix param "access_token=") with
      | some param => .ok (strTrimPrefix param "access_token=")
      | none => .error (.plain "无法找到访问令牌")

/-- The method `Authenticate`. -/
def Authenticate (lib : Lib) (up : Upstream) (username password : String) (w : World) :
    Except GoError UserSession × World :=
  match requestAuth up w with
  | (some err, w) => (.error (.wrapf "认证步骤1失败: " err), w)
  | (none, w) =>
    match requestLogin lib up username password w with
    | (.error err, w) => (.error (.wrapf "认证步骤2失败: " err), w)
    | (.ok authResponse, w) =>
      match parseAuthURI lib authResponse.uri with
      | .error err => (.error (.wrapf "解析访问令牌失败: " err), w)
      | .ok accessToken =>
        match getEntitlementToken lib up accessToken w with
        | (.error err, w) => (.error (.wrapf "获取授权令牌失败: " err), w)
        | (.ok entitlementToken, w) =>
          match getUserInfo lib up accessToken w with
          | (.error err, w) => (.error (.wrapf "获取用户信息失败: " err), w)
          | (.ok userInfo, w) =>
            let ((region, err), w) := GetPlayerRegion lib up accessToken entitlementToken w
            let (region, w) :=
              if err.isSome then (defaultRegion, w) else (region, SetRegion region w)
            let session : UserSession :=
              { UserID := userInfo.Sub, Username := username, AccessToken := accessToken,
                Entitlement := entitlementToken, RiotUsername := "", RiotTagline := "",
                Region := region, Cookies := [] }
            let session :=
              if userInfo.GameName ≠ "" ∧ userInfo.TagLine ≠ "" then
                { session with RiotUsername := userInfo.GameName, RiotTagline := userInfo.TagLine }
              else
                { session with RiotUsername := userInfo.Name, RiotTagline := userInfo.Tag }
            (.ok session, w)

/-! ## Cookies -/

/-- `unicode.IsSpace`: the white space characters of Unicode. -/
def isSpace (c : Char) : Bool :=
  c = '\t' ∨ c = '\n' ∨ c = Char.ofNat 0x0B ∨ c = Char.ofNat 0x0C ∨ c = '\r' ∨ c = ' ' ∨
  c = Char.ofNat 0x85 ∨ c = Char.ofNat 0xA0 ∨ c = Char.ofNat 0x1680 ∨
  (0x2000 ≤ c.toNat ∧ c.toNat ≤ 0x200A) ∨ c = Char.ofNat 0x2028 ∨ c = Char.ofNat 0x2029 ∨
  c = Char.ofNat 0x202F ∨ c = Char.ofNat 0x205F ∨ c = Char.ofNat 0x3000

/-- Removal of the leading and trailing characters that satisfy `p`, the
common core of `strings.TrimSpace` and `strings.Trim`. -/
def trimL (p : Char → Bool) (s : List Char) : List Char :=
  ((s.dropWhile p).reverse.dropWhile p).reverse

/-- `strings.TrimSpace`. -/
def strTrimSpace (s : String) : String := String.mk (trimL isSpace s.data)

/-- `strings.Trim(s, cutset)`. -/
def strTrim (s cutset : String) : String := String.mk (trimL (fun c => cutset.data.contains c) s.data)

/-- `strings.Index(s, string(c))` as the pair `(s[:i], s[i+1:])`, `none` when
the index is -1. -/
def cutL (c : Char) : List Char → Option (List Char × List Char)
  | [] => none
  | d :: s =>
    if d = c then some ([], s)
    else (cutL c s).map (fun ab => (d :: ab.1, ab.2))

/-- `strings.ReplaceAll(s, string(c), "")`. -/
def strRemoveAll (s : String) (c : Char) : String := String.mk (s.data.filter (fun d => d != c))

/-- The body of the loop `for _, part := range parts` of
`EnhancedParseCookieString`. -/
def parseCookiePart (cookieMap : StrMap) (part : String) : StrMap :=
  let part := strTrimSpace part
  if part = "" then cookieMap
  else
    match cutL '=' part.data with
    | some (before, after) =>
      let name := strTrimSpace (String.mk before)
      let value := strTrimSpace (String.mk after)
      let value := strTrim value "\"\x27"
      if name ≠ "" then mapSet cookieMap name value else cookieMap
    | none =>
      match cutL ':' part.data with
      | some (before, after) =>
        let name := strTrimSpace (String.mk before)
        let value := strTrimSpace (String.mk after)
        let value := strTrim value "\"\x27"
        if name ≠ "" then mapSet cookieMap name value else cookieMap
      | none => cookieMap

/-- The function `EnhancedParseCookieString`. -/
def EnhancedParseCookieString (cookieStr : String) : StrMap :=
  if cookieStr = "" then []
  else
    let cleanCookieStr := strRemoveAll cookieStr '\r'
    let cleanCookieStr := strRemoveAll cleanCookieStr '\n'
    let parts :=
      if strContains cleanCookieStr ";" then strSplit cleanCookieStr ';'
      else if strContains cleanCookieStr "," then strSplit cleanCookieStr ','
      else [cleanCookieStr]
    parts.foldl parseCookiePart []

/-- The function `FilterEssentialCookies`. -/
def FilterEssentialCookies (cookies : StrMap) : StrMap :=
  let essentialNames := ["ssid", "sub", "csid", "clid", "tdid", "asid"]
  if cookies.length = 0 then cookies
  else
    let hasAnyEssential := essentialNames.any (fun name => (mapLookup cookies name).isSome)
    if hasAnyEssential then cookies
    else cookies

/-- The function `StringifyCookies`, the entries taken in the order in which
the map holds them. -/
def StringifyCookies (cookies : StrMap) : String :=
  "; ".intercalate (cookies.map (fun kv => kv.1 ++ "=" ++ kv.2))

/-- The function `setRiotRequestHeaders`. -/
def setRiotRequestHeaders (req : Request) (cookies : StrMap) : Request :=
  let cookieString := StringifyCookies cookies
  let h := headerSet req.header "Cookie" cookieString
  let h := headerSet h "Content-Type" "application/json"
  let h := headerSet h "User-Agent"
    "RiotClient/58.0.0.4640299.4552318 rso-auth (Windows;10;;Professional, x64)"
  let h := headerSet h "Accept" "application/json, text/plain, */*"
  let h := headerSet h "Accept-Language" "en-US,en;q=0.9"
  let h := headerSet h "Origin" "https://auth.riotgames.com"
  let h := headerSet h "DNT" "1"
  let h := headerSet h "Pragma" "no-cache"
  let h := headerSet h "Cache-Control" "no-cache"
  { req with header := h }

/-- The function `parseAccessTokenFromURI`. -/
def parseAccessTokenFromURI (lib : Lib) (uri : String) : Except GoError String :=
  match lib.urlParseFragment uri with
  | .error err => .error err
  | .ok fragment =>
    if fragment = "" then .error (.plain "URI中没有找到fragment部分")
    else
      match lib.urlParseQuery fragment with
      | .error err => .error err
      | .ok values =>
        let accessToken := mapGet values "access_token"
        if accessToken = "" then .error (.plain "没有找到access_token")
        else .ok accessToken

/-- The function `getTokenValue`. -/
def getTokenValue (cookies : StrMap) : String :=
  match mapLookup cookies "ssid" with
  | some token => token
  | none => "cookie-session"

/-- The second method of `authenticateWithCookiesViaAuthorizeEndpoint`, lines
952-1021: the authorize request replayed with the cookies. -/
def authorizeRedirect (lib : Lib) (up : Upstream) (essentialCookies : StrMap) (w : World) :
    Except GoError UserSession × World :=
  let authURL := "https://auth.riotgames.com/authorize?redirect_uri=https%3A%2F%2Fplayvalorant.com%2Fopt_in&client_id=play-valorant-web-prod&response_type=token%20id_token&scope=account%20openid&nonce=1"
  let req := setRiotRequestHeaders (newRequest "GET" authURL .none) essentialCookies
  match clientDo up req w with
  | (.error err, w) => (.error err, w)
  | (.ok resp, w) =>
    if resp.statusCode ≠ 302 ∧ resp.statusCode ≠ 303 then
      (.error (.plain ("认证请求失败，状态码: " ++ toString resp.statusCode ++ ", 响应: " ++ resp.body)), w)
    else
      let location := resp.location
      if location = "" then (.error (.plain "响应中没有Location头"), w)
      else if strContains location "/login" then (.error (.plain "Cookie无效或已过期"), w)
      else if !strContains location "access_token=" then (.error (.plain "无法从响应中提取令牌"), w)
      else
        match parseAccessTokenFromURI lib location with
        | .error err => (.error (.wrapf "提取访问令牌失败: " err), w)
        | .ok accessToken =>
          match getEntitlementToken lib up accessToken w with
          | (.error err, w) => (.error (.wrapf "获取授权令牌失败: " err), w)
          | (.ok entitlementToken, w) =>
            match getUserInfo lib up accessToken w with
            | (.error err, w) => (.error (.wrapf "获取用户信息失败: " err), w)
            | (.ok userInfo, w) =>
              (.ok { UserID := userInfo.Sub, Username := userInfo.Email,
                     AccessToken := accessToken, Entitlement := entitlementToken,
                     RiotUsername := userInfo.Name, RiotTagline := userInfo.Tag,
                     Region := "", Cookies := essentialCookies }, w)

/-- The method `authenticateWithCookiesViaAuthorizeEndpoint`. -/
def authenticateWithCookiesViaAuthorizeEndpoint (lib : Lib) (up : Upstream) (cookies : StrMap)
    (w : World) : Except GoError UserSession × World :=
  let w := { w with client := HTTPClient.noRedirect }
  let essentialCookies := FilterEssentialCookies cookies
  if essentialCookies.length = 0 then (.error (.plain "没有提供任何Cookie"), w)
  else
    let userInfoReq := setRiotRequestHeaders (newRequest "GET" userInfoURL .none) essentialCookies
    match clientDo up userInfoReq w with
    | (.error _, w) => authorizeRedirect lib up essentialCookies w
    | (.ok userInfoResp, w) =>
      if userInfoResp.statusCode = 200 then
        match lib.decodeUserInfoResponse userInfoResp.body with
        | .error _ => authorizeRedirect lib up essentialCookies w
        | .ok userInfo =>
          match getEntitlementToken lib up (mapGet essentialCookies "ssid") w with
          | (.error _, w) => authorizeRedirect lib up essentialCookies w
          | (.ok entitlementToken, w) =>
            (.ok { UserID := userInfo.Sub, Username := userInfo.Email,
                   AccessToken := mapGet essentialCookies "ssid",
                   Entitlement := entitlementToken,
                   RiotUsername := userInfo.Name, RiotTagline := userInfo.Tag,
                   Region := "", Cookies := essentialCookies }, w)
      else authorizeRedirect lib up essentialCookies w

/-- Lines 1095-1192 of `authenticateWithCookiesViaAuthEndpoint`: the cookie
state is fetched, the jar is merged into the cookies and the tokens are asked
for. -/
def authEndpointReplay (lib : Lib) (up : Upstream) (essentialCookies : StrMap) (w : World) :
    Except GoError UserSession × World :=
  let authCheckURL := "https://auth.riotgames.com/authorize?redirect_uri=https%3A%2F%2Fplayvalorant.com%2Fopt_in&client_id=play-valorant-web-prod&response_type=token%20id_token&nonce=1"
  let req := setRiotRequestHeaders (newRequest "GET" authCheckURL .none) essentialCookies
  match clientDo up req w with
  | (.error err, w) => (.error err, w)
  | (.ok resp, w) =>
    let essentialCookies :=
      resp.jarCookies.foldl (fun m cookie => mapSet m cookie.1 cookie.2) essentialCookies
    let req := setRiotRequestHeaders (newRequest "GET" userInfoURL .none) essentialCookies
    match clientDo up req w with
    | (.error err, w) => (.error err, w)
    | (.ok resp, w) =>
      if resp.statusCode = 200 then
        match lib.decodeUserInfoResponse resp.body with
        | .error err => (.error (.wrapf "解析用户信息失败: " err), w)
        | .ok userInfo =>
          let req := setRiotRequestHeaders
            (newRequest "POST" "https://auth.riotgames.com/api/token/v1" (.text "\x7b\x7d"))
            essentialCookies
          match clientDo up req w with
          | (.error err, w) => (.error err, w)
          | (.ok _, w) =>
            let req := setRiotRequestHeaders
              (newRequest "POST" "https://entitlements.auth.riotgames.com/api/token/v1"
                (.text "\x7b\x7d")) essentialCookies
            match clientDo up req w with
            | (.error err, w) => (.error err, w)
            | (.ok resp, w) =>
              if resp.statusCode = 200 then
                match lib.decodeEntitlementResponse resp.body with
                | .error err => (.error (.wrapf "解析entitlement令牌失败: " err), w)
                | .ok entitlementResp =>
                  (.ok { UserID := userInfo.Sub, Username := userInfo.Email,
                         AccessToken := getTokenValue essentialCookies,
                         Entitlement := entitlementResp.EntitlementToken,
                         RiotUsername := userInfo.Name, RiotTagline := userInfo.Tag,
                         Region := "", Cookies := essentialCookies }, w)
              else (.error (.plain "备用认证方法失败"), w)
      else (.error (.plain "备用认证方法失败"), w)

/-- The method `authenticateWithCookiesViaAuthEndpoint`. -/
def authenticateWithCookiesViaAuthEndpoint (lib : Lib) (up : Upstream) (cookies : StrMap)
    (w : World) : Except GoError UserSession × World :=
  let w := { w with client := HTTPClient.freshJar }
  let essentialCookies := FilterEssentialCookies cookies
  if essentialCookies.length = 0 then (.error (.plain "没有提供任何Cookie"), w)
  else
    match mapLookup essentialCookies "ssid" with
    | some ssid =>
      let req := newRequest "GET" userInfoURL .none
      let req := { req with header := headerAdd req.header "Authorization" ("Bearer " ++ ssid) }
      let req := { req with header := headerAdd req.header "Content-Type" "application/json" }
      match clientDo up req w with
      | (.error err, w) => (.error err, w)
      | (.ok resp, w) =>
        if resp.statusCode = 200 then
          match lib.decodeUserInfoResponse resp.body with
          | .error err => (.error (.wrapf "解析用户信息失败: " err), w)
          | .ok userInfo =>
            match getEntitlementToken lib up ssid w with
            | (.error err, w) => (.error (.wrapf "获取授权令牌失败: " err), w)
            | (.ok entitlementToken, w) =>
              (.ok { UserID := userInfo.Sub, Username := userInfo.Email,
                     AccessToken := ssid, Entitlement := entitlementToken,
                     RiotUsername := userInfo.Name, RiotTagline := userInfo.Tag,
                     Region := "", Cookies := essentialCookies }, w)
        else authEndpointReplay lib up essentialCookies w
    | none => authEndpointReplay lib up essentialCookies w

/-- The method `AuthenticateWithCookies`. -/
def AuthenticateWithCookies (lib : Lib) (up : Upstream) (cookies : StrMap) (w : World) :
    Except GoError UserSession × World :=
  let (r, w) :=
    match authenticateWithCookiesViaAuthorizeEndpoint lib up cookies w with
    | (.ok session, w) => (Except.ok session, w)
    | (.error _, w) => authenticateWithCookiesViaAuthEndpoint lib up cookies w
  match r with
  | .error err => (.error err, w)
  | .ok session =>
    match getUserInfo lib up session.AccessToken w with
    | (.error err, w) => (.error (.wrapf "获取用户信息失败: " err), w)
    | (.ok userInfo, w) =>
      (.ok { session with RiotUsername := userInfo.Name, RiotTagline := userInfo.Tag,
                          Region := "" }, w)

/-! ## The services -/

/-- `models.UserTokensResponse`; `Username` and `UserID` are the fields of
`User`. -/
structure UserTokensResponse where
  Token : String
  Username : String
  UserID : String
  deriving DecidableEq, Repr

/-- `time.Now`: the instant, in nanoseconds since the epoch, that the `k`-th
reading of the clock (counting from 0) returns. -/
abbrev Clock := Nat → Int

/-- The fields of `AuthService` and of the `ShopService` it shares the
`ValorantAPI` with. -/
structure Services where
  /-- The field `AuthService.jwtSecret`. -/
  jwtSecret : String
  /-- The field `AuthService.tokenExpiry`, in nanoseconds. -/
  tokenExpiry : Int
  /-- Whether `AuthService.sessionCache` is non-nil, that is, whether
  `SetSessionCache(shopService)` has been called. -/
  cacheSet : Bool
  /-- The field `ShopService.sessionCache`. -/
  sessionCache : GoMap UserSession
  deriving DecidableEq, Repr

/-- `jwt.NewNumericDate(t)`, which truncates `t` to whole seconds. -/
def newNumericDate (t : Int) : Int := t - t % second

/-- The formatted user name built in `Login`, `LoginWithCookies` and
`generateJWT`. -/
def formattedUsername (session : UserSession) : String :=
  if session.RiotTagline ≠ "" then session.RiotUsername ++ "#" ++ session.RiotTagline
  else session.RiotUsername

/-- The method `AuthService.generateJWT`. -/
def generateJWT (lib : Lib) (clock : Clock) (sv : Services) (session : UserSession) (w : World) :
    Except GoError String × World :=
  let formattedUsername := formattedUsername session
  let expiresAt := newNumericDate (clock w.clockReads + sv.tokenExpiry)
  let issuedAt := newNumericDate (clock (w.clockReads + 1))
  let w := { w with clockReads := w.clockReads + 2 }
  (lib.signHS256 sv.jwtSecret session.UserID formattedUsername expiresAt issuedAt, w)

/-- The method `ShopService.CacheUserSession`. -/
def CacheUserSession (userID : String) (session : UserSession) (sv : Services) : Services :=
  { sv with sessionCache := mapSet sv.sessionCache userID session }

/-- The method `ShopService.GetCachedSession`: the session and `exists`. -/
def GetCachedSession (userID : String) (sv : Services) : Option UserSession :=
  mapLookup sv.sessionCache userID

/-- The method `AuthService.Login`. -/
def Login (lib : Lib) (clock : Clock) (up : Upstream) (username password : String)
    (sv : Services) (w : World) : Except GoError UserTokensResponse × Services × World :=
  match Authenticate lib up username password w with
  | (.error err, w) => (.error (.wrapf "认证失败: " err), sv, w)
  | (.ok session, w) =>
    let (session, w) :=
      if session.Region = "" then ({ session with Region := RegionAP }, SetRegion RegionAP w)
      else (session, w)
    let sv := if sv.cacheSet then CacheUserSession session.UserID session sv else sv
    match generateJWT lib clock sv session w with
    | (.error err, w) => (.error (.wrapf "生成令牌失败: " err), sv, w)
    | (.ok token, w) =>
      (.ok { Token := token, Username := formattedUsername session, UserID := session.UserID },
        sv, w)

/-- The method `AuthService.LoginWithCookies`. -/
def LoginWithCookies (lib : Lib) (clock : Clock) (up : Upstream) (cookieStr region : String)
    (sv : Services) (w : World) : Except GoError UserTokensResponse × Services × World :=
  let cookies := EnhancedParseCookieString cookieStr
  if cookies.length = 0 then (.error (.plain "无法解析Cookie字符串，请确保格式正确"), sv, w)
  else
    match AuthenticateWithCookies lib up cookies w with
    | (.error err, w) => (.error (.wrapf "Cookie认证失败: " err), sv, w)
    | (.ok session, w) =>
      let (session, w) :=
        if region ≠ "" then ({ session with Region := region }, SetRegion region w)
        else ({ session with Region := RegionAP }, SetRegion RegionAP w)
      match generateJWT lib clock sv session w with
      | (.error err, w) => (.error (.wrapf "生成JWT失败: " err), sv, w)
      | (.ok token, w) =>
        let sv := if sv.cacheSet then CacheUserSession session.UserID session sv else sv
        (.ok { Token := token, Username := formattedUsername session, UserID := session.UserID },
          sv, w)

/-- The method `ShopService.UpdateUserRegion`: the returned error. -/
def UpdateUserRegion (userID region : String) (sv : Services) (w : World) :
    Option GoError × Services × World :=
  match mapLookup sv.sessionCache userID with
  | none => (some (.plain "用户会话不存在，请先登录"), sv, w)
  | some session =>
    let session := { session with Region := region }
    let sv := { sv with sessionCache := mapSet sv.sessionCache userID session }
    let w := SetRegion region w
    (none, sv, w)

/-- The method `UserService.SetUserRegion`: the returned error. -/
def SetUserRegion (region : String) (w : World) : Option GoError × World :=
  let isValid := validRegions.any (fun validRegion => region = validRegion)
  if !isValid then (some (.plain ("无效的区域代码: " ++ region)), w)
  else (none, SetRegion region w)

/-- The handler `UserHandler.SetUserRegion` of `POST /user/region`, the one
caller of `ShopService.UpdateUserRegion`: the status code of its response.
`userID` is what `middleware.GetUserID` returns and `bound` is the outcome of
`c.ShouldBindJSON` into a `models.RegionRequest`, its field `Region`. -/
def UserHandler.SetUserRegion (userID : String) (bound : Except GoError String)
    (sv : Services) (w : World) : Nat × Services × World :=
  if userID = "" then (400, sv, w)
  else
    match bound with
    | .error _ => (400, sv, w)
    | .ok region =>
      match ValStore.SetUserRegion region w with
      | (some _, w) => (400, sv, w)
      | (none, w) =>
        match UpdateUserRegion userID region sv w with
        | (some _, sv, w) => (500, sv, w)
        | (none, sv, w) => (200, sv, w)

/-! ## Auxiliary definitions for the statements about `retryHTTPRequest` -/


/-- The sleeps of `k` consecutive iterations of the retry loop that starts at
the iteration `a`: the first iteration of all sleeps nothing. -/
def backoffs : Nat → Nat → List Int
  | _, 0 => []
  | a, k + 1 => (if a > 0 then [waitTime a] else []) ++ backoffs (a + 1) k

/-- The variable `err` after `k` more transport calls have failed, the first of
them being the transport call number `L`. -/
def errAfter (up : Upstream) (req : Request) (L : Nat) : Nat → Option GoError → Option GoError
  | 0, err => err
  | k + 1, _ =>
    match up (L + k) req with
    | .error e => some e
    | .ok _ => none

/-- The limits with which the program calls `retryHTTPRequest`, at the lines
481, 523 and 589; the method is not exported. -/
def retryLimitsUsed : List Int := [3, 2, 3]

/-! ## The retryable kinds in the words of the specification -/

/-- The failures that section 4.1 of the specification lists as retryable, read
off the error text: connection reset, closed or refused; DNS resolution
failure; TLS handshake timeout; deadline or timeout exceeded; a text flagged
503 or 504. -/
def specListedKind (errMsg : String) : Bool :=
  (strContains errMsg "connection" && (strContains errMsg "reset" ||
    strContains errMsg "closed" || strContains errMsg "refused")) ||
  strContains errMsg "no such host" ||
  strContains errMsg "TLS handshake timeout" ||
  strContains errMsg "deadline exceeded" || strContains errMsg "timeout" ||
  strContains errMsg "503" || strContains errMsg "504"

/-- The classification of the specification: `nil` is not retryable, an error
is retryable when it is of a listed kind. -/
def specIsRetryable : Option GoError → Bool
  | none => false
  | some err => specListedKind err.Error

/-! ## Auxiliary definitions for the statements about sessions -/

/-- The token is the field `entitlements_token` that `lib` decodes from the
body of a response with the status 200 that the upstream gives. -/
def FromUpstreamEntitlement (lib : Lib) (up : Upstream) (token : String) : Prop :=
  ∃ n req resp r, up n req = .ok resp ∧ resp.statusCode = 200 ∧
    lib.decodeEntitlementResponse resp.body = .ok r ∧ r.EntitlementToken = token

/-- During a call that starts in the state `w` and ends in the state `wf`, an
entitlement request was made, a POST to the entitlements endpoint that stands
in the call log of `wf` at an index `n` not before the start; the upstream
answered that call with the status 200, and `token` is the field
`entitlements_token` that `lib` decodes from the body of the answer. -/
def EntitlementCallMade (lib : Lib) (up : Upstream) (w wf : World) (token : String) : Prop :=
  ∃ n req resp r, w.calls.length ≤ n ∧ wf.calls[n]? = some req ∧
    req.method = "POST" ∧ req.url = entitlementsURL ∧
    up n req = .ok resp ∧ resp.statusCode = 200 ∧
    lib.decodeEntitlementResponse resp.body = .ok r ∧ r.EntitlementToken = token

/-- The request that `requestAuth` sends through `makeRequest`. -/
def initRequest (w : World) : Request :=
  { method := "POST", url := loginURL,
    header := [("Content-Type", "application/json"),
      ("User-Agent", "RiotClient/" ++ w.clientVersion)],
    body := .jsonObject [("client_id", "play-valorant-web-prod"), ("nonce", "1"),
      ("redirect_uri", "https://playvalorant.com/opt_in"), ("response_type", "token id_token"),
      ("scope", "account openid")] }

/-- The request that `requestLogin` sends through `makeRequest`. -/
def loginRequest (w : World) (username password : String) : Request :=
  { method := "PUT", url := loginURL,
    header := [("Content-Type", "application/json"),
      ("User-Agent", "RiotClient/" ++ w.clientVersion)],
    body := .jsonObject [("password", password), ("type", "auth"), ("username", username)] }

/-! ## Sample inputs -/

/-- The state `NewValorantAPI` returns when the version lookup fails, before
any transport call. -/
def initialWorld : World :=
  { client := .shared, region := defaultRegion, accessToken := "", entitlementsToken := "",
    clientVersion := "release-10.07-shipping-6-3399868", calls := [], sleeps := [],
    clockReads := 0 }

/-- A wallet request as `GetWallet` hands it to `retryHTTPRequest`. -/
def sampleRequest : Request :=
  newRequest "GET" "https://pd.ap.a.pvp.net/store/v1/wallet/player-1" .none

/-- An upstream that cannot be reached: every transport call fails with a
`net.Error`. -/
def resetUpstream : Upstream :=
  fun _ _ => .error (.net "read tcp: connection reset by peer")

/-- An upstream whose first two transport calls fail with a `net.Error` and
which answers 404 from then on. -/
def flakyUpstream : Upstream :=
  fun n _ =>
    if n < 2 then .error (.net "read tcp: connection reset by peer")
    else .ok { statusCode := 404, location := "", body := "not found", jarCookies := [] }

/-- The function `urlErrorOp` of `net/http`, the field `Op` of the error that
`Client.Do` returns: the method with its first letter kept and the rest in lower
case, `Get` for the empty method. -/
def urlErrorOp (method : String) : String :=
  if method = "" then "Get" else method.take 1 ++ strToLower (method.drop 1)

/-- The failure of the certificate check, the cause of the error of
`untrustedUpstream`. -/
def certificateError : GoError :=
  .plain "tls: failed to verify certificate: x509: certificate signed by unknown authority"

/-- An upstream whose certificate is not trusted: every transport call fails,
and `Client.Do` returns the failure of the certificate check inside a
`*url.Error`, as it returns every failure. -/
def untrustedUpstream : Upstream :=
  fun _ req => .error (.url (urlErrorOp req.method) req.url certificateError)

/-- The body of a userinfo response for the player `player-1`. -/
def userInfoBody : String :=
  "\x7b\"sub\":\"player-1\",\"email\":\"neo@example.com\",\"name\":\"Neo\",\"tag\":\"0001\"\x7d"

/-- The body of an entitlement response with the token `ent-1`. -/
def entitlementBody : String := "\x7b\"entitlements_token\":\"ent-1\"\x7d"

/-- The body of an accepted credential submission. -/
def authBody : String :=
  "\x7b\"type\":\"response\",\"response\":\x7b\"parameters\":\x7b\"uri\":\"https://playvalorant.com/opt_in#access_token=tok-1\"\x7d\x7d\x7d"

/-- The library functions on the bodies and addresses of the sample upstreams:
the decoders know the three sample bodies and the empty object, the fragment of
an address is what follows its first `#`, a query is split at `&` and `=`, and
the signature is not computed. -/
def sampleLib : Lib :=
  { decodeAuthResponse := fun body =>
      if body = authBody then
        .ok { type := "response", uri := "https://playvalorant.com/opt_in#access_token=tok-1" }
      else if body = "\x7b\x7d" then .ok { type := "", uri := "" }
      else .error (.plain "invalid character"),
    decodeEntitlementResponse := fun body =>
      if body = entitlementBody then .ok { EntitlementToken := "ent-1" }
      else if body = "\x7b\x7d" then .ok { EntitlementToken := "" }
      else .error (.plain "invalid character"),
    decodeUserInfoResponse := fun body =>
      if body = userInfoBody then
        .ok { Sub := "player-1", Email := "neo@example.com", Name := "Neo", Tag := "0001",
              GameName := "", TagLine := "" }
      else if body = "\x7b\x7d" then
        .ok { Sub := "", Email := "", Name := "", Tag := "", GameName := "", TagLine := "" }
      else .error (.plain "invalid character"),
    urlParseFragment := fun uri =>
      match cutL '#' uri.data with
      | some (_, fragment) => .ok (String.mk fragment)
      | none => .ok "",
    urlParseQuery := fun query =>
      .ok ((strSplit query '&').map (fun pair =>
        match cutL '=' pair.data with
        | some (key, value) => (String.mk key, String.mk value)
        | none => (pair, ""))),
    signHS256 := fun _ userID _ _ _ => .ok ("header.claims-of-" ++ userID ++ ".signature") }

/-- An upstream that accepts every credential and every cookie: each request
is answered by its address alone; the player is found on the `eu` shard. -/
def goodUpstream : Upstream :=
  fun _ req =>
    if req.url = loginURL ∧ req.method = "POST" then
      .ok { statusCode := 200, location := "", body := "\x7b\x7d", jarCookies := [] }
    else if req.url = loginURL then
      .ok { statusCode := 200, location := "", body := authBody, jarCookies := [] }
    else if req.url = entitlementsURL then
      .ok { statusCode := 200, location := "", body := entitlementBody, jarCookies := [] }
    else if req.url = userInfoURL then
      .ok { statusCode := 200, location := "", body := userInfoBody, jarCookies := [] }
    else if req.url = "https://pd.eu.a.pvp.net/name-service/v2/players" then
      .ok { statusCode := 200, location := "", body := "[]", jarCookies := [] }
    else .ok { statusCode := 404, location := "", body := "", jarCookies := [] }

/-- The upstream `goodUpstream` behind a network that drops the very first
transport call. -/
def hiccupUpstream : Upstream :=
  fun n req =>
    if n = 0 then .error (.net "read tcp: connection reset by peer")
    else goodUpstream n req

/-- The upstream `goodUpstream`, except that the entitlement endpoint answers
200 with the empty object. -/
def emptyTokenUpstream : Upstream :=
  fun n req =>
    if req.url = entitlementsURL then
      .ok { statusCode := 200, location := "", body := "\x7b\x7d", jarCookies := [] }
    else goodUpstream n req

/-- A clock that stands at the first second of 2025. -/
def sampleClock : Clock := fun _ => 1735689600 * second

/-- The services as `SetupRouter` builds them, with the development secret and
no session cached. -/
def initialServices : Services :=
  { jwtSecret := "val-store-secret-key-development-only", tokenExpiry := 24 * 3600 * second,
    cacheSet := true, sessionCache := [] }

/-! ## Auxiliary definitions for the statements about regions -/

/-- The value of the field `region` after `SetRegion(region)`; it does not
depend on the state before. -/
def regionAfterSet (region : String) : String := (SetRegion region initialWorld).region

/-- The spellings of a word in every mix of upper and lower case letters. -/
def casings : List Char → List (List Char)
  | [] => [[]]
  | c :: cs => (casings cs).flatMap (fun t => [c.toLower :: t, c.toUpper :: t])

/-- The request that `getUserInfo` sends. -/
def userInfoRequest (w : World) (accessToken : String) : Request :=
  addCommonHeaders { w with accessToken := accessToken } (newRequest "GET" userInfoURL .none)

/-- The request that `getEntitlementToken` sends. -/
def entitlementRequest (w : World) (accessToken : String) : Request :=
  addCommonHeaders { w with accessToken := accessToken } (newRequest "POST" entitlementsURL .none)

/-- The probe that `GetPlayerRegion` sends for the candidate `region`: a PUT
to the name service of the shard that `SetRegion(region)` selects, with the
two tokens attached. -/
def probeRequest (region puuid accessToken entitlementToken : String) : Request :=
  addCommonHeaders
    { initialWorld with accessToken := accessToken, entitlementsToken := entitlementToken }
    (newRequest "PUT" ("https://pd." ++ regionAfterSet region ++ ".a.pvp.net/name-service/v2/players")
      (.text ("[\"" ++ puuid ++ "\"]")))

/-- The transport call answers with the status 200. -/
def answers200 (r : Except GoError Response) : Prop :=
  ∃ resp, r = .ok resp ∧ resp.statusCode = 200

/-- The error that `GetPlayerRegion` returns with the default region when no
candidate answers 200. -/
def regionUndetermined : GoError :=
  .plain ("无法确定玩家区域，使用默认区域: " ++ defaultRegion)

/-- The upstream `goodUpstream`, except that the third transport call is
answered 401: the userinfo endpoint accepts the cookies but not the value of
`ssid` as a bearer token. -/
def staleUpstream : Upstream :=
  fun n req =>
    if n = 2 then .ok { statusCode := 401, location := "", body := "", jarCookies := [] }
    else goodUpstream n req

/-- The direct profile probe of `authenticateWithCookiesViaAuthorizeEndpoint`:
the userinfo request with the cookies attached. -/
def cookieProbeRequest (cookies : StrMap) : Request :=
  setRiotRequestHeaders (newRequest "GET" userInfoURL .none) cookies

/-- One of the sub-strategies of `AuthenticateWithCookies` has produced the
session `s` and ended in the state `w1`: the method through the authorize
endpoint, or, after its failure, the method through the auth endpoint. -/
def CookieStrategyProduced (lib : Lib) (up : Upstream) (cookies : StrMap) (w : World)
    (s : UserSession) (w1 : World) : Prop :=
  authenticateWithCookiesViaAuthorizeEndpoint lib up cookies w = (.ok s, w1) ∨
  ∃ e w0, authenticateWithCookiesViaAuthorizeEndpoint lib up cookies w = (.error e, w0) ∧
    authenticateWithCookiesViaAuthEndpoint lib up cookies w0 = (.ok s, w1)

/-! ## Auxiliary definitions for the statement about cookie texts -/

/-- The quote characters that `parseCookiePart` removes around a value: the
cutset of its call of `strings.Trim`. -/
def isQuote (c : Char) : Bool := "\"\x27".data.contains c

/-- The characters that the names and values of a plain cookie pair avoid:
the two joiners, the two separators, the quote characters and the line
breaks. -/
def reservedChars : List Char := ";,=:\"\x27\r\n".data

/-- The text `s` neither starts nor ends with a character that satisfies `p`. -/
def trimmedL (p : Char → Bool) (s : List Char) : Bool :=
  s.head?.all (fun c => !p c) && s.getLast?.all (fun c => !p c)

/-- A name or value that contains no reserved character and has no leading
or trailing white space. -/
def plainToken (s : String) : Bool :=
  s.data.all (fun c => !reservedChars.contains c) && trimmedL isSpace s.data

/-- The way one cookie pair is written in a cookie text: the white space
before and after the name and before and after the value, the quote characters
in front of and behind the value, and whether the name is followed by a colon
instead of an equals sign. -/
structure PairFormat where
  beforeName : List Char
  afterName : List Char
  colon : Bool
  beforeValue : List Char
  openQuotes : List Char
  closeQuotes : List Char
  afterValue : List Char

/-- The separator between name and value. -/
def PairFormat.separator (f : PairFormat) : Char := if f.colon then ':' else '='

/-- The white space of a format is white space and its quotes are quote
characters. -/
def PairFormat.wellFormed (f : PairFormat) : Bool :=
  f.beforeName.all isSpace && f.afterName.all isSpace && f.beforeValue.all isSpace &&
  f.afterValue.all isSpace && f.openQuotes.all isQuote && f.closeQuotes.all isQuote

/-- The characters that the two calls of `strRemoveAll` in
`EnhancedParseCookieString` keep. -/
def notLineBreak (d : Char) : Bool := d != '\r' && d != '\n'

/-- The format without the line breaks in its white space. -/
def PairFormat.withoutLineBreaks (f : PairFormat) : PairFormat :=
  { f with
    beforeName := f.beforeName.filter notLineBreak,
    afterName := f.afterName.filter notLineBreak,
    beforeValue := f.beforeValue.filter notLineBreak,
    afterValue := f.afterValue.filter notLineBreak }

/-- The pair `kv` written in the format `f`. -/
def writePair (kv : String × String) (f : PairFormat) : List Char :=
  f.beforeName ++ kv.1.data ++ f.afterName ++ [f.separator] ++ f.beforeValue ++ f.openQuotes ++
    kv.2.data ++ f.closeQuotes ++ f.afterValue

/-- The texts joined with the character `joiner` between them. -/
def joinL (joiner : Char) : List (List Char) → List Char
  | [] => []
  | [p] => p
  | p :: q :: ps => p ++ joiner :: joinL joiner (q :: ps)

/-- The cookie text that writes each pair in the format chosen for its name
and joins the written pairs with `joiner`. -/
def writeCookies (joiner : Char) (fmt : String → PairFormat) (pairs : List (String × String)) :
    String :=
  String.mk (joinL joiner (pairs.map (fun kv => writePair kv (fmt kv.1))))

/-- Two cookie pairs, the second with a space inside its value. -/
def samplePairs : List (String × String) := [("ssid", "abc"), ("clid", "x y")]

/-- A format for each of the sample pairs: `ssid` with an equals sign, a line
break and double quotes, `clid` with a colon and spaces. -/
def sampleFormat (name : String) : PairFormat :=
  if name = "ssid" then
    { beforeName := [' '], afterName := [], colon := false, beforeValue := ['\n'],
      openQuotes := [Char.ofNat 34], closeQuotes := [Char.ofNat 34], afterValue := [] }
  else
    { beforeName := ['\r', '\n'], afterName := [' '], colon := true, beforeValue := [' '],
      openQuotes := [], closeQuotes := [Char.ofNat 39], afterValue := [' ', '\t'] }

/-! ## Auxiliary definitions for the statements about the session cache -/

/-- A call that writes to the session cache: `CacheUserSession(userID, session)`
or `UpdateUserRegion(userID, region)`. -/
inductive CacheCall where
  | cache (userID : String) (session : UserSession)
  | updateRegion (userID region : String)
  deriving DecidableEq, Repr

/-- The services and the client state after one call. -/
def CacheCall.run : CacheCall → Services × World → Services × World
  | .cache userID session, (sv, w) => (CacheUserSession userID session sv, w)
  | .updateRegion userID region, (sv, w) => (UpdateUserRegion userID region sv w).2

/-- The services and the client state after the calls, made one after the
other. -/
def runCacheCalls (calls : List CacheCall) (start : Services × World) : Services × World :=
  calls.foldl (fun st call => call.run st) start

/-- A session of the player `player-1` on the `eu` shard. -/
def sampleSession : UserSession :=
  { UserID := "player-1", Username := "neo@example.com", AccessToken := "tok-1",
    Entitlement := "ent-1", RiotUsername := "Neo", RiotTagline := "0001", Region := "eu",
    Cookies := [] }

/-! ## Token validation -/

/-- `models.JWTClaims`: the two fields of the application and, of the embedded
`jwt.RegisteredClaims`, the three dates that the library looks at; a date is in
nanoseconds since the epoch, `none` is the `nil` date. -/
structure JWTClaims where
  UserID : String
  Username : String
  ExpiresAt : Option Int
  NotBefore : Option Int
  IssuedAt : Option Int
  deriving DecidableEq, Repr

/-- A `jwt.Token` as far as `ValidateToken` and its key function observe it. -/
structure Token where
  /-- The header entry `alg`. -/
  alg : String
  /-- The type assertion `token.Method.(*jwt.SigningMethodHMAC)` succeeds: the
  method is HS256, HS384 or HS512. -/
  methodIsHMAC : Bool
  /-- The field `Claims`. -/
  claims : JWTClaims
  /-- The field `Valid`. -/
  valid : Bool
  deriving DecidableEq, Repr

/-- The functions of `golang-jwt` behind `jwt.ParseWithClaims`, which this
development does not define: each is a parameter. -/
structure JwtLib where
  /-- `Parser.ParseUnverified` into a `models.JWTClaims`: the three segments
  decoded and the signing method looked up from the header. -/
  parseUnverified : String → Except GoError Token
  /-- `token.Method.Verify(signingString, signature, key)` returns `nil`, for
  the signing string and the signature of the token text. -/
  verify : String → Token → String → Bool

/-- The default `Validator.Validate` of `golang-jwt` v5 on the dates of the
claims at the instant `now`: an expiry date has to lie after `now`, a
not-before date must not lie after `now`, the issue date is not looked at. -/
def validateClaims (now : Int) (claims : JWTClaims) : Option GoError :=
  match claims.ExpiresAt with
  | some exp =>
    if ¬ now < exp then some (.plain "token has invalid claims: token is expired")
    else
      match claims.NotBefore with
      | some nbf =>
        if now < nbf then some (.plain "token has invalid claims: token is not valid yet")
        else none
      | none => none
  | none =>
    match claims.NotBefore with
    | some nbf =>
      if now < nbf then some (.plain "token has invalid claims: token is not valid yet")
      else none
    | none => none

/-- `jwt.ParseWithClaims` on the token text, a `models.JWTClaims` and the key
function, as `golang-jwt` v5 runs it with the default options: the token is
decoded, the key function is asked for the key, the signature is verified with
it, the claims are validated at the next reading of the clock, and the token is
marked valid. -/
def parseWithClaims (jl : JwtLib) (clock : Clock) (tokenString : String)
    (keyFunc : Token → Except GoError String) (w : World) : Except GoError Token × World :=
  match jl.parseUnverified tokenString with
  | .error err => (.error err, w)
  | .ok token =>
    match keyFunc token with
    | .error err =>
      (.error (.wrapf "token is unverifiable: error while executing keyfunc: " err), w)
    | .ok key =>
      if ¬ jl.verify tokenString token key then
        (.error (.plain "token signature is invalid"), w)
      else
        let now := clock w.clockReads
        let w := { w with clockReads := w.clockReads + 1 }
        match validateClaims now token.claims with
        | some err => (.error err, w)
        | none => (.ok { token with valid := true }, w)

/-- The method `AuthService.ValidateToken`. -/
def ValidateToken (jl : JwtLib) (clock : Clock) (sv : Services) (tokenString : String)
    (w : World) : Except GoError JWTClaims × World :=
  let keyFunc : Token → Except GoError String := fun token =>
    if ¬ token.methodIsHMAC then .error (.plain ("非预期的签名方法: " ++ token.alg))
    else .ok sv.jwtSecret
  match parseWithClaims jl clock tokenString keyFunc w with
  | (.error err, w) => (.error (.wrapf "解析令牌失败: " err), w)
  | (.ok token, w) =>
    if token.valid then (.ok token.claims, w)
    else (.error (.plain "无效的令牌"), w)

/-- The contract between `SignedString` and `ParseUnverified` with `Verify`:
a text that signing returns for a secret and claims is decoded to a token with
an HMAC method and these claims, and its signature verifies under that
secret. -/
def SignThenParse (lib : Lib) (jl : JwtLib) : Prop :=
  ∀ secret userID username expiresAt issuedAt tokenString,
    lib.signHS256 secret userID username expiresAt issuedAt = .ok tokenString →
    ∃ token, jl.parseUnverified tokenString = .ok token ∧ token.methodIsHMAC = true ∧
      token.claims = { UserID := userID, Username := username, ExpiresAt := some expiresAt,
                       NotBefore := none, IssuedAt := some issuedAt } ∧
      jl.verify tokenString token secret = true

/-! ## Auxiliary definitions for the statements about tokens and responses -/

/-- The user name in the words of the specification: the display name, then
`#` and the display tag when there is a tag. -/
def displayNameWithTag (name tag : String) : String :=
  if tag = "" then name else name ++ "#" ++ tag

/-- The response to a login as a function of the secret, the validity window,
the clock with the number of its readings so far, and the user id, display name
and display tag of the session; `pre` is the text put before a signing
error. -/
def tokenResponse (lib : Lib) (clock : Clock) (secret : String) (tokenExpiry : Int)
    (reads : Nat) (userID name tag pre : String) : Except GoError UserTokensResponse :=
  match lib.signHS256 secret userID (displayNameWithTag name tag)
      (newNumericDate (clock reads + tokenExpiry)) (newNumericDate (clock (reads + 1))) with
  | .error err => .error (.wrapf pre err)
  | .ok token =>
    .ok { Token := token, Username := displayNameWithTag name tag, UserID := userID }

/-- The token text of the sample signer. -/
def sampleToken : String := "header.claims-of-player-1.signature"

/-- The claims of the sample token: issued to `player-1` at the first second of
2025 for 24 hours. -/
def sampleClaims : JWTClaims :=
  { UserID := "player-1", Username := "Neo#0001", ExpiresAt := some (1735776000 * second),
    NotBefore := none, IssuedAt := some (1735689600 * second) }

/-- A signer that knows one key and one set of claims: it returns the sample
token for the development secret and the sample claims, and an error for
everything else. -/
def signingLib : Lib :=
  { sampleLib with
    signHS256 := fun secret userID username expiresAt issuedAt =>
      if secret = "val-store-secret-key-development-only" ∧ userID = "player-1" ∧
          username = "Neo#0001" ∧ expiresAt = 1735776000 * second ∧
          issuedAt = 1735689600 * second then .ok sampleToken
      else .error (.plain "key is invalid") }

/-- The decoder and verifier that go with `signingLib`: the sample token is
decoded to the sample claims under HS256 and verifies under the development
secret; every other text is malformed. -/
def sampleJwt : JwtLib :=
  { parseUnverified := fun tokenString =>
      if tokenString = sampleToken then
        .ok { alg := "HS256", methodIsHMAC := true, claims := sampleClaims, valid := false }
      else .error (.plain "token is malformed: token contains an invalid number of segments"),
    verify := fun tokenString _ key =>
      tokenString = sampleToken ∧ key = "val-store-secret-key-development-only" }

/-- A clock that stands 25 hours after the first second of 2025. -/
def lateClock : Clock := fun _ => (1735689600 + 25 * 3600) * second

/-- A clock whose first reading is one nanosecond before the second second of
2025 and which advances by one nanosecond with every reading. -/
def tickingClock : Clock := fun k => 1735689600 * second + 999999999 + k

/-- The upstream `goodUpstream` for a player who is found on the `na`
shard. -/
def naShardUpstream : Upstream :=
  fun n req =>
    if req.url = "https://pd.na.a.pvp.net/name-service/v2/players" then
      .ok { statusCode := 200, location := "", body := "[]", jarCookies := [] }
    else goodUpstream n req

/-- An upstream on which only the `eu` shard answers 200: every other request,
the user-info lookup included, is answered 404. -/
def euOnlyUpstream : Upstream :=
  fun _ req =>
    if req.url = "https://pd.eu.a.pvp.net/name-service/v2/players" then
      .ok { statusCode := 200, location := "", body := "[]", jarCookies := [] }
    else .ok { statusCode := 404, location := "", body := "", jarCookies := [] }

/-! ## Auxiliary definitions for the statement about shards -/

/-- Whether a region probe with the tokens answers 200 depends only on the
address it is sent to: two probes of candidates for one user id whose addresses
agree have the same outcome, whenever they are made. -/
def ProbeByShard (up : Upstream) (accessToken entitlementToken : String) : Prop :=
  ∀ (puuid : String) (n m : Nat) (r r' : String), r ∈ regionsToTry → r' ∈ regionsToTry →
    (probeRequest r puuid accessToken entitlementToken).url =
      (probeRequest r' puuid accessToken entitlementToken).url →
    (answers200 (up n (probeRequest r puuid accessToken entitlementToken)) ↔
      answers200 (up m (probeRequest r' puuid accessToken entitlementToken)))

/-- An upstream that answers every request 401. -/
def unauthorizedUpstream : Upstream :=
  fun _ _ => .ok { statusCode := 401, location := "", body := "", jarCookies := [] }

/-! ## Auxiliary definitions for the statement about written cookie maps -/

/-- A name or value that `StringifyCookies` can write and
`EnhancedParseCookieString` read back: it contains no semicolon, comma, equals
sign, quote character or line break and has no leading or trailing white
space. -/
def cookieSafe (s : String) : Bool :=
  s.data.all (fun c => !(";,=\"\x27\r\n".data.contains c)) && trimmedL isSpace s.data

/-- A cookie map with three entries, one with an empty value and one with a
colon and a space inside its value. -/
def sampleCookies : StrMap := [("ssid", "abc"), ("clid", ""), ("sub", "a:b c")]

/-! ## The signature segment of a token -/

/-- The value of a character in the alphabet of `base64.RawURLEncoding`. -/
def base64Value (c : Char) : Option Nat :=
  if 65 ≤ c.toNat ∧ c.toNat ≤ 90 then some (c.toNat - 65)
  else if 97 ≤ c.toNat ∧ c.toNat ≤ 122 then some (c.toNat - 97 + 26)
  else if 48 ≤ c.toNat ∧ c.toNat ≤ 57 then some (c.toNat - 48 + 52)
  else if c = '-' then some 62
  else if c = '_' then some 63
  else none

/-- The values of the characters of a segment; the decoder of
`encoding/base64` skips `\r` and `\n` and fails at a character outside the
alphabet. -/
def base64Values : List Char → Option (List Nat)
  | [] => some []
  | c :: cs =>
    if c = '\r' ∨ c = '\n' then base64Values cs
    else
      match base64Value c, base64Values cs with
      | some v, some vs => some (v :: vs)
      | _, _ => none

/-- The bytes of a run of 6-bit values: four values give three bytes; of a last
group of three values the two low bits of the third value are dropped, of a
last group of two values the four low bits of the second one, as the decoder
does when it is not strict; a last group of one value is an error. -/
def decodeQuanta : List Nat → Option (List Nat)
  | a :: b :: c :: d :: rest =>
    (decodeQuanta rest).map
      (fun t => (a * 4 + b / 16) :: (b % 16 * 16 + c / 4) :: (c % 4 * 64 + d) :: t)
  | [a, b, c] => some [a * 4 + b / 16, b % 16 * 16 + c / 4]
  | [a, b] => some [a * 4 + b / 16]
  | [_] => none
  | [] => some []

/-- `Parser.DecodeSegment` of `golang-jwt` v5 with the default options, which
is `base64.RawURLEncoding.DecodeString`: the bytes, `none` for an error.  The
code does not ask for strict decoding (`jwt.WithStrictDecoding`). -/
def decodeSegment (seg : String) : Option (List Nat) :=
  (base64Values seg.data).bind decodeQuanta

/-- The library functions behind `jwt.ParseWithClaims` for the HMAC methods, in
terms of the decoder of the first two segments, `decodeParts`, and of the
message authentication code `mac` of a method, a key and a signing string:
`ParseUnverified` splits the text at the dots and decodes the first two of
three segments; `SigningMethodHMAC.Verify` compares the decoded third segment
with the code of the first two segments joined by a dot. -/
def jwtLibOf (decodeParts : String → String → Except GoError Token)
    (mac : String → String → String → List Nat) : JwtLib :=
  { parseUnverified := fun tokenString =>
      match strSplit tokenString '.' with
      | [header, claims, _] => decodeParts header claims
      | _ => .error (.plain "token is malformed: token contains an invalid number of segments"),
    verify := fun tokenString token key =>
      match strSplit tokenString '.' with
      | [header, claims, signature] =>
        match decodeSegment signature with
        | some sig => sig == mac token.alg key (header ++ "." ++ claims)
        | none => false
      | _ => false }

/-- The header segment of an HS256 token of `golang-jwt`, the encoding of
`\x7b"alg":"HS256","typ":"JWT"\x7d`. -/
def hs256Header : String := "eyJhbGciOiJIUzI1NiIsInR5cCI6IkpXVCJ9"

/-- The claims segment of the token for `sampleClaims`, the encoding of
`\x7b"user_id":"player-1","username":"Neo#0001","exp":1735776000,"iat":1735689600\x7d`. -/
def sampleClaimsSegment : String :=
  "eyJ1c2VyX2lkIjoicGxheWVyLTEiLCJ1c2VybmFtZSI6Ik5lbyMwMDAxIiwiZXhwIjoxNzM1Nzc2MDAwLCJpYXQiOjE3MzU2ODk2MDB9"

/-- The HMAC-SHA256 code of the two segments above joined by a dot, under the
development secret. -/
def sampleMacBytes : List Nat :=
  [223, 201, 189, 79, 165, 122, 101, 31, 7, 9, 86, 139, 151, 48, 61, 81, 115, 80, 206, 131, 240,
   181, 148, 183, 5, 46, 133, 206, 136, 229, 11, 70]

/-- The token that `golang-jwt` issues for `sampleClaims` under the development
secret: its third segment is the encoding of `sampleMacBytes`. -/
def issuedToken : String :=
  hs256Header ++ "." ++ sampleClaimsSegment ++ "." ++ "38m9T6V6ZR8HCVaLlzA9UXNQzoPwtZS3BS6FzojlC0Y"

/-- The issued token with its last character changed from `Y` to `Z`. -/
def alteredToken : String :=
  hs256Header ++ "." ++ sampleClaimsSegment ++ "." ++ "38m9T6V6ZR8HCVaLlzA9UXNQzoPwtZS3BS6FzojlC0Z"

/-- The issued token with the eleventh character of its signature changed from
`8` to `A`. -/
def forgedToken : String :=
  hs256Header ++ "." ++ sampleClaimsSegment ++ "." ++ "38m9T6V6ZRAHCVaLlzA9UXNQzoPwtZS3BS6FzojlC0Y"

/-- The decoder of the first two segments that knows the two segments of the
issued token. -/
def sampleDecodeParts (header claims : String) : Except GoError Token :=
  if header = hs256Header ∧ claims = sampleClaimsSegment then
    .ok { alg := "HS256", methodIsHMAC := true, claims := sampleClaims, valid := false }
  else .error (.plain "token is malformed: could not JSON decode")

/-- The message authentication code that knows the code of the issued
token. -/
def sampleMac (alg key signingString : String) : List Nat :=
  if alg = "HS256" ∧ key = "val-store-secret-key-development-only" ∧
      signingString = hs256Header ++ "." ++ sampleClaimsSegment then sampleMacBytes
  else []

/-- The library of `jwtLibOf` for the issued token. -/
def hs256Jwt : JwtLib := jwtLibOf sampleDecodeParts sampleMac

/-- The signer that goes with `hs256Jwt`: it returns the issued token for the
development secret and the sample claims. -/
def hs256Lib : Lib :=
  { sampleLib with
    signHS256 := fun secret userID username expiresAt issuedAt =>
      if secret = "val-store-secret-key-development-only" ∧ userID = "player-1" ∧
          username = "Neo#0001" ∧ expiresAt = 1735776000 * second ∧
          issuedAt = 1735689600 * second then .ok issuedToken
      else .error (.plain "key is invalid") }

/-! # Theorems -/

/-! ## Facts about `retryHTTPRequest` -/

theorem world_eta (w : World) :
    { w with calls := w.calls ++ [], sleeps := w.sleeps ++ [] } = w := by
  cases w; simp

/-- While the transport fails with errors that `isNetworkError` accepts and the
limit is not reached, the loop goes on: `k` such iterations only add `k` calls
and their sleeps. -/
theorem retryLoop_skip (up : Upstream) (maxRetries : Int) (req : Request) :
    ∀ (k rem a : Nat) (err : Option GoError) (w : World),
      (∀ i, i < k → ∃ e, up (w.calls.length + i) req = .error e ∧
        isNetworkErr e = true ∧ ((a + i : Nat) : Int) ≠ maxRetries) →
      retryLoop up maxRetries (rem + k) a err req w =
        retryLoop up maxRetries rem (a + k) (errAfter up req w.calls.length k err) req
          { w with calls := w.calls ++ List.replicate k req,
                   sleeps := w.sleeps ++ backoffs a k } := by
  intro k
  induction k with
  | zero =>
    intro rem a err w _
    simp [errAfter, backoffs, world_eta]
  | succ k ih =>
    intro rem a err w h
    obtain ⟨e, he, hnet, hne⟩ := h 0 (Nat.succ_pos k)
    simp only [Nat.add_zero] at he hne
    have hstep : retryLoop up maxRetries (rem + (k + 1)) a err req w =
        retryLoop up maxRetries (rem + k) (a + 1) (some e) req
          { w with calls := w.calls ++ [req],
                   sleeps := w.sleeps ++ (if a > 0 then [waitTime a] else []) } := by
      rw [show rem + (k + 1) = (rem + k) + 1 from rfl]
      by_cases ha : a > 0
      · simp [retryLoop, clientDo, timeSleep, ha, he, hne, isNetworkError, hnet]
      · simp [retryLoop, clientDo, ha, he, hne, isNetworkError, hnet]
    rw [hstep, ih rem (a + 1) (some e) _ ?_]
    · have hlen : (w.calls ++ [req]).length = w.calls.length + 1 := by simp
      have herr : errAfter up req (w.calls.length + 1) k (some e) =
          errAfter up req w.calls.length (k + 1) err := by
        cases k with
        | zero => simp [errAfter, he]
        | succ k => simp [errAfter, Nat.add_assoc, Nat.add_comm 1 k]
      simp only [hlen, herr]
      congr 1
      · omega
      · simp [backoffs, List.replicate_succ, List.append_assoc]
    · intro i hi
      obtain ⟨e', he', hnet', hne'⟩ := h (i + 1) (Nat.succ_lt_succ hi)
      refine ⟨e', ?_, hnet', ?_⟩
      · simpa [Nat.add_assoc, Nat.add_comm 1 i] using he'
      · simpa [Nat.add_assoc, Nat.add_comm 1 i] using hne'

theorem backoffs_succ_right (k : Nat) :
    ∀ a : Nat, backoffs a (k + 1) =
      backoffs a k ++ (if a + k > 0 then [waitTime (a + k)] else []) := by
  induction k with
  | zero => intro a; simp [backoffs]
  | succ k ih =>
    intro a
    have h := ih (a + 1)
    rw [show backoffs a (k + 1 + 1) = (if a > 0 then [waitTime a] else []) ++ backoffs (a + 1) (k + 1)
      from rfl, h]
    rw [show backoffs a (k + 1) = (if a > 0 then [waitTime a] else []) ++ backoffs (a + 1) k
      from rfl]
    simp [Nat.add_assoc, Nat.add_comm 1 k]

/-- The sleeps of a run that starts at the first iteration are the waiting
times of the iterations `1 .. k`. -/
theorem backoffs_zero (k : Nat) :
    backoffs 0 (k + 1) = (List.range k).map (fun i => waitTime (i + 1)) := by
  induction k with
  | zero => simp [backoffs]
  | succ k ih =>
    rw [backoffs_succ_right, ih, List.range_succ]
    simp

/-- The iteration at which the loop stops, when the transport answers. -/
theorem retryLoop_ok (up : Upstream) (maxRetries : Int) (req : Request) (rem a : Nat)
    (err : Option GoError) (w : World) (resp : Response)
    (h : up w.calls.length req = .ok resp) :
    retryLoop up maxRetries (rem + 1) a err req w =
      (.ok resp, { w with calls := w.calls ++ [req],
                          sleeps := w.sleeps ++ (if a > 0 then [waitTime a] else []) }) := by
  by_cases ha : a > 0
  · simp [retryLoop, clientDo, timeSleep, ha, h]
  · simp [retryLoop, clientDo, ha, h]

/-- The iteration at which the loop stops, when the limit is reached or the
error is not one that `isNetworkError` accepts. -/
theorem retryLoop_break (up : Upstream) (maxRetries : Int) (req : Request) (rem a : Nat)
    (err : Option GoError) (w : World) (e : GoError)
    (h : up w.calls.length req = .error e)
    (hstop : (a : Int) = maxRetries ∨ isNetworkErr e = false) :
    retryLoop up maxRetries (rem + 1) a err req w =
      (.error (retryError a (some e)),
        { w with calls := w.calls ++ [req],
                 sleeps := w.sleeps ++ (if a > 0 then [waitTime a] else []) }) := by
  by_cases ha : a > 0 <;> by_cases hm : (a : Int) = maxRetries
  · simp [retryLoop, clientDo, timeSleep, ha, h, hm]
  · have hn : isNetworkErr e = false := by
      rcases hstop with h1 | h1
      · exact absurd h1 hm
      · exact h1
    simp [retryLoop, clientDo, timeSleep, ha, h, hm, isNetworkError, hn]
  · simp [retryLoop, clientDo, ha, h, hm]
  · have hn : isNetworkErr e = false := by
      rcases hstop with h1 | h1
      · exact absurd h1 hm
      · exact h1
    simp [retryLoop, clientDo, ha, h, hm, isNetworkError, hn]

/-- The state after `k` failed iterations followed by one more transport
call. -/
theorem world_after (w : World) (req : Request) (k : Nat) :
    ({ ({ w with calls := w.calls ++ List.replicate k req,
                 sleeps := w.sleeps ++ backoffs 0 k } : World) with
        calls := (w.calls ++ List.replicate k req) ++ [req],
        sleeps := (w.sleeps ++ backoffs 0 k) ++ (if k > 0 then [waitTime k] else []) } : World) =
      { w with calls := w.calls ++ List.replicate (k + 1) req,
               sleeps := w.sleeps ++ backoffs 0 (k + 1) } := by
  have h1 : (w.calls ++ List.replicate k req) ++ [req] = w.calls ++ List.replicate (k + 1) req := by
    rw [List.append_assoc, ← List.replicate_succ']
  have h2 : (w.sleeps ++ backoffs 0 k) ++ (if k > 0 then [waitTime k] else []) =
      w.sleeps ++ backoffs 0 (k + 1) := by
    rw [backoffs_succ_right, List.append_assoc]; simp
  rw [h1, h2]

/-- After `k` failures that `isNetworkError` accepts, `k` below the limit or
equal to it, a transport call that answers ends `retryHTTPRequest` with that
answer. -/
theorem retry_ok_after (up : Upstream) (req : Request) (maxRetries : Int) (w : World)
    (k : Nat) (resp : Response) (hk : (k : Int) ≤ maxRetries)
    (hfail : ∀ i, i < k → ∃ e, up (w.calls.length + i) req = .error e ∧ isNetworkErr e = true)
    (hok : up (w.calls.length + k) req = .ok resp) :
    retryHTTPRequest up req maxRetries w =
      (.ok resp, { w with calls := w.calls ++ List.replicate (k + 1) req,
                          sleeps := w.sleeps ++ backoffs 0 (k + 1) }) := by
  obtain ⟨r, hr⟩ : ∃ r : Nat, (maxRetries + 1).toNat = (r + 1) + k := by
    refine ⟨(maxRetries + 1).toNat - 1 - k, ?_⟩
    omega
  unfold retryHTTPRequest
  rw [hr, retryLoop_skip up maxRetries req k (r + 1) 0 none w ?_]
  · rw [retryLoop_ok up maxRetries req r (0 + k) _ _ resp (by simpa using hok)]
    simp only [Nat.zero_add]
    rw [world_after]
  · intro i hi
    obtain ⟨e, he, hn⟩ := hfail i hi
    exact ⟨e, he, hn, by omega⟩

/-- After `k` failures that `isNetworkError` accepts, a failure at the limit,
or one that `isNetworkError` rejects, ends `retryHTTPRequest` with an error
that names `k` and wraps that failure. -/
theorem retry_break_after (up : Upstream) (req : Request) (maxRetries : Int) (w : World)
    (k : Nat) (e : GoError) (hk : (k : Int) ≤ maxRetries)
    (hfail : ∀ i, i < k → ∃ e, up (w.calls.length + i) req = .error e ∧ isNetworkErr e = true)
    (herr : up (w.calls.length + k) req = .error e)
    (hstop : (k : Int) = maxRetries ∨ isNetworkErr e = false) :
    retryHTTPRequest up req maxRetries w =
      (.error (retryError k (some e)),
        { w with calls := w.calls ++ List.replicate (k + 1) req,
                 sleeps := w.sleeps ++ backoffs 0 (k + 1) }) := by
  obtain ⟨r, hr⟩ : ∃ r : Nat, (maxRetries + 1).toNat = (r + 1) + k := by
    refine ⟨(maxRetries + 1).toNat - 1 - k, ?_⟩
    omega
  unfold retryHTTPRequest
  rw [hr, retryLoop_skip up maxRetries req k (r + 1) 0 none w ?_]
  · rw [retryLoop_break up maxRetries req r (0 + k) _ _ e (by simpa using herr)
      (by simpa using hstop)]
    simp only [Nat.zero_add]
    rw [world_after]
  · intro i hi
    obtain ⟨e, he, hn⟩ := hfail i hi
    exact ⟨e, he, hn, by omega⟩

/-- Whatever `retryHTTPRequest` returns as an error names the number of the
last iteration, which is one less than the number of transport calls made, and
wraps the error of the last transport call. -/
theorem retryLoop_error_shape (up : Upstream) (maxRetries : Int) (req : Request) :
    ∀ (rem a : Nat) (err : Option GoError) (w w' : World) (E : GoError),
      ((a + (rem + 1) : Nat) : Int) = maxRetries + 1 →
      retryLoop up maxRetries (rem + 1) a err req w = (.error E, w') →
      ∃ j e, E = retryError (a + j) (some e) ∧
        w'.calls = w.calls ++ List.replicate (j + 1) req ∧
        up (w.calls.length + j) req = .error e := by
  intro rem
  induction rem with
  | zero =>
    intro a err w w' E hinv h
    cases hup : up w.calls.length req with
    | ok resp =>
      rw [retryLoop_ok up maxRetries req 0 a err w resp hup] at h
      simp at h
    | error e =>
      rw [retryLoop_break up maxRetries req 0 a err w e hup (Or.inl (by omega))] at h
      simp only [Prod.mk.injEq, Except.error.injEq] at h
      refine ⟨0, e, by simpa using h.1.symm, ?_, by simpa using hup⟩
      rw [← h.2]
      simp
  | succ rem ih =>
    intro a err w w' E hinv h
    cases hup : up w.calls.length req with
    | ok resp =>
      rw [retryLoop_ok up maxRetries req (rem + 1) a err w resp hup] at h
      simp at h
    | error e =>
      by_cases hn : isNetworkErr e = false
      · rw [retryLoop_break up maxRetries req (rem + 1) a err w e hup (Or.inr hn)] at h
        simp only [Prod.mk.injEq, Except.error.injEq] at h
        refine ⟨0, e, by simpa using h.1.symm, ?_, by simpa using hup⟩
        rw [← h.2]
        simp
      · have hn' : isNetworkErr e = true := by simpa using hn
        have hskip := retryLoop_skip up maxRetries req 1 (rem + 1) a err w (by
          intro i hi
          have hi0 : i = 0 := by omega
          subst hi0
          exact ⟨e, by simpa using hup, hn', by omega⟩)
        rw [hskip] at h
        obtain ⟨j, e', hE, hcalls, hup'⟩ := ih (a + 1) _ _ w' E (by omega) h
        refine ⟨j + 1, e', by simpa [Nat.add_assoc, Nat.add_comm 1 j] using hE, ?_, ?_⟩
        · rw [hcalls]
          simp [List.replicate_succ]
        · simpa [Nat.add_assoc, Nat.add_comm 1 j] using hup'

/-- For a limit that is not negative, an error returned by `retryHTTPRequest`
names a count that is one less than the number of transport calls made and
wraps the error of the last of them. -/
theorem retry_error_names_last_iteration (up : Upstream) (req : Request) (maxRetries : Nat)
    (w w' : World) (E : GoError)
    (h : retryHTTPRequest up req maxRetries w = (.error E, w')) :
    ∃ j e, E = retryError j (some e) ∧
      w'.calls = w.calls ++ List.replicate (j + 1) req ∧
      up (w.calls.length + j) req = .error e := by
  unfold retryHTTPRequest at h
  have hr : ((maxRetries : Int) + 1).toNat = maxRetries + 1 := by omega
  rw [hr] at h
  obtain ⟨j, e, hE, hc, hu⟩ :=
    retryLoop_error_shape up maxRetries req maxRetries 0 none w w' E (by omega) h
  exact ⟨j, e, by simpa using hE, hc, hu⟩

/-- Between the second and the thirty-sixth attempt the waiting time is the
doubled base delay with the cap of ten seconds. -/
theorem waitTime_exact (a : Nat) (h1 : 1 ≤ a) (h2 : a ≤ 35) :
    waitTime a = min (500 * millisecond * 2 ^ (a - 1)) (10 * second) := by
  interval_cases a <;> decide

/-! ## Facts about `strings.Contains` -/

theorem hasPrefixL_iff : ∀ s p : List Char, hasPrefixL s p = true ↔ p <+: s
  | _, [] => by simp [hasPrefixL]
  | [], _ :: _ => by simp [hasPrefixL]
  | c :: s, d :: p => by
    simp only [hasPrefixL, Bool.and_eq_true, beq_iff_eq, List.cons_prefix_cons,
      hasPrefixL_iff s p]
    constructor
    · rintro ⟨h1, h2⟩; exact ⟨h1.symm, h2⟩
    · rintro ⟨h1, h2⟩; exact ⟨h1.symm, h2⟩

theorem containsL_iff : ∀ s sub : List Char, containsL s sub = true ↔ sub <:+: s
  | [], sub => by
    simp [containsL, List.isEmpty_iff]
  | c :: s, sub => by
    simp only [containsL, Bool.or_eq_true, hasPrefixL_iff, containsL_iff s sub,
      List.infix_cons_iff]

/-- A text that contains `a` contains every piece of `a`. -/
theorem strContains_of_part (s a b : String) (hab : strContains a b = true)
    (h : strContains s a = true) : strContains s b = true := by
  unfold strContains at *
  rw [containsL_iff] at *
  exact hab.trans h

/-! ## Facts about `isNetworkError` -/

/-- The string tests of `isNetworkError` accept the kinds the specification
lists and four more: `Client.Timeout`, `EOF`, `body closed` and a broken
connection. -/
theorem isNetworkErrorText_eq (msg : String) :
    isNetworkErrorText msg =
      (specListedKind msg || strContains msg "Client.Timeout" || strContains msg "EOF" ||
        strContains msg "body closed" ||
        (strContains msg "connection" && strContains msg "broken")) := by
  have hUE := strContains_of_part msg "unexpected EOF" "EOF" (by decide)
  have hR1 := strContains_of_part msg "read: connection closed" "connection" (by decide)
  have hR2 := strContains_of_part msg "read: connection closed" "closed" (by decide)
  have hS1 := strContains_of_part msg "server closed idle connection" "connection" (by decide)
  have hS2 := strContains_of_part msg "server closed idle connection" "closed" (by decide)
  have hTLS := strContains_of_part msg "TLS handshake timeout" "timeout" (by decide)
  unfold isNetworkErrorText specListedKind
  cases hE : strContains msg "EOF" <;> cases hT : strContains msg "timeout" <;>
    cases hC : strContains msg "connection" <;> cases hCl : strContains msg "closed" <;>
    simp_all <;>
    cases strContains msg "Client.Timeout" <;> cases strContains msg "body closed" <;>
    cases strContains msg "deadline exceeded" <;> cases strContains msg "no such host" <;>
    cases strContains msg "503" <;> cases strContains msg "504" <;>
    cases strContains msg "reset" <;> cases strContains msg "refused" <;>
    cases strContains msg "broken" <;> rfl

/-! ## The retrying executor: claims C4 to C8 -/

/-- Claim C4, as stated, fails: with the limit 3 of `GetStoreOffers` and
`GetWallet` and an upstream whose every transport call fails with an error
that `isNetworkError` accepts, `retryHTTPRequest` makes four transport calls,
not three. -/
theorem retry_limit_three_counterexample :
    (∀ n r, ∃ e, resetUpstream n r = .error e ∧ isNetworkError (some e) = true) ∧
    (retryHTTPRequest resetUpstream sampleRequest 3 initialWorld).2.calls.length = 4 ∧
    (retryHTTPRequest resetUpstream sampleRequest 3 initialWorld).2.calls.length ≠ 3 := by
  refine ⟨fun n r => ⟨_, rfl, by decide⟩, by decide, by decide⟩

/-- Claim C4, amended: with the limit 3 that `GetStoreOffers` and `GetWallet`
pass, if every transport call fails with an error that `isNetworkError`
accepts, then exactly four transport calls are made (the first attempt and
three retries, after sleeps of 0.5 s, 1 s and 2 s) before the exhaustion error,
which wraps the fourth failure, is returned. -/
theorem retry_limit_three_makes_four_calls (up : Upstream) (req : Request) (w : World)
    (h : ∀ n r, ∃ e, up n r = .error e ∧ isNetworkError (some e) = true) :
    ∃ e, up (w.calls.length + 3) req = .error e ∧
      retryHTTPRequest up req 3 w =
        (.error (retryError 3 (some e)),
          { w with calls := w.calls ++ [req, req, req, req],
                   sleeps := w.sleeps ++ [500 * millisecond, 1 * second, 2 * second] }) := by
  obtain ⟨e, he, _⟩ := h (w.calls.length + 3) req
  refine ⟨e, he, ?_⟩
  have hrun := retry_break_after up req 3 w 3 e (by decide)
    (fun i _ => h (w.calls.length + i) req) he (Or.inl (by decide))
  rw [hrun]
  rfl

/-- Claim C4, amended, at an upstream that cannot be reached. -/
theorem retry_limit_three_makes_four_calls_witness :
    ∃ e, resetUpstream (initialWorld.calls.length + 3) sampleRequest = .error e ∧
      retryHTTPRequest resetUpstream sampleRequest 3 initialWorld =
        (.error (retryError 3 (some e)),
          { initialWorld with
              calls := initialWorld.calls ++ [sampleRequest, sampleRequest, sampleRequest, sampleRequest],
              sleeps := initialWorld.sleeps ++ [500 * millisecond, 1 * second, 2 * second] }) :=
  retry_limit_three_makes_four_calls resetUpstream sampleRequest initialWorld
    (fun _ _ => ⟨_, rfl, by decide⟩)

/-- Claim C5 at a failing input: with the limit 3 and an upstream that cannot
be reached, `retryHTTPRequest` makes four transport calls and returns an error
whose text names three attempts; the error wraps the failure of the last
call. -/
theorem retry_error_names_three_after_four_calls :
    (retryHTTPRequest resetUpstream sampleRequest 3 initialWorld).1 =
      .error (.wrapf "请求失败，经过3次尝试: " (.net "read tcp: connection reset by peer")) ∧
    (retryHTTPRequest resetUpstream sampleRequest 3 initialWorld).2.calls.length = 4 ∧
    resetUpstream 3 sampleRequest = .error (.net "read tcp: connection reset by peer") := by
  refine ⟨?_, by decide, rfl⟩
  rw [retry_break_after resetUpstream sampleRequest 3 initialWorld 3
    (.net "read tcp: connection reset by peer") (by decide)
    (fun i _ => ⟨_, rfl, by decide⟩) rfl (Or.inl (by decide))]
  rfl

/-- Claim C6: for every `k` from 0 up to `maxRetries`, if the first `k`
transport calls fail with errors that `isNetworkError` accepts and the next one
returns a response, `retryHTTPRequest` makes exactly `k + 1` transport calls
and returns that response as it is, whatever its status code. -/
theorem retry_returns_response_after_failures (up : Upstream) (req : Request)
    (maxRetries : Int) (w : World) (k : Nat) (resp : Response)
    (hk : (k : Int) ≤ maxRetries)
    (hfail : ∀ i, i < k →
      ∃ e, up (w.calls.length + i) req = .error e ∧ isNetworkError (some e) = true)
    (hok : up (w.calls.length + k) req = .ok resp) :
    (retryHTTPRequest up req maxRetries w).1 = .ok resp ∧
    (retryHTTPRequest up req maxRetries w).2.calls = w.calls ++ List.replicate (k + 1) req := by
  rw [retry_ok_after up req maxRetries w k resp hk hfail hok]
  exact ⟨rfl, rfl⟩

/-- Claim C6 with two failures and the limit 3: three transport calls, and the
404 response of the third is returned. -/
theorem retry_returns_response_after_failures_witness :
    (retryHTTPRequest flakyUpstream sampleRequest 3 initialWorld).1 =
      .ok { statusCode := 404, location := "", body := "not found", jarCookies := [] } ∧
    (retryHTTPRequest flakyUpstream sampleRequest 3 initialWorld).2.calls =
      initialWorld.calls ++ List.replicate (2 + 1) sampleRequest :=
  retry_returns_response_after_failures flakyUpstream sampleRequest 3 initialWorld 2
    { statusCode := 404, location := "", body := "not found", jarCookies := [] }
    (by decide)
    (fun i hi => ⟨.net "read tcp: connection reset by peer", by
      have : initialWorld.calls.length + i < 2 := by simpa [initialWorld] using hi
      simp [flakyUpstream, this], by decide⟩)
    rfl

/-- The `break` of the retry loop: if the first transport call fails with an
error that `isNetworkError` rejects, then for every `maxRetries ≥ 0`
`retryHTTPRequest` returns an error after exactly one transport call and
without any sleep. -/
theorem retry_gives_up_on_other_errors (up : Upstream) (req : Request) (maxRetries : Int)
    (w : World) (e : GoError) (h0 : 0 ≤ maxRetries)
    (herr : up w.calls.length req = .error e)
    (hn : isNetworkError (some e) = false) :
    (retryHTTPRequest up req maxRetries w).1 = .error (retryError 0 (some e)) ∧
    (retryHTTPRequest up req maxRetries w).2.calls = w.calls ++ [req] ∧
    (retryHTTPRequest up req maxRetries w).2.sleeps = w.sleeps := by
  have hrun := retry_break_after up req maxRetries w 0 e (by simpa using h0)
    (fun i hi => absurd hi (Nat.not_lt_zero i)) (by simpa using herr) (Or.inr hn)
  rw [hrun]
  refine ⟨rfl, by simp, by simp [backoffs]⟩

/-- Claim C7 at a failing input: the certificate of the upstream is not
trusted, a failure that `isNetworkError` rejects when it is handed the cause;
`Client.Do` returns it inside a `*url.Error`, which `isNetworkError` accepts as
it accepts every `*url.Error`, so with the limit 3 `retryHTTPRequest` makes four
transport calls and sleeps three times, whereas the claim has it return after
one transport call without a sleep. -/
theorem retry_repeats_untrusted_certificate :
    isNetworkError (some certificateError) = false ∧
    (∀ n, untrustedUpstream n sampleRequest =
      .error (.url "Get" sampleRequest.url certificateError)) ∧
    isNetworkError (some (.url "Get" sampleRequest.url certificateError)) = true ∧
    (retryHTTPRequest untrustedUpstream sampleRequest 3 initialWorld).1 =
      .error (retryError 3 (some (.url "Get" sampleRequest.url certificateError))) ∧
    (retryHTTPRequest untrustedUpstream sampleRequest 3 initialWorld).2.calls =
      [sampleRequest, sampleRequest, sampleRequest, sampleRequest] ∧
    (retryHTTPRequest untrustedUpstream sampleRequest 3 initialWorld).2.sleeps =
      [500 * millisecond, 1 * second, 2 * second] := by
  have hrun := retry_break_after untrustedUpstream sampleRequest 3 initialWorld 3
    (.url "Get" sampleRequest.url certificateError) (by decide)
    (fun i _ => ⟨_, rfl, rfl⟩) rfl (Or.inl (by decide))
  refine ⟨by decide, fun _ => rfl, rfl, ?_, ?_, ?_⟩
  · rw [hrun]
  · rw [hrun]
    rfl
  · rw [hrun]
    show initialWorld.sleeps ++ backoffs 0 (3 + 1) = _
    rw [backoffs_zero]
    decide

/-- The sleeps of `retryHTTPRequest` in a run of `k + 1` attempts, for `k` up
to 35: the first `k` transport calls fail with errors that `isNetworkError`
accepts and the next one ends the run, by a response, by the limit, or by an
error that `isNetworkError` rejects. -/
theorem retry_run_sleeps (up : Upstream) (req : Request) (maxRetries : Int) (w : World)
    (k : Nat) (hk : (k : Int) ≤ maxRetries) (h35 : k ≤ 35)
    (hfail : ∀ i, i < k → ∃ e, up (w.calls.length + i) req = .error e ∧ isNetworkErr e = true)
    (hlast : (∃ resp, up (w.calls.length + k) req = .ok resp) ∨
      ∃ e, up (w.calls.length + k) req = .error e ∧
        ((k : Int) = maxRetries ∨ isNetworkErr e = false)) :
    (retryHTTPRequest up req maxRetries w).2 =
      { w with calls := w.calls ++ List.replicate (k + 1) req,
               sleeps := w.sleeps ++
                 (List.range k).map (fun i => min (500 * millisecond * 2 ^ i) (10 * second)) } := by
  have hs : backoffs 0 (k + 1) =
      (List.range k).map (fun i => min (500 * millisecond * 2 ^ i) (10 * second)) := by
    rw [backoffs_zero]
    apply List.map_congr_left
    intro i hi
    have hi' : i < k := List.mem_range.mp hi
    rw [waitTime_exact (i + 1) (by omega) (by omega)]
    simp
  rcases hlast with ⟨resp, hok⟩ | ⟨e, herr, hstop⟩
  · rw [retry_ok_after up req maxRetries w k resp hk hfail hok, hs]
  · rw [retry_break_after up req maxRetries w k e hk hfail herr hstop, hs]

/-- Claim C8: for every attempt number `n ≥ 2`, counted from 1, that
`retryHTTPRequest` performs, the sleep before it is exactly
`min(500 ms * 2^(n-2), 10 s)`, and there is no sleep before attempt 1: a run of
`k + 1` attempts makes `k + 1` transport calls and `k` sleeps, and the sleep
number `i`, counted from 0, which is the one before the attempt `i + 2`, is
`min(500 ms * 2^i, 10 s)`.  This is for runs of up to 36 attempts; with the
limits that the program passes a run has at most four. -/
theorem retry_sleeps_exact (up : Upstream) (req : Request) (maxRetries : Int) (w : World)
    (k : Nat) (hk : (k : Int) ≤ maxRetries)
    (hprogram : maxRetries ∈ retryLimitsUsed ∨ k ≤ 35)
    (hfail : ∀ i, i < k →
      ∃ e, up (w.calls.length + i) req = .error e ∧ isNetworkError (some e) = true)
    (hlast : (∃ resp, up (w.calls.length + k) req = .ok resp) ∨
      ∃ e, up (w.calls.length + k) req = .error e ∧
        ((k : Int) = maxRetries ∨ isNetworkError (some e) = false)) :
    (retryHTTPRequest up req maxRetries w).2.calls = w.calls ++ List.replicate (k + 1) req ∧
    (retryHTTPRequest up req maxRetries w).2.sleeps =
      w.sleeps ++
        (List.range k).map (fun i => min (500 * millisecond * 2 ^ i) (10 * second)) := by
  have h35 : k ≤ 35 := by
    rcases hprogram with h | h
    · simp only [retryLimitsUsed, List.mem_cons, List.mem_singleton, List.not_mem_nil,
        or_false] at h
      rcases h with h | h | h <;> omega
    · exact h
  rw [retry_run_sleeps up req maxRetries w k hk h35 hfail hlast]
  exact ⟨rfl, rfl⟩

/-- Claim C8 with the limit 3 and an upstream that cannot be reached: four
transport calls, and the sleeps before the attempts 2, 3 and 4 are 0.5 s, 1 s
and 2 s. -/
theorem retry_sleeps_exact_witness :
    (retryHTTPRequest resetUpstream sampleRequest 3 initialWorld).2.calls =
      initialWorld.calls ++ List.replicate (3 + 1) sampleRequest ∧
    (retryHTTPRequest resetUpstream sampleRequest 3 initialWorld).2.sleeps =
      initialWorld.sleeps ++
        (List.range 3).map (fun i => min (500 * millisecond * 2 ^ i) (10 * second)) :=
  retry_sleeps_exact resetUpstream sampleRequest 3 initialWorld 3 (by decide)
    (Or.inl (by decide)) (fun i _ => ⟨_, rfl, by decide⟩)
    (Or.inr ⟨_, rfl, Or.inl (by decide)⟩)

/-- Beyond the attempts of `retry_sleeps_exact`: with the limit 36, which no
caller passes, and an upstream that cannot be reached, the product `500 << 35`
milliseconds before the attempt number 37 leaves the range of `int64` and the
sleep is -1266874889709551616 ns, whereas `min(500 ms * 2^35, 10 s)` is ten
seconds. -/
theorem retry_sleep_wraps_at_attempt_37 :
    (retryHTTPRequest resetUpstream sampleRequest 36 initialWorld).2.sleeps.length = 36 ∧
    (retryHTTPRequest resetUpstream sampleRequest 36 initialWorld).2.sleeps.getLast? =
      some (-1266874889709551616) ∧
    min (500 * millisecond * 2 ^ (37 - 2)) (10 * second) = 10000000000 := by
  rw [retry_break_after resetUpstream sampleRequest 36 initialWorld 36
    (.net "read tcp: connection reset by peer") (by decide)
    (fun i _ => ⟨_, rfl, by decide⟩) rfl (Or.inl (by decide))]
  refine ⟨?_, ?_, by decide⟩
  · show (initialWorld.sleeps ++ backoffs 0 (36 + 1)).length = 36
    rw [backoffs_zero]
    simp [initialWorld]
  · show (initialWorld.sleeps ++ backoffs 0 (36 + 1)).getLast? = some (-1266874889709551616)
    rw [backoffs_succ_right]
    have hw : waitTime 36 = -1266874889709551616 := by decide
    simp [initialWorld, hw]

/-! ## The classification of errors: claim C9 -/

/-- Claim C9, as stated, fails: the error `unexpected EOF`, which is of none of
the listed kinds, is classified as a network error. -/
theorem isNetworkError_eof_counterexample :
    isNetworkError (some (.plain "unexpected EOF")) = true ∧
    specIsRetryable (some (.plain "unexpected EOF")) = false := by
  decide

/-- Claim C9, amended: `isNetworkError` is false for `nil` and true for every
error of a listed kind; it is true as well for every error whose dynamic type
implements `net.Error`, whatever its kind; and for an error that is neither a
`net.Error` nor a `*url.Error` it is true exactly when the text is of a listed
kind or contains `Client.Timeout`, `EOF`, `body closed`, or `connection`
together with `broken`. -/
theorem isNetworkError_characterised :
    isNetworkError none = false ∧
    (∀ e : GoError, specIsRetryable (some e) = true → isNetworkError (some e) = true) ∧
    (∀ e : GoError, e.implementsNetError = true → isNetworkError (some e) = true) ∧
    (∀ e : GoError, e.implementsNetError = false →
      isNetworkError (some e) =
        (specIsRetryable (some e) || strContains e.Error "Client.Timeout" ||
          strContains e.Error "EOF" || strContains e.Error "body closed" ||
          (strContains e.Error "connection" && strContains e.Error "broken"))) := by
  have hplain : ∀ e : GoError, e.implementsNetError = false →
      isNetworkError (some e) = isNetworkErrorText e.Error := by
    intro e he
    cases e with
    | plain msg => simp [isNetworkError, isNetworkErr, GoError.implementsNetError]
    | net msg => simp [GoError.implementsNetError] at he
    | url op u err => simp [GoError.implementsNetError] at he
    | wrapf pre err => simp [isNetworkError, isNetworkErr, GoError.implementsNetError]
  have hnet : ∀ e : GoError, e.implementsNetError = true → isNetworkError (some e) = true := by
    intro e he
    cases e with
    | plain msg => simp [GoError.implementsNetError] at he
    | net msg => simp [isNetworkError, isNetworkErr, GoError.implementsNetError]
    | url op u err => simp [isNetworkError, isNetworkErr, GoError.implementsNetError]
    | wrapf pre err => simp [GoError.implementsNetError] at he
  refine ⟨rfl, ?_, hnet, ?_⟩
  · intro e he
    cases hi : e.implementsNetError with
    | true => exact hnet e hi
    | false =>
      rw [hplain e hi, isNetworkErrorText_eq]
      simp only [specIsRetryable] at he
      simp [he]
  · intro e hi
    rw [hplain e hi, isNetworkErrorText_eq]
    rfl

/-! ## Facts about the upstream calls -/

/-- `getEntitlementToken` makes exactly one transport call. -/
theorem getEntitlementToken_world (lib : Lib) (up : Upstream) (accessToken : String) (w : World) :
    (getEntitlementToken lib up accessToken w).2 =
      { w with calls := w.calls ++
          [addCommonHeaders { w with accessToken := accessToken }
            (newRequest "POST" entitlementsURL .none)] } := by
  unfold getEntitlementToken
  simp only [clientDo]
  split
  · rename_i h; simp only [Prod.mk.injEq] at h; rw [← h.2]
  · rename_i h; simp only [Prod.mk.injEq] at h
    split
    · rw [← h.2]
    · split <;> rw [← h.2]

/-- `getUserInfo` makes exactly one transport call. -/
theorem getUserInfo_world (lib : Lib) (up : Upstream) (accessToken : String) (w : World) :
    (getUserInfo lib up accessToken w).2 =
      { w with calls := w.calls ++
          [addCommonHeaders { w with accessToken := accessToken }
            (newRequest "GET" userInfoURL .none)] } := by
  unfold getUserInfo
  simp only [clientDo]
  split
  · rename_i h; simp only [Prod.mk.injEq] at h; rw [← h.2]
  · rename_i h; simp only [Prod.mk.injEq] at h
    split
    · rw [← h.2]
    · split <;> rw [← h.2]

/-- A token that `getEntitlementToken` returns is the field
`entitlements_token` decoded from a response with the status 200. -/
theorem getEntitlementToken_ok (lib : Lib) (up : Upstream) (accessToken token : String)
    (w w' : World) (h : getEntitlementToken lib up accessToken w = (.ok token, w')) :
    ∃ n req resp r, up n req = .ok resp ∧ resp.statusCode = 200 ∧
      lib.decodeEntitlementResponse resp.body = .ok r ∧ r.EntitlementToken = token := by
  unfold getEntitlementToken at h
  simp only [clientDo] at h
  split at h
  · simp at h
  · rename_i resp w1 hdo
    simp only [Prod.mk.injEq] at hdo
    split at h
    · simp at h
    · rename_i hst
      split at h
      · simp at h
      · rename_i r hdec
        simp only [Prod.mk.injEq, Except.ok.injEq] at h
        exact ⟨_, _, resp, r, hdo.1, by simpa using hst, hdec, h.1⟩

/-! ## Facts about the sessions that the authentication returns -/

theorem Authenticate_entitlement (lib : Lib) (up : Upstream) (username password : String)
    (w w' : World) (s : UserSession)
    (h : Authenticate lib up username password w = (.ok s, w')) :
    FromUpstreamEntitlement lib up s.Entitlement := by
  unfold Authenticate at h
  repeat' split at h
  all_goals first | (simp at h; done) | skip
  all_goals
    simp only [Prod.mk.injEq, Except.ok.injEq] at h
    obtain ⟨rfl, _⟩ := h
    exact getEntitlementToken_ok _ _ _ _ _ _ (by assumption)

theorem authorizeRedirect_entitlement (lib : Lib) (up : Upstream) (cookies : StrMap)
    (w w' : World) (s : UserSession)
    (h : authorizeRedirect lib up cookies w = (.ok s, w')) :
    FromUpstreamEntitlement lib up s.Entitlement := by
  unfold authorizeRedirect at h
  simp only [clientDo] at h
  repeat' split at h
  all_goals first | (simp at h; done) | skip
  all_goals
    simp only [Prod.mk.injEq, Except.ok.injEq] at h
    obtain ⟨rfl, _⟩ := h
    exact getEntitlementToken_ok _ _ _ _ _ _ (by assumption)

theorem viaAuthorizeEndpoint_entitlement (lib : Lib) (up : Upstream) (cookies : StrMap)
    (w w' : World) (s : UserSession)
    (h : authenticateWithCookiesViaAuthorizeEndpoint lib up cookies w = (.ok s, w')) :
    FromUpstreamEntitlement lib up s.Entitlement := by
  unfold authenticateWithCookiesViaAuthorizeEndpoint at h
  simp only [clientDo] at h
  repeat' split at h
  all_goals first | (simp at h; done) | skip
  all_goals first
    | exact authorizeRedirect_entitlement _ _ _ _ _ _ h
    | (simp only [Prod.mk.injEq, Except.ok.injEq] at h
       obtain ⟨rfl, _⟩ := h
       exact getEntitlementToken_ok _ _ _ _ _ _ (by assumption))

theorem authEndpointReplay_entitlement (lib : Lib) (up : Upstream) (cookies : StrMap)
    (w w' : World) (s : UserSession)
    (h : authEndpointReplay lib up cookies w = (.ok s, w')) :
    FromUpstreamEntitlement lib up s.Entitlement := by
  unfold authEndpointReplay at h
  simp only [clientDo] at h
  repeat' split at h
  all_goals first | (simp at h; done) | skip
  all_goals
    simp only [Prod.mk.injEq, Except.ok.injEq] at h
    obtain ⟨rfl, _⟩ := h
    refine ⟨?n, ?req, ?resp, ?r, ?a, ?b, ?c, ?d⟩
    case d => exact rfl
    case c => assumption
    case b => assumption
    case a => exact (Prod.mk.inj (by assumption)).1

theorem viaAuthEndpoint_entitlement (lib : Lib) (up : Upstream) (cookies : StrMap)
    (w w' : World) (s : UserSession)
    (h : authenticateWithCookiesViaAuthEndpoint lib up cookies w = (.ok s, w')) :
    FromUpstreamEntitlement lib up s.Entitlement := by
  unfold authenticateWithCookiesViaAuthEndpoint at h
  simp only [clientDo] at h
  repeat' split at h
  all_goals first | (simp at h; done) | skip
  all_goals first
    | exact authEndpointReplay_entitlement _ _ _ _ _ _ h
    | (simp only [Prod.mk.injEq, Except.ok.injEq] at h
       obtain ⟨rfl, _⟩ := h
       exact getEntitlementToken_ok _ _ _ _ _ _ (by assumption))

theorem AuthenticateWithCookies_entitlement (lib : Lib) (up : Upstream) (cookies : StrMap)
    (w w' : World) (s : UserSession)
    (h : AuthenticateWithCookies lib up cookies w = (.ok s, w')) :
    FromUpstreamEntitlement lib up s.Entitlement := by
  unfold AuthenticateWithCookies at h
  repeat' split at h
  all_goals first | (simp at h; done) | skip
  all_goals
    simp only [Prod.mk.injEq, Except.ok.injEq] at h
    obtain ⟨rfl, _⟩ := h
    rename_i hr _ _ _ _ _
    show FromUpstreamEntitlement lib up _
    split at hr
    · simp only [Prod.mk.injEq, Except.ok.injEq] at hr
      obtain ⟨rfl, _⟩ := hr
      rename_i hvia _ _
      have h1 := viaAuthorizeEndpoint_entitlement _ _ _ _ _ _ hvia
      exact h1
    · have h1 := viaAuthEndpoint_entitlement _ _ _ _ _ _ hr
      exact h1

/-! ## The tokens of a session: claim C2 -/

/-- Claim C2, as stated, fails: when the entitlement endpoint answers 200 with
an empty object, password `Authenticate` returns a session whose `Entitlement`
is the empty string; and `AuthenticateWithCookies` on cookies without `ssid`
returns a session whose `AccessToken` is the empty string. -/
theorem session_tokens_empty_counterexample :
    (Authenticate sampleLib emptyTokenUpstream "neo" "pw" initialWorld).1 =
      .ok { UserID := "player-1", Username := "neo", AccessToken := "tok-1", Entitlement := "",
            RiotUsername := "Neo", RiotTagline := "0001", Region := "eu", Cookies := [] } ∧
    (AuthenticateWithCookies sampleLib goodUpstream [("foo", "bar")] initialWorld).1 =
      .ok { UserID := "player-1", Username := "neo@example.com", AccessToken := "",
            Entitlement := "ent-1", RiotUsername := "Neo", RiotTagline := "0001", Region := "",
            Cookies := [("foo", "bar")] } := by
  constructor <;> rfl

/-! ## Facts about the steps of `Authenticate` -/

/-- `makeRequest` makes exactly one transport call. -/
theorem makeRequest_world {α : Type} (up : Upstream) (method url : String) (data : Body)
    (result : Option (String → Except GoError α)) (w : World) :
    (makeRequest up method url data result w).2 =
      { w with calls := w.calls ++
          [{ method := method, url := url,
             header := [("Content-Type", "application/json"),
               ("User-Agent", "RiotClient/" ++ w.clientVersion)],
             body := data }] } := by
  unfold makeRequest
  simp only [clientDo, newRequest, headerAdd, List.nil_append, List.cons_append]
  split
  · rename_i h; simp only [Prod.mk.injEq] at h; rw [← h.2]
  · rename_i h; simp only [Prod.mk.injEq] at h
    split
    · rw [← h.2]
    · split
      · rw [← h.2]
      · split <;> rw [← h.2]

/-- `makeRequest` returns the error of its transport call. -/
theorem makeRequest_error {α : Type} (up : Upstream) (method url : String) (data : Body)
    (result : Option (String → Except GoError α)) (w : World) (e : GoError)
    (h : up w.calls.length
      { method := method, url := url,
        header := [("Content-Type", "application/json"),
          ("User-Agent", "RiotClient/" ++ w.clientVersion)],
        body := data } = .error e) :
    (makeRequest up method url data result w).1 = .error e := by
  unfold makeRequest
  simp only [clientDo, newRequest, headerAdd, List.nil_append, List.cons_append, h]

/-- `requestAuth` makes exactly one transport call. -/
theorem requestAuth_world (up : Upstream) (w : World) :
    (requestAuth up w).2 = { w with calls := w.calls ++ [initRequest w] } := by
  have h := makeRequest_world (α := Unit) up "POST" loginURL
    (Body.jsonObject [("client_id", "play-valorant-web-prod"), ("nonce", "1"),
      ("redirect_uri", "https://playvalorant.com/opt_in"), ("response_type", "token id_token"),
      ("scope", "account openid")]) none w
  unfold requestAuth
  dsimp only
  split
  · rename_i heq; rw [heq] at h; exact h
  · rename_i heq; rw [heq] at h; exact h

/-- `requestAuth` returns the error of its transport call. -/
theorem requestAuth_error (up : Upstream) (w : World) (e : GoError)
    (h : up w.calls.length (initRequest w) = .error e) :
    (requestAuth up w).1 = some e := by
  have h1 := makeRequest_error (α := Unit) up "POST" loginURL
    (Body.jsonObject [("client_id", "play-valorant-web-prod"), ("nonce", "1"),
      ("redirect_uri", "https://playvalorant.com/opt_in"), ("response_type", "token id_token"),
      ("scope", "account openid")]) none w e h
  unfold requestAuth
  dsimp only
  split
  · rename_i heq; rw [heq] at h1; simp only [Except.error.injEq] at h1; rw [h1]
  · rename_i heq; rw [heq] at h1; simp at h1

/-- `requestLogin` makes exactly one transport call. -/
theorem requestLogin_world (lib : Lib) (up : Upstream) (username password : String) (w : World) :
    (requestLogin lib up username password w).2 =
      { w with calls := w.calls ++ [loginRequest w username password] } := by
  have h := makeRequest_world up "PUT" loginURL
    (Body.jsonObject [("password", password), ("type", "auth"), ("username", username)])
    (some lib.decodeAuthResponse) w
  unfold requestLogin
  dsimp only
  split
  · rename_i heq; rw [heq] at h; exact h
  · rename_i heq; rw [heq] at h
    split <;> exact h

/-- `requestLogin` fails when its transport call does. -/
theorem requestLogin_error (lib : Lib) (up : Upstream) (username password : String) (w : World)
    (e : GoError) (h : up w.calls.length (loginRequest w username password) = .error e) :
    (requestLogin lib up username password w).1 = .error e := by
  have h1 := makeRequest_error up "PUT" loginURL
    (Body.jsonObject [("password", password), ("type", "auth"), ("username", username)])
    (some lib.decodeAuthResponse) w e h
  unfold requestLogin
  dsimp only
  split
  · rename_i heq; rw [heq] at h1; simp only [Except.error.injEq] at h1; rw [h1]
  · rename_i heq; rw [heq] at h1; simp at h1

/-- `getEntitlementToken` fails when its transport call does. -/
theorem getEntitlementToken_error (lib : Lib) (up : Upstream) (accessToken : String) (w : World)
    (e : GoError)
    (h : up w.calls.length (addCommonHeaders { w with accessToken := accessToken }
      (newRequest "POST" entitlementsURL .none)) = .error e) :
    (getEntitlementToken lib up accessToken w).1 = .error e := by
  unfold getEntitlementToken
  simp only [clientDo, h]

/-- `getUserInfo` fails when its transport call does. -/
theorem getUserInfo_error (lib : Lib) (up : Upstream) (accessToken : String) (w : World)
    (e : GoError)
    (h : up w.calls.length (addCommonHeaders { w with accessToken := accessToken }
      (newRequest "GET" userInfoURL .none)) = .error e) :
    (getUserInfo lib up accessToken w).1 = .error e := by
  unfold getUserInfo
  simp only [clientDo, h]

/-- Claim C10, amended: the upstream calls of password authentication are not
executed through the retrying executor, each is attempted once: if the
transport call number `k` of `Authenticate`, for `k < 4` (init, credential
submission, entitlement, userinfo), fails with a transport error, retryable or
not, then `Authenticate` returns an error, no further transport call is made
and nothing sleeps. -/
theorem Authenticate_transport_error (lib : Lib) (up : Upstream) (username password : String)
    (w : World) (k : Nat) (hk : k < 4) (e : GoError)
    (h : ∀ req, up (w.calls.length + k) req = .error e) :
    (∃ E, (Authenticate lib up username password w).1 = .error E) ∧
    (Authenticate lib up username password w).2.calls.length ≤ w.calls.length + k + 1 ∧
    (Authenticate lib up username password w).2.sleeps = w.sleeps := by
  unfold Authenticate
  -- the init call
  have hw0 := requestAuth_world up w
  rcases h0 : requestAuth up w with ⟨r0, w0⟩
  rw [h0] at hw0
  simp only at hw0
  have hc0 : w0.calls.length = w.calls.length + 1 := by rw [hw0]; simp
  have hs0 : w0.sleeps = w.sleeps := by rw [hw0]
  cases r0 with
  | some err =>
    dsimp only
    exact ⟨⟨_, rfl⟩, by omega, hs0⟩
  | none =>
    dsimp only
    have hk0 : k ≠ 0 := by
      rintro rfl
      have := requestAuth_error up w e (h _)
      rw [h0] at this
      simp at this
    -- the credential submission
    have hw1 := requestLogin_world lib up username password w0
    rcases h1 : requestLogin lib up username password w0 with ⟨r1, w1⟩
    rw [h1] at hw1
    simp only at hw1
    have hc1 : w1.calls.length = w.calls.length + 2 := by rw [hw1]; simp [hc0]
    have hs1 : w1.sleeps = w.sleeps := by rw [hw1]; exact hs0
    cases r1 with
    | error err =>
      dsimp only
      exact ⟨⟨_, rfl⟩, by omega, hs1⟩
    | ok authResponse =>
      have hk1 : k ≠ 1 := by
        rintro rfl
        have := requestLogin_error lib up username password w0 e (by rw [hc0]; exact h _)
        rw [h1] at this
        simp at this
      dsimp only
      cases hp : parseAuthURI lib authResponse.uri with
      | error err =>
        dsimp only
        exact ⟨⟨_, rfl⟩, by omega, hs1⟩
      | ok accessToken =>
        -- the entitlement call
        dsimp only
        have hw2 := getEntitlementToken_world lib up accessToken w1
        rcases h2 : getEntitlementToken lib up accessToken w1 with ⟨r2, w2⟩
        rw [h2] at hw2
        simp only at hw2
        have hc2 : w2.calls.length = w.calls.length + 3 := by rw [hw2]; simp [hc1]
        have hs2 : w2.sleeps = w.sleeps := by rw [hw2]; exact hs1
        cases r2 with
        | error err =>
          dsimp only
          exact ⟨⟨_, rfl⟩, by omega, hs2⟩
        | ok entitlementToken =>
          dsimp only
          have hk2 : k ≠ 2 := by
            rintro rfl
            have := getEntitlementToken_error lib up accessToken w1 e (by rw [hc1]; exact h _)
            rw [h2] at this
            simp at this
          -- the userinfo call
          have hw3 := getUserInfo_world lib up accessToken w2
          rcases h3 : getUserInfo lib up accessToken w2 with ⟨r3, w3⟩
          rw [h3] at hw3
          simp only at hw3
          have hc3 : w3.calls.length = w.calls.length + 4 := by rw [hw3]; simp [hc2]
          have hs3 : w3.sleeps = w.sleeps := by rw [hw3]; exact hs2
          cases r3 with
          | error err =>
            dsimp only
            exact ⟨⟨_, rfl⟩, by omega, hs3⟩
          | ok userInfo =>
            have hk3 : k = 3 := by omega
            subst hk3
            have := getUserInfo_error lib up accessToken w2 e (by rw [hc2]; exact h _)
            rw [h3] at this
            simp at this

/-! ## Facts about the transport calls of the cookie login -/

theorem getEntitlementToken_calls (lib : Lib) (up : Upstream) (a : String) (w : World) :
    (getEntitlementToken lib up a w).2.calls.length = w.calls.length + 1 := by
  rw [getEntitlementToken_world]; simp

theorem getUserInfo_calls (lib : Lib) (up : Upstream) (a : String) (w : World) :
    (getUserInfo lib up a w).2.calls.length = w.calls.length + 1 := by
  rw [getUserInfo_world]; simp

theorem authorizeRedirect_calls (lib : Lib) (up : Upstream) (cookies : StrMap) (w : World) :
    w.calls.length < (authorizeRedirect lib up cookies w).2.calls.length := by
  unfold authorizeRedirect
  simp only [clientDo]
  generalize hx : up _ _ = x
  cases x with
  | error e => simp
  | ok resp =>
    dsimp only
    repeat' split
    all_goals (try simp)
    all_goals
      try (have hE := congrArg (fun x => x.2.calls.length) ‹getEntitlementToken _ _ _ _ = _›
           simp only [getEntitlementToken_calls, List.length_append, List.length_singleton] at hE)
      try (have hU := congrArg (fun x => x.2.calls.length) ‹getUserInfo _ _ _ _ = _›
           simp only [getUserInfo_calls] at hU)
      omega

theorem viaAuthorizeEndpoint_calls (lib : Lib) (up : Upstream) (cookies : StrMap) (w : World)
    (hne : cookies ≠ []) :
    w.calls.length <
      (authenticateWithCookiesViaAuthorizeEndpoint lib up cookies w).2.calls.length := by
  unfold authenticateWithCookiesViaAuthorizeEndpoint
  have hlen : ¬ (FilterEssentialCookies cookies).length = 0 := by
    cases cookies with
    | nil => exact absurd rfl hne
    | cons a l => simp [FilterEssentialCookies]
  simp only [clientDo, hlen, if_false]
  generalize hx : up _ _ = x
  cases x with
  | error e =>
    dsimp only
    have := authorizeRedirect_calls lib up (FilterEssentialCookies cookies)
      { w with client := HTTPClient.noRedirect,
               calls := w.calls ++ [setRiotRequestHeaders (newRequest "GET" userInfoURL .none)
                 (FilterEssentialCookies cookies)] }
    simp only [List.length_append, List.length_singleton] at this
    omega
  | ok resp =>
    dsimp only
    have har := authorizeRedirect_calls lib up (FilterEssentialCookies cookies)
      { w with client := HTTPClient.noRedirect,
               calls := w.calls ++ [setRiotRequestHeaders (newRequest "GET" userInfoURL .none)
                 (FilterEssentialCookies cookies)] }
    simp only [List.length_append, List.length_singleton] at har
    repeat' split
    all_goals
      try (have hE := congrArg (fun x => x.2.calls.length) ‹getEntitlementToken _ _ _ _ = _›
           simp only [getEntitlementToken_calls, List.length_append, List.length_singleton] at hE)
      try (have har2 := authorizeRedirect_calls lib up (FilterEssentialCookies cookies) ‹World›)
      try dsimp only
      omega

theorem authEndpointReplay_calls (lib : Lib) (up : Upstream) (cookies : StrMap) (w : World) :
    w.calls.length < (authEndpointReplay lib up cookies w).2.calls.length := by
  unfold authEndpointReplay
  simp only [clientDo]
  generalize hx : up _ _ = x
  cases x with
  | error e => simp
  | ok resp =>
    dsimp only
    generalize hx1 : up _ _ = x1
    cases x1 with
    | error e => simp
    | ok resp1 =>
      dsimp only
      split
      · split
        · simp
        · generalize hx2 : up _ _ = x2
          cases x2 with
          | error e => simp
          | ok resp2 =>
            dsimp only
            generalize hx3 : up _ _ = x3
            cases x3 with
            | error e => simp
            | ok resp3 =>
              dsimp only
              repeat' split
              all_goals simp
      · simp

theorem viaAuthEndpoint_calls (lib : Lib) (up : Upstream) (cookies : StrMap) (w : World) :
    w.calls.length ≤
      (authenticateWithCookiesViaAuthEndpoint lib up cookies w).2.calls.length := by
  unfold authenticateWithCookiesViaAuthEndpoint
  simp only [clientDo]
  split
  · simp
  · split
    · generalize hx : up _ _ = x
      cases x with
      | error e => simp
      | ok resp =>
        dsimp only
        repeat' split
        all_goals
          try (have hE := congrArg (fun x => x.2.calls.length) ‹getEntitlementToken _ _ _ _ = _›
               simp only [getEntitlementToken_calls, List.length_append, List.length_singleton] at hE)
          try dsimp only
          first
          | omega
          | (simp only [List.length_append, List.length_singleton]; omega)
          | exact le_trans (by simp) (le_of_lt (authEndpointReplay_calls _ _ _ _))
    · have := authEndpointReplay_calls lib up (FilterEssentialCookies cookies)
        { w with client := HTTPClient.freshJar }
      dsimp only at this
      omega

/-- A cookie login on a cookie map that is not empty makes at least one
transport call. -/
theorem AuthenticateWithCookies_calls (lib : Lib) (up : Upstream) (cookies : StrMap) (w : World)
    (hne : cookies ≠ []) :
    w.calls.length < (AuthenticateWithCookies lib up cookies w).2.calls.length := by
  unfold AuthenticateWithCookies
  have h1 := viaAuthorizeEndpoint_calls lib up cookies w hne
  rcases hv : authenticateWithCookiesViaAuthorizeEndpoint lib up cookies w with ⟨r1, w1⟩
  rw [hv] at h1
  dsimp only at h1 ⊢
  cases r1 with
  | ok s =>
    dsimp only
    have h2 := getUserInfo_calls lib up s.AccessToken w1
    rcases hu : getUserInfo lib up s.AccessToken w1 with ⟨r2, w2⟩
    rw [hu] at h2
    dsimp only at h2
    cases r2 <;> dsimp only <;> omega
  | error e =>
    dsimp only
    have h2 := viaAuthEndpoint_calls lib up cookies w1
    rcases hv2 : authenticateWithCookiesViaAuthEndpoint lib up cookies w1 with ⟨r2, w2⟩
    rw [hv2] at h2
    dsimp only at h2 ⊢
    cases r2 with
    | error e2 => dsimp only; omega
    | ok s =>
      dsimp only
      have h3 := getUserInfo_calls lib up s.AccessToken w2
      rcases hu : getUserInfo lib up s.AccessToken w2 with ⟨r3, w3⟩
      rw [hu] at h3
      dsimp only at h3
      cases r3 <;> dsimp only <;> omega

/-- `SetRegion` makes no transport call. -/
theorem SetRegion_calls (region : String) (w : World) : (SetRegion region w).calls = w.calls := by
  unfold SetRegion
  split
  · rfl
  · dsimp only
    repeat' split
    all_goals rfl

/-- A cookie login through `LoginWithCookies` on a text with at least one
cookie makes at least one transport call. -/
theorem LoginWithCookies_calls (lib : Lib) (clock : Clock) (up : Upstream)
    (cookieStr region : String) (sv : Services) (w : World)
    (hne : EnhancedParseCookieString cookieStr ≠ []) :
    w.calls.length <
      (LoginWithCookies lib clock up cookieStr region sv w).2.2.calls.length := by
  unfold LoginWithCookies
  have hlen : ¬ (EnhancedParseCookieString cookieStr).length = 0 := by
    rw [List.length_eq_zero]; exact hne
  have h1 := AuthenticateWithCookies_calls lib up (EnhancedParseCookieString cookieStr) w hne
  simp only [hlen, if_false]
  rcases ha : AuthenticateWithCookies lib up (EnhancedParseCookieString cookieStr) w with ⟨r1, w1⟩
  rw [ha] at h1
  dsimp only at h1 ⊢
  cases r1 with
  | error e => dsimp only; omega
  | ok s =>
    dsimp only
    by_cases hr : region = ""
    all_goals
      simp only [hr, ne_eq, not_true_eq_false, not_false_eq_true, if_false, if_true]
      generalize hj : generateJWT lib clock sv _ _ = x
      have hc := congrArg (fun x => x.2.calls.length) hj
      simp only [generateJWT, SetRegion_calls] at hc
      rcases x with ⟨r2, w2⟩
      cases r2 <;> dsimp only at hc ⊢ <;> omega

/-! ## Cookie login without recognised names: claim C1 -/

/-- Claim C1, as stated, fails: the cookie text `foo=bar` has none of the
allowlisted names, and `LoginWithCookies` on it makes three transport calls and,
with an upstream that accepts it, succeeds. -/
theorem cookie_login_unrecognized_counterexample :
    (∀ name ∈ ["ssid", "sub", "csid", "clid", "tdid", "asid"],
      mapLookup (EnhancedParseCookieString "foo=bar") name = none) ∧
    (LoginWithCookies sampleLib sampleClock goodUpstream "foo=bar" "" initialServices
      initialWorld).1 =
      .ok { Token := "header.claims-of-player-1.signature", Username := "Neo#0001",
            UserID := "player-1" } ∧
    (LoginWithCookies sampleLib sampleClock goodUpstream "foo=bar" "" initialServices
      initialWorld).2.2.calls.length = 3 := by
  refine ⟨by decide, rfl, by rfl⟩

/-- Claim C1, amended: `FilterEssentialCookies` returns every cookie map as it
is, so the allowlist rejects nothing; a cookie login fails before any transport
call only when there is no cookie at all (`AuthenticateWithCookies` on the
empty map with the no-cookies error, `LoginWithCookies` on a text without a
cookie with its parse error); on every text with at least one cookie,
allowlisted or not, `LoginWithCookies` makes at least one transport call. -/
theorem cookie_login_fails_fast_only_without_cookies (lib : Lib) (clock : Clock)
    (up : Upstream) (sv : Services) (w : World) :
    (∀ cookies, FilterEssentialCookies cookies = cookies) ∧
    AuthenticateWithCookies lib up [] w =
      (.error (.plain "没有提供任何Cookie"), { w with client := HTTPClient.freshJar }) ∧
    (∀ cookieStr region, EnhancedParseCookieString cookieStr = [] →
      LoginWithCookies lib clock up cookieStr region sv w =
        (.error (.plain "无法解析Cookie字符串，请确保格式正确"), sv, w)) ∧
    (∀ cookieStr region, EnhancedParseCookieString cookieStr ≠ [] →
      w.calls.length <
        (LoginWithCookies lib clock up cookieStr region sv w).2.2.calls.length) := by
  refine ⟨?_, rfl, ?_, ?_⟩
  · intro cookies
    unfold FilterEssentialCookies
    simp
  · intro cookieStr region h
    unfold LoginWithCookies
    simp [h]
  · intro cookieStr region h
    exact LoginWithCookies_calls lib clock up cookieStr region sv w h

/-! ## Login and the retrying executor: claim C10 -/

/-- Claim C10, as stated, fails: the network drops the first transport call
with an error that `isNetworkError` accepts; `retryHTTPRequest` with the limit
3 would get the answer of the init request at its second attempt, but
`Authenticate` fails after that one transport call, while it succeeds on the
same upstream without the drop. -/
theorem login_not_retried_counterexample :
    isNetworkError (some (.net "read tcp: connection reset by peer")) = true ∧
    (retryHTTPRequest hiccupUpstream (initRequest initialWorld) 3 initialWorld).1 =
      .ok { statusCode := 200, location := "", body := "\x7b\x7d", jarCookies := [] } ∧
    (Authenticate sampleLib hiccupUpstream "neo" "pw" initialWorld).1 =
      .error (.wrapf "认证步骤1失败: " (.net "read tcp: connection reset by peer")) ∧
    (Authenticate sampleLib hiccupUpstream "neo" "pw" initialWorld).2.calls =
      [initRequest initialWorld] ∧
    (Authenticate sampleLib goodUpstream "neo" "pw" initialWorld).1 =
      .ok { UserID := "player-1", Username := "neo", AccessToken := "tok-1",
            Entitlement := "ent-1", RiotUsername := "Neo", RiotTagline := "0001",
            Region := "eu", Cookies := [] } := by
  refine ⟨by decide, rfl, rfl, rfl, rfl⟩

/-- Claim C10, amended, at the init call of a login through a network that
drops the first transport call. -/
theorem Authenticate_transport_error_witness :
    (∃ E, (Authenticate sampleLib hiccupUpstream "neo" "pw" initialWorld).1 = .error E) ∧
    (Authenticate sampleLib hiccupUpstream "neo" "pw" initialWorld).2.calls.length ≤
      initialWorld.calls.length + 0 + 1 ∧
    (Authenticate sampleLib hiccupUpstream "neo" "pw" initialWorld).2.sleeps =
      initialWorld.sleeps :=
  Authenticate_transport_error sampleLib hiccupUpstream "neo" "pw" initialWorld 0 (by decide)
    (.net "read tcp: connection reset by peer") (fun _ => rfl)

/-! ## Facts about regions and the session cache -/

theorem mapLookup_mapSet_self {β : Type} (m : GoMap β) (key : String) (value : β) :
    mapLookup (mapSet m key value) key = some value := by
  unfold mapSet
  split
  · rename_i h
    induction m with
    | nil => simp [mapLookup] at h
    | cons kv m ih =>
      by_cases hk : kv.1 = key
      · simp [mapLookup, List.find?, hk]
      · have hk' : (kv.1 == key) = false := by simpa using hk
        have h' : (mapLookup m key).isSome = true := by
          simpa [mapLookup, List.find?, hk'] using h
        have := ih h'
        simpa [mapLookup, List.find?, hk'] using this
  · rename_i h
    have hnone : mapLookup m key = none := by
      cases hm : mapLookup m key with
      | none => rfl
      | some v => rw [hm] at h; simp at h
    have hfind : List.find? (fun kv => kv.1 == key) m = none := by
      cases hf : List.find? (fun kv => kv.1 == key) m with
      | none => rfl
      | some kv => simp [mapLookup, hf] at hnone
    simp [mapLookup, List.find?_append, hfind]

/-- A region that the probing loop returns without an error is one of the
candidates. -/
theorem probeRegions_mem (up : Upstream) (puuid accessToken entitlementToken : String) :
    ∀ (rs : List String) (w : World),
      (probeRegions up puuid accessToken entitlementToken rs w).1.2 = none →
      (probeRegions up puuid accessToken entitlementToken rs w).1.1 ∈ rs := by
  intro rs
  induction rs with
  | nil => intro w h; simp [probeRegions] at h
  | cons region rest ih =>
    intro w
    unfold probeRegions
    simp only [clientDo]
    generalize up _ _ = x
    cases x with
    | error e =>
      dsimp only
      intro h
      exact List.mem_cons_of_mem _ (ih _ h)
    | ok resp =>
      dsimp only
      split
      · intro _; exact List.mem_cons_self _ _
      · intro h
        exact List.mem_cons_of_mem _ (ih _ h)

/-- A region that `GetPlayerRegion` returns without an error is one of the six
codes. -/
theorem GetPlayerRegion_valid (lib : Lib) (up : Upstream) (accessToken entitlementToken : String)
    (w : World) (h : (GetPlayerRegion lib up accessToken entitlementToken w).1.2 = none) :
    (GetPlayerRegion lib up accessToken entitlementToken w).1.1 ∈ validRegions := by
  have hsub : ∀ r, r ∈ regionsToTry → r ∈ validRegions := by decide
  unfold GetPlayerRegion at h ⊢
  generalize getUserInfo lib up accessToken w = x at h ⊢
  rcases x with ⟨r, w1⟩
  cases r with
  | error e => simp at h
  | ok userInfo =>
    dsimp only at h ⊢
    by_cases hp : userInfo.Sub = ""
    · simp [hp] at h
    · simp only [hp, if_false] at h ⊢
      exact hsub _ (probeRegions_mem _ _ _ _ _ _ h)


/-- The region of a session that `Authenticate` returns is one of the six
codes. -/
theorem Authenticate_region (lib : Lib) (up : Upstream) (username password : String)
    (w w' : World) (s : UserSession)
    (h : Authenticate lib up username password w = (.ok s, w')) :
    s.Region ∈ validRegions := by
  unfold Authenticate at h
  repeat' split at h
  all_goals first | (simp at h; done) | skip
  all_goals
    simp only [Prod.mk.injEq, Except.ok.injEq] at h
    obtain ⟨rfl, _⟩ := h
    rename_i hg _ _ _ hif _ _
    dsimp only
    split at hif
    · simp only [Prod.mk.injEq] at hif
      rw [← hif.1]
      decide
    · rename_i herr
      simp only [Prod.mk.injEq] at hif
      rw [← hif.1]
      have := GetPlayerRegion_valid lib up _ _ _ (by
        rw [hg]
        simpa using herr)
      rw [hg] at this
      exact this

/-- The session that a successful `Login` stores has one of the six region
codes. -/
theorem Login_region (lib : Lib) (clock : Clock) (up : Upstream) (username password : String)
    (sv sv' : Services) (w w' : World) (resp : UserTokensResponse)
    (hc : sv.cacheSet = true)
    (h : Login lib clock up username password sv w = (.ok resp, sv', w')) :
    ∃ sess, GetCachedSession resp.UserID sv' = some sess ∧ sess.Region ∈ validRegions := by
  unfold Login at h
  rcases ha : Authenticate lib up username password w with ⟨r, w1⟩
  rw [ha] at h
  cases r with
  | error e => simp at h
  | ok s =>
    have hreg := Authenticate_region lib up username password w w1 s ha
    dsimp only at h
    by_cases hr : s.Region = ""
    · simp only [hr, hc, if_true] at h
      generalize generateJWT lib clock _ _ _ = x at h
      rcases x with ⟨r2, w2⟩
      cases r2 with
      | error e => simp at h
      | ok token =>
        simp only [Prod.mk.injEq, Except.ok.injEq] at h
        obtain ⟨rfl, rfl, _⟩ := h
        exact ⟨_, mapLookup_mapSet_self _ _ _, by
          show RegionAP ∈ validRegions
          decide⟩
    · simp only [hr, hc, if_true, if_false] at h
      generalize generateJWT lib clock _ _ _ = x at h
      rcases x with ⟨r2, w2⟩
      cases r2 with
      | error e => simp at h
      | ok token =>
        simp only [Prod.mk.injEq, Except.ok.injEq] at h
        obtain ⟨rfl, rfl, _⟩ := h
        exact ⟨_, mapLookup_mapSet_self _ _ _, hreg⟩

/-- The session that a successful `LoginWithCookies` stores has the region
hint of the caller as its region, and `ap` when the hint is empty. -/
theorem LoginWithCookies_region (lib : Lib) (clock : Clock) (up : Upstream)
    (cookieStr region : String) (sv sv' : Services) (w w' : World) (resp : UserTokensResponse)
    (hc : sv.cacheSet = true)
    (h : LoginWithCookies lib clock up cookieStr region sv w = (.ok resp, sv', w')) :
    ∃ sess, GetCachedSession resp.UserID sv' = some sess ∧
      sess.Region = if region = "" then RegionAP else region := by
  unfold LoginWithCookies at h
  dsimp only at h
  split at h
  · simp at h
  · rcases ha : AuthenticateWithCookies lib up (EnhancedParseCookieString cookieStr) w
      with ⟨r, w1⟩
    rw [ha] at h
    cases r with
    | error e => simp at h
    | ok s =>
      dsimp only at h
      by_cases hr : region = ""
      · simp only [hr, ne_eq, not_true_eq_false, if_false, hc, if_true] at h
        generalize generateJWT lib clock _ _ _ = x at h
        rcases x with ⟨r2, w2⟩
        cases r2 with
        | error e => simp at h
        | ok token =>
          simp only [Prod.mk.injEq, Except.ok.injEq] at h
          obtain ⟨rfl, rfl, _⟩ := h
          exact ⟨_, mapLookup_mapSet_self _ _ _, by simp [hr]⟩
      · simp only [hr, ne_eq, not_false_eq_true, if_true, hc] at h
        generalize generateJWT lib clock _ _ _ = x at h
        rcases x with ⟨r2, w2⟩
        cases r2 with
        | error e => simp at h
        | ok token =>
          simp only [Prod.mk.injEq, Except.ok.injEq] at h
          obtain ⟨rfl, rfl, _⟩ := h
          exact ⟨_, mapLookup_mapSet_self _ _ _, by simp [hr]⟩

/-- The session that a successful `UpdateUserRegion` stores has the region
argument as its region. -/
theorem UpdateUserRegion_region (userID region : String) (sv sv' : Services) (w w' : World)
    (h : UpdateUserRegion userID region sv w = (none, sv', w')) :
    ∃ sess, GetCachedSession userID sv' = some sess ∧ sess.Region = region := by
  unfold UpdateUserRegion at h
  split at h
  · simp at h
  · simp only [Prod.mk.injEq, true_and] at h
    obtain ⟨rfl, _⟩ := h
    exact ⟨_, mapLookup_mapSet_self _ _ _, rfl⟩

/-! ## The region of a stored session: claim C3 -/

/-- Claim C3, as stated, fails: `LoginWithCookies` with the region hint `mars`
returns successfully and stores a session whose region is `mars`, which is
none of the six codes. -/
theorem cookie_login_region_hint_counterexample :
    (LoginWithCookies sampleLib sampleClock goodUpstream "ssid=abc" "mars" initialServices
      initialWorld).1 =
      .ok { Token := "header.claims-of-player-1.signature", Username := "Neo#0001",
            UserID := "player-1" } ∧
    (GetCachedSession "player-1"
      (LoginWithCookies sampleLib sampleClock goodUpstream "ssid=abc" "mars" initialServices
        initialWorld).2.1).map (fun sess => sess.Region) = some "mars" ∧
    "mars" ∉ validRegions := by
  refine ⟨rfl, rfl, by decide⟩

/-- A region that `UserService.SetUserRegion` accepts is one of the six
codes. -/
theorem SetUserRegion_accepts (region : String) (w w1 : World)
    (h : SetUserRegion region w = (none, w1)) : region ∈ validRegions := by
  unfold SetUserRegion at h
  by_cases hv : validRegions.any (fun validRegion => region = validRegion) = true
  · simp only [List.any_eq_true, decide_eq_true_eq] at hv
    obtain ⟨r, hr, rfl⟩ := hv
    exact hr
  · simp [hv] at h

/-- The region handler calls `UpdateUserRegion` with a region that
`UserService.SetUserRegion` has accepted: after a response with the status 200
the stored session has the region of the request, one of the six codes. -/
theorem UserHandler.SetUserRegion_region (userID : String) (bound : Except GoError String)
    (sv sv' : Services) (w w' : World)
    (h : UserHandler.SetUserRegion userID bound sv w = (200, sv', w')) :
    ∃ region sess, bound = .ok region ∧ GetCachedSession userID sv' = some sess ∧
      sess.Region = region ∧ sess.Region ∈ validRegions := by
  unfold UserHandler.SetUserRegion at h
  split at h
  · simp at h
  · cases bound with
    | error e => simp at h
    | ok region =>
      dsimp only at h
      rcases hs : ValStore.SetUserRegion region w with ⟨r1, w1⟩
      rw [hs] at h
      cases r1 with
      | some e => simp at h
      | none =>
        dsimp only at h
        rcases hu : UpdateUserRegion userID region sv w1 with ⟨r2, sv2, w2⟩
        rw [hu] at h
        cases r2 with
        | some e => simp at h
        | none =>
          simp only [Prod.mk.injEq, true_and] at h
          obtain ⟨rfl, _⟩ := h
          obtain ⟨sess, hsess, hreg⟩ := UpdateUserRegion_region userID region sv sv2 w1 w2 hu
          exact ⟨region, sess, rfl, hsess, hreg,
            hreg ▸ SetUserRegion_accepts region w w1 hs⟩

/-- Claim C3, amended: with the session cache attached, the session that a
successful `Login` stores has a region that is one of the six codes; the
session that a successful `LoginWithCookies` stores has the caller's region
hint as it was passed, unchecked, and `ap` when the hint is empty; the session
that a successful `UpdateUserRegion` stores has the region argument as its
region, and that argument is one of the six codes whenever the call is made
as the program makes it, by the region handler after
`UserService.SetUserRegion` has accepted the region. -/
theorem stored_session_region (lib : Lib) (clock : Clock) (up : Upstream) (sv : Services)
    (w : World) (hc : sv.cacheSet = true) :
    (∀ username password resp sv' w',
      Login lib clock up username password sv w = (.ok resp, sv', w') →
      ∃ sess, GetCachedSession resp.UserID sv' = some sess ∧ sess.Region ∈ validRegions) ∧
    (∀ cookieStr region resp sv' w',
      LoginWithCookies lib clock up cookieStr region sv w = (.ok resp, sv', w') →
      ∃ sess, GetCachedSession resp.UserID sv' = some sess ∧
        sess.Region = if region = "" then RegionAP else region) ∧
    (∀ userID region sv' w',
      UpdateUserRegion userID region sv w = (none, sv', w') →
      ∃ sess, GetCachedSession userID sv' = some sess ∧ sess.Region = region) ∧
    (∀ userID region w1 sv' w',
      SetUserRegion region w = (none, w1) →
      UpdateUserRegion userID region sv w1 = (none, sv', w') →
      ∃ sess, GetCachedSession userID sv' = some sess ∧ sess.Region = region ∧
        sess.Region ∈ validRegions) ∧
    (∀ userID bound sv' w',
      UserHandler.SetUserRegion userID bound sv w = (200, sv', w') →
      ∃ region sess, bound = .ok region ∧ GetCachedSession userID sv' = some sess ∧
        sess.Region = region ∧ sess.Region ∈ validRegions) :=
  ⟨fun username password resp sv' w' h =>
      Login_region lib clock up username password sv sv' w w' resp hc h,
    fun cookieStr region resp sv' w' h =>
      LoginWithCookies_region lib clock up cookieStr region sv sv' w w' resp hc h,
    fun userID region sv' w' h => UpdateUserRegion_region userID region sv sv' w w' h,
    fun userID region w1 sv' w' hs hu => by
      obtain ⟨sess, hsess, hreg⟩ := UpdateUserRegion_region userID region sv sv' w1 w' hu
      exact ⟨sess, hsess, hreg, hreg ▸ SetUserRegion_accepts region w w1 hs⟩,
    fun userID bound sv' w' h => UserHandler.SetUserRegion_region userID bound sv sv' w w' h⟩

/-- Claim C3, amended, at a cache that holds the session of `player-1`, with
the sample upstream: a password login, a cookie login with the hint `mars`,
and the region handler with the region `kr`, each of them successful. -/
theorem stored_session_region_witness :
    (∃ sess, GetCachedSession "player-1"
        (Login sampleLib sampleClock goodUpstream "neo" "pw"
          (CacheUserSession "player-1" sampleSession initialServices) initialWorld).2.1 =
          some sess ∧ sess.Region ∈ validRegions) ∧
    (∃ sess, GetCachedSession "player-1"
        (LoginWithCookies sampleLib sampleClock goodUpstream "ssid=abc" "mars"
          (CacheUserSession "player-1" sampleSession initialServices) initialWorld).2.1 =
          some sess ∧ sess.Region = if "mars" = "" then RegionAP else "mars") ∧
    (∃ region sess, (Except.ok "kr" : Except GoError String) = .ok region ∧
      GetCachedSession "player-1"
        (UserHandler.SetUserRegion "player-1" (.ok "kr")
          (CacheUserSession "player-1" sampleSession initialServices) initialWorld).2.1 =
          some sess ∧ sess.Region = region ∧ sess.Region ∈ validRegions) :=
  ⟨(stored_session_region sampleLib sampleClock goodUpstream
      (CacheUserSession "player-1" sampleSession initialServices) initialWorld rfl).1
      "neo" "pw"
      { Token := "header.claims-of-player-1.signature", Username := "Neo#0001",
        UserID := "player-1" } _ _ rfl,
    (stored_session_region sampleLib sampleClock goodUpstream
      (CacheUserSession "player-1" sampleSession initialServices) initialWorld rfl).2.1
      "ssid=abc" "mars"
      { Token := "header.claims-of-player-1.signature", Username := "Neo#0001",
        UserID := "player-1" } _ _ rfl,
    (stored_session_region sampleLib sampleClock goodUpstream
      (CacheUserSession "player-1" sampleSession initialServices) initialWorld rfl).2.2.2.2
      "player-1" (.ok "kr") _ _ rfl⟩

/-! ## `SetRegion`: claims C16 and C17 -/

/-- `SetRegion` changes the field `region` alone, to a value that depends on
its argument alone. -/
theorem SetRegion_eq (region : String) (w : World) :
    SetRegion region w = { w with region := regionAfterSet region } := by
  unfold regionAfterSet SetRegion
  split
  · rfl
  · dsimp only
    repeat' split
    all_goals rfl

theorem regionAfterSet_casings :
    (∀ t ∈ casings "na".data ++ casings "latam".data ++ casings "br".data,
      regionAfterSet (String.mk t) = "na") ∧
    (∀ t ∈ casings "eu".data, regionAfterSet (String.mk t) = "eu") ∧
    (∀ t ∈ casings "ap".data, regionAfterSet (String.mk t) = "ap") ∧
    (∀ t ∈ casings "kr".data, regionAfterSet (String.mk t) = "kr") ∧
    (∀ t ∈ casings "pbe".data, regionAfterSet (String.mk t) = "pbe") := by
  decide

/-- Claim C16: for every letter-casing of the region name, `SetRegion` maps NA,
LATAM and BR to the one shard code `na`, and maps EU, AP and KR to the shard
codes `eu`, `ap` and `kr`. -/
theorem SetRegion_maps_names (w : World) (s : String) :
    (s.data ∈ casings "na".data ∨ s.data ∈ casings "latam".data ∨ s.data ∈ casings "br".data →
      (SetRegion s w).region = "na") ∧
    (s.data ∈ casings "eu".data → (SetRegion s w).region = "eu") ∧
    (s.data ∈ casings "ap".data → (SetRegion s w).region = "ap") ∧
    (s.data ∈ casings "kr".data → (SetRegion s w).region = "kr") := by
  obtain ⟨hna, heu, hap, hkr, _⟩ := regionAfterSet_casings
  rw [SetRegion_eq]
  refine ⟨fun h => ?_, fun h => heu s.data h, fun h => hap s.data h, fun h => hkr s.data h⟩
  apply hna s.data
  simp only [List.mem_append]
  tauto

/-- Claim C17, as stated, fails: `pbe` is, ignoring case, none of the six
region names, and `SetRegion` sets the region to `pbe`, not to the default. -/
theorem SetRegion_pbe_counterexample :
    (∀ name ∈ validRegions, "pbe".data ∉ casings name.data) ∧
    (SetRegion "pbe" initialWorld).region = "pbe" ∧
    (SetRegion "pbe" initialWorld).region ≠ defaultRegion := by
  decide

/-- Claim C17, amended: for every input string that is empty or whose
lower-cased form is none of `na`, `latam`, `br`, `eu`, `ap`, `kr` and `pbe`,
`SetRegion` sets the region to the default `ap`; every letter-casing of PBE
sets it to `pbe`. -/
theorem SetRegion_default (w : World) (s : String) :
    (s = "" ∨ strToLower s ∉ ["na", "latam", "br", "eu", "ap", "kr", "pbe"] →
      (SetRegion s w).region = "ap") ∧
    (s.data ∈ casings "pbe".data → (SetRegion s w).region = "pbe") := by
  constructor
  · intro h
    unfold SetRegion
    by_cases hs : s = ""
    · simp [hs, defaultRegion]
    · have hl : strToLower s ∉ ["na", "latam", "br", "eu", "ap", "kr", "pbe"] := by
        rcases h with h | h
        · exact absurd h hs
        · exact h
      simp only [List.mem_cons, List.mem_singleton, not_or, List.not_mem_nil,
        or_false] at hl
      obtain ⟨h1, h2, h3, h4, h5, h6, h7⟩ := hl
      simp [hs, h1, h2, h3, h4, h5, h6, h7, defaultRegion]
  · intro h
    rw [SetRegion_eq]
    exact regionAfterSet_casings.2.2.2.2 s.data h

/-! ## Facts about `GetPlayerRegion` -/

/-- One turn of the probing loop. -/
theorem probeRegions_cons (up : Upstream) (puuid accessToken entitlementToken region : String)
    (rest : List String) (w : World) :
    probeRegions up puuid accessToken entitlementToken (region :: rest) w =
      match up w.calls.length (probeRequest region puuid accessToken entitlementToken) with
      | .error _ =>
        probeRegions up puuid accessToken entitlementToken rest
          { w with calls := w.calls ++ [probeRequest region puuid accessToken entitlementToken] }
      | .ok resp =>
        if resp.statusCode = 200 then
          ((region, none),
            { w with region := regionAfterSet region,
                     calls := w.calls ++
                       [probeRequest region puuid accessToken entitlementToken] })
        else
          probeRegions up puuid accessToken entitlementToken rest
            { w with calls := w.calls ++
                [probeRequest region puuid accessToken entitlementToken] } := by
  have hreq : addCommonHeaders
      { SetRegion region w with accessToken := accessToken, entitlementsToken := entitlementToken }
      (newRequest "PUT" ("https://pd." ++ (SetRegion region w).region ++
        ".a.pvp.net/name-service/v2/players") (.text ("[\"" ++ puuid ++ "\"]"))) =
      probeRequest region puuid accessToken entitlementToken := by
    rw [SetRegion_eq]
    rfl
  rw [probeRegions]
  simp only [clientDo, hreq]
  rw [SetRegion_eq]
  cases up w.calls.length (probeRequest region puuid accessToken entitlementToken) with
  | error e => rfl
  | ok resp => rfl

/-- A turn of the probing loop whose probe does not answer 200. -/
theorem probeRegions_cons_fail (up : Upstream) (puuid accessToken entitlementToken region : String)
    (rest : List String) (w : World)
    (h : ¬ answers200 (up w.calls.length
      (probeRequest region puuid accessToken entitlementToken))) :
    probeRegions up puuid accessToken entitlementToken (region :: rest) w =
      probeRegions up puuid accessToken entitlementToken rest
        { w with calls := w.calls ++ [probeRequest region puuid accessToken entitlementToken] } := by
  rw [probeRegions_cons]
  cases hu : up w.calls.length (probeRequest region puuid accessToken entitlementToken) with
  | error e => rfl
  | ok resp =>
    have h200 : resp.statusCode ≠ 200 := fun h2 => h ⟨resp, hu, h2⟩
    simp [h200]

/-- The probing loop stops at the first candidate whose probe answers 200: it
returns that candidate, and the probes made are those of the candidates up to
it, in their order. -/
theorem probeRegions_run (up : Upstream) (puuid accessToken entitlementToken : String) :
    ∀ (rs : List String) (w : World) (j : Nat) (candidate : String),
      rs[j]? = some candidate →
      (∀ i r, i < j → rs[i]? = some r →
        ¬ answers200 (up (w.calls.length + i)
          (probeRequest r puuid accessToken entitlementToken))) →
      answers200 (up (w.calls.length + j)
        (probeRequest candidate puuid accessToken entitlementToken)) →
      probeRegions up puuid accessToken entitlementToken rs w =
        ((candidate, none),
          { w with region := regionAfterSet candidate,
                   calls := w.calls ++ (rs.take (j + 1)).map
                     (fun r => probeRequest r puuid accessToken entitlementToken) }) := by
  intro rs
  induction rs with
  | nil => intro w j candidate hj; simp at hj
  | cons region rest ih =>
    intro w j candidate hj hfail hok
    cases j with
    | zero =>
      simp only [List.getElem?_cons_zero, Option.some.injEq] at hj
      subst hj
      obtain ⟨resp, hu, h200⟩ := hok
      rw [probeRegions_cons]
      simp only [Nat.add_zero] at hu
      simp [hu, h200]
    | succ j =>
      simp only [List.getElem?_cons_succ] at hj
      have h0 := hfail 0 region (Nat.succ_pos j) (by simp)
      rw [probeRegions_cons_fail up puuid accessToken entitlementToken region rest w
        (by simpa using h0)]
      rw [ih _ j candidate hj]
      · simp [List.take, List.append_assoc]
      · intro i r hi hr
        have := hfail (i + 1) r (Nat.succ_lt_succ hi) (by simpa using hr)
        simpa [Nat.add_assoc, Nat.add_comm 1 i] using this
      · simpa [Nat.add_assoc, Nat.add_comm 1 j] using hok

/-- When no probe answers 200 the probing loop returns the default region with
the error, after one probe for every candidate. -/
theorem probeRegions_all_fail (up : Upstream) (puuid accessToken entitlementToken : String) :
    ∀ (rs : List String) (w : World),
      (∀ i r, rs[i]? = some r →
        ¬ answers200 (up (w.calls.length + i)
          (probeRequest r puuid accessToken entitlementToken))) →
      probeRegions up puuid accessToken entitlementToken rs w =
        ((defaultRegion, some regionUndetermined),
          { w with calls := w.calls ++
                     rs.map (fun r => probeRequest r puuid accessToken entitlementToken) }) := by
  intro rs
  induction rs with
  | nil =>
    intro w _
    simp [probeRegions, regionUndetermined, world_eta]
  | cons region rest ih =>
    intro w hfail
    have h0 := hfail 0 region (by simp)
    rw [probeRegions_cons_fail up puuid accessToken entitlementToken region rest w
      (by simpa using h0)]
    rw [ih]
    · simp [List.append_assoc]
    · intro i r hr
      have := hfail (i + 1) r (by simpa using hr)
      simpa [Nat.add_assoc, Nat.add_comm 1 i] using this

/-- The state in which a successful `getUserInfo` ends. -/
theorem getUserInfo_ok_world (lib : Lib) (up : Upstream) (accessToken : String) (w w1 : World)
    (r : Except GoError ValorantUserInfoResponse)
    (h : getUserInfo lib up accessToken w = (r, w1)) :
    w1 = { w with calls := w.calls ++ [userInfoRequest w accessToken] } := by
  have := getUserInfo_world lib up accessToken w
  rw [h] at this
  exact this

/-- `GetPlayerRegion` after a user-info lookup that gave a user id: the probing
loop on the six candidates. -/
theorem GetPlayerRegion_probe (lib : Lib) (up : Upstream) (accessToken entitlementToken : String)
    (w w1 : World) (userInfo : ValorantUserInfoResponse)
    (hui : getUserInfo lib up accessToken w = (.ok userInfo, w1))
    (hsub : userInfo.Sub ≠ "") :
    GetPlayerRegion lib up accessToken entitlementToken w =
      probeRegions up userInfo.Sub accessToken entitlementToken regionsToTry
        { w with calls := w.calls ++ [userInfoRequest w accessToken] } := by
  have hw := getUserInfo_ok_world lib up accessToken w w1 _ hui
  unfold GetPlayerRegion
  rw [hui]
  simp only [hsub, if_false]
  rw [hw]

/-- A region that the probing loop returns with an error is the default. -/
theorem probeRegions_error (up : Upstream) (puuid accessToken entitlementToken : String) :
    ∀ (rs : List String) (w : World),
      (probeRegions up puuid accessToken entitlementToken rs w).1.2 ≠ none →
      (probeRegions up puuid accessToken entitlementToken rs w).1.1 = defaultRegion := by
  intro rs
  induction rs with
  | nil => intro w _; rfl
  | cons region rest ih =>
    intro w
    rw [probeRegions_cons]
    cases up w.calls.length (probeRequest region puuid accessToken entitlementToken) with
    | error e => exact ih _
    | ok resp =>
      dsimp only
      split
      · intro h; exact absurd rfl h
      · exact ih _

/-! ## The region probes: claims C11 and C12 -/

/-- After the user-info lookup that gives the user id, `GetPlayerRegion`
probes the candidates in the fixed order `na`, `eu`, `ap`, `kr`, `latam`, `br`,
one probe for each, and returns the first candidate whose probe answers 200
without a probe for any later candidate: the transport calls made are the
lookup and the probes of the candidates up to the returned one. -/
theorem GetPlayerRegion_first_answer (lib : Lib) (up : Upstream)
    (accessToken entitlementToken : String) (w w1 : World) (userInfo : ValorantUserInfoResponse)
    (j : Nat) (candidate : String)
    (hui : getUserInfo lib up accessToken w = (.ok userInfo, w1))
    (hsub : userInfo.Sub ≠ "")
    (hj : regionsToTry[j]? = some candidate)
    (hfail : ∀ i r, i < j → regionsToTry[i]? = some r →
      ¬ answers200 (up (w.calls.length + 1 + i)
        (probeRequest r userInfo.Sub accessToken entitlementToken)))
    (hok : answers200 (up (w.calls.length + 1 + j)
      (probeRequest candidate userInfo.Sub accessToken entitlementToken))) :
    regionsToTry = ["na", "eu", "ap", "kr", "latam", "br"] ∧
    (GetPlayerRegion lib up accessToken entitlementToken w).1 = (candidate, none) ∧
    (GetPlayerRegion lib up accessToken entitlementToken w).2.calls =
      w.calls ++ userInfoRequest w accessToken ::
        (regionsToTry.take (j + 1)).map
          (fun r => probeRequest r userInfo.Sub accessToken entitlementToken) := by
  rw [GetPlayerRegion_probe lib up accessToken entitlementToken w w1 userInfo hui hsub]
  rw [probeRegions_run up userInfo.Sub accessToken entitlementToken regionsToTry _ j candidate hj
    (by simpa using hfail) (by simpa using hok)]
  refine ⟨rfl, rfl, ?_⟩
  simp

/-- The sample upstream, where the lookup succeeds and of the probes only that
of `eu` answers 200: `eu` is returned after the lookup and exactly two probes,
that of `na` and then that of `eu`. -/
theorem GetPlayerRegion_first_answer_sample :
    regionsToTry = ["na", "eu", "ap", "kr", "latam", "br"] ∧
    (GetPlayerRegion sampleLib goodUpstream "tok-1" "ent-1" initialWorld).1 = ("eu", none) ∧
    (GetPlayerRegion sampleLib goodUpstream "tok-1" "ent-1" initialWorld).2.calls =
      initialWorld.calls ++ userInfoRequest initialWorld "tok-1" ::
        (regionsToTry.take (1 + 1)).map
          (fun r => probeRequest r "player-1" "tok-1" "ent-1") :=
  GetPlayerRegion_first_answer sampleLib goodUpstream "tok-1" "ent-1" initialWorld
    (getUserInfo sampleLib goodUpstream "tok-1" initialWorld).2
    { Sub := "player-1", Email := "neo@example.com", Name := "Neo", Tag := "0001",
      GameName := "", TagLine := "" }
    1 "eu" rfl (by decide) rfl
    (by
      intro i r hi hr
      have hi0 : i = 0 := by omega
      subst hi0
      simp only [regionsToTry, List.getElem?_cons_zero, Option.some.injEq] at hr
      subst hr
      rintro ⟨resp, h1, h2⟩
      have h3 : resp.statusCode = 404 := by
        have h4 : goodUpstream (initialWorld.calls.length + 1 + 0)
            (probeRequest "na" "player-1" "tok-1" "ent-1") =
            .ok { statusCode := 404, location := "", body := "", jarCookies := [] } := rfl
        rw [h4] at h1
        simp only [Except.ok.injEq] at h1
        rw [← h1]
      rw [h3] at h2
      exact absurd h2 (by decide))
    ⟨{ statusCode := 200, location := "", body := "[]", jarCookies := [] }, rfl, rfl⟩

/-- Claim C11, as stated, fails: on an upstream where only the probe of `eu`
answers 200, the user-info lookup with which `GetPlayerRegion` begins fails;
`GetPlayerRegion` makes that one transport call and no probe, and returns the
empty string with an error, not `eu`. -/
theorem GetPlayerRegion_no_probe_counterexample :
    (∀ n r, r ∈ regionsToTry →
      (answers200 (euOnlyUpstream n (probeRequest r "player-1" "tok-1" "ent-1")) ↔
        regionAfterSet r = "eu")) ∧
    (GetPlayerRegion sampleLib euOnlyUpstream "tok-1" "ent-1" initialWorld).1 =
      ("", some (.wrapf "获取用户信息失败: " (.plain "获取用户信息失败，状态码: 404"))) ∧
    (GetPlayerRegion sampleLib euOnlyUpstream "tok-1" "ent-1" initialWorld).2.calls =
      [userInfoRequest initialWorld "tok-1"] := by
  refine ⟨?_, rfl, rfl⟩
  have key : ∀ n req, answers200 (euOnlyUpstream n req) ↔
      req.url = "https://pd.eu.a.pvp.net/name-service/v2/players" := by
    intro n req
    unfold euOnlyUpstream answers200
    by_cases h : req.url = "https://pd.eu.a.pvp.net/name-service/v2/players"
    · simp [h]
    · simp only [h, if_false, Except.ok.injEq, iff_false, not_exists, not_and]
      rintro resp rfl
      decide
  intro n r hr
  rw [key]
  simp only [regionsToTry, List.mem_cons, List.mem_singleton, List.not_mem_nil, or_false] at hr
  rcases hr with rfl | rfl | rfl | rfl | rfl | rfl <;> decide

/-- Claim C11, amended: `GetPlayerRegion` begins with the user-info lookup.
When the lookup gives a user id, it probes the candidates in the fixed order
`na`, `eu`, `ap`, `kr`, `latam`, `br`, one probe for each, and returns the
first candidate whose probe answers 200 without a probe for any later
candidate.  When the lookup fails or gives no user id, it makes no probe and
returns the empty string with an error. -/
theorem GetPlayerRegion_probe_order (lib : Lib) (up : Upstream)
    (accessToken entitlementToken : String) (w : World) :
    regionsToTry = ["na", "eu", "ap", "kr", "latam", "br"] ∧
    (∀ (userInfo : ValorantUserInfoResponse) (w1 : World) (j : Nat) (candidate : String),
      getUserInfo lib up accessToken w = (.ok userInfo, w1) → userInfo.Sub ≠ "" →
      regionsToTry[j]? = some candidate →
      (∀ i r, i < j → regionsToTry[i]? = some r →
        ¬ answers200 (up (w.calls.length + 1 + i)
          (probeRequest r userInfo.Sub accessToken entitlementToken))) →
      answers200 (up (w.calls.length + 1 + j)
        (probeRequest candidate userInfo.Sub accessToken entitlementToken)) →
      (GetPlayerRegion lib up accessToken entitlementToken w).1 = (candidate, none) ∧
      (GetPlayerRegion lib up accessToken entitlementToken w).2.calls =
        w.calls ++ userInfoRequest w accessToken ::
          (regionsToTry.take (j + 1)).map
            (fun r => probeRequest r userInfo.Sub accessToken entitlementToken)) ∧
    (∀ e w1, getUserInfo lib up accessToken w = (.error e, w1) →
      (GetPlayerRegion lib up accessToken entitlementToken w).1 =
        ("", some (.wrapf "获取用户信息失败: " e)) ∧
      (GetPlayerRegion lib up accessToken entitlementToken w).2.calls =
        w.calls ++ [userInfoRequest w accessToken]) ∧
    (∀ userInfo w1, getUserInfo lib up accessToken w = (.ok userInfo, w1) →
      userInfo.Sub = "" →
      (GetPlayerRegion lib up accessToken entitlementToken w).1 =
        ("", some (.plain "无法获取用户ID")) ∧
      (GetPlayerRegion lib up accessToken entitlementToken w).2.calls =
        w.calls ++ [userInfoRequest w accessToken]) := by
  refine ⟨rfl, ?_, ?_, ?_⟩
  · intro userInfo w1 j candidate hui hsub hj hfail hok
    exact (GetPlayerRegion_first_answer lib up accessToken entitlementToken w w1 userInfo j
      candidate hui hsub hj hfail hok).2
  · intro e w1 hui
    have hw := getUserInfo_ok_world lib up accessToken w w1 _ hui
    unfold GetPlayerRegion
    rw [hui, hw]
    exact ⟨rfl, rfl⟩
  · intro userInfo w1 hui hsub
    have hw := getUserInfo_ok_world lib up accessToken w w1 _ hui
    unfold GetPlayerRegion
    rw [hui, hw]
    simp [hsub]

/-- Claim C11, amended, where the lookup succeeds and only the probe of `eu`
answers 200: `eu` is returned after the lookup and exactly two probes, that of
`na` and then that of `eu`. -/
theorem GetPlayerRegion_probe_order_witness :
    (GetPlayerRegion sampleLib goodUpstream "tok-1" "ent-1" initialWorld).1 = ("eu", none) ∧
    (GetPlayerRegion sampleLib goodUpstream "tok-1" "ent-1" initialWorld).2.calls =
      initialWorld.calls ++ userInfoRequest initialWorld "tok-1" ::
        (regionsToTry.take (1 + 1)).map
          (fun r => probeRequest r "player-1" "tok-1" "ent-1") :=
  (GetPlayerRegion_probe_order sampleLib goodUpstream "tok-1" "ent-1" initialWorld).2.1
    { Sub := "player-1", Email := "neo@example.com", Name := "Neo", Tag := "0001",
      GameName := "", TagLine := "" }
    (getUserInfo sampleLib goodUpstream "tok-1" initialWorld).2
    1 "eu" rfl (by decide) rfl
    (by
      intro i r hi hr
      have hi0 : i = 0 := by omega
      subst hi0
      simp only [regionsToTry, List.getElem?_cons_zero, Option.some.injEq] at hr
      subst hr
      rintro ⟨resp, hresp, h200⟩
      have h404 : resp.statusCode = 404 := by
        have h3 : goodUpstream (initialWorld.calls.length + 1 + 0)
            (probeRequest "na" "player-1" "tok-1" "ent-1") =
            .ok { statusCode := 404, location := "", body := "", jarCookies := [] } := rfl
        rw [h3] at hresp
        simp only [Except.ok.injEq] at hresp
        rw [← hresp]
      rw [h404] at h200
      exact absurd h200 (by decide))
    ⟨{ statusCode := 200, location := "", body := "[]", jarCookies := [] }, rfl, rfl⟩

/-- Claim C12, as stated, fails: when the user-info lookup fails,
`GetPlayerRegion` returns the empty string, which is none of the six codes. -/
theorem GetPlayerRegion_empty_counterexample :
    (GetPlayerRegion sampleLib resetUpstream "tok-1" "ent-1" initialWorld).1 =
      ("", some (.wrapf "获取用户信息失败: " (.net "read tcp: connection reset by peer"))) ∧
    "" ∉ validRegions := by
  refine ⟨rfl, by decide⟩

/-- Claim C12, amended: a region that `GetPlayerRegion` returns without an
error is one of the six codes; a region that it returns with an error is the
default `ap` or the empty string: it is `ap`, with the error of the
undetermined region, when the lookup gave a user id and no probe answers 200,
and it is the empty string when the lookup fails or gives no user id. -/
theorem GetPlayerRegion_result (lib : Lib) (up : Upstream)
    (accessToken entitlementToken : String) (w : World) :
    ((GetPlayerRegion lib up accessToken entitlementToken w).1.2 = none →
      (GetPlayerRegion lib up accessToken entitlementToken w).1.1 ∈ validRegions) ∧
    ((GetPlayerRegion lib up accessToken entitlementToken w).1.2 ≠ none →
      (GetPlayerRegion lib up accessToken entitlementToken w).1.1 = "ap" ∨
      (GetPlayerRegion lib up accessToken entitlementToken w).1.1 = "") ∧
    (∀ userInfo w1, getUserInfo lib up accessToken w = (.ok userInfo, w1) →
      userInfo.Sub ≠ "" →
      (∀ i r, regionsToTry[i]? = some r →
        ¬ answers200 (up (w.calls.length + 1 + i)
          (probeRequest r userInfo.Sub accessToken entitlementToken))) →
      (GetPlayerRegion lib up accessToken entitlementToken w).1 =
        ("ap", some regionUndetermined)) ∧
    (∀ e w1, getUserInfo lib up accessToken w = (.error e, w1) →
      (GetPlayerRegion lib up accessToken entitlementToken w).1 =
        ("", some (.wrapf "获取用户信息失败: " e))) ∧
    (∀ userInfo w1, getUserInfo lib up accessToken w = (.ok userInfo, w1) →
      userInfo.Sub = "" →
      (GetPlayerRegion lib up accessToken entitlementToken w).1 =
        ("", some (.plain "无法获取用户ID"))) := by
  refine ⟨GetPlayerRegion_valid lib up accessToken entitlementToken w, ?_, ?_, ?_, ?_⟩
  · intro h
    rcases hui : getUserInfo lib up accessToken w with ⟨r, w1⟩
    cases r with
    | error e =>
      right
      unfold GetPlayerRegion
      rw [hui]
    | ok userInfo =>
      by_cases hsub : userInfo.Sub = ""
      · right
        unfold GetPlayerRegion
        rw [hui]
        simp [hsub]
      · left
        rw [GetPlayerRegion_probe lib up accessToken entitlementToken w w1 userInfo hui hsub]
          at h ⊢
        exact probeRegions_error _ _ _ _ _ _ h
  · intro userInfo w1 hui hsub hfail
    rw [GetPlayerRegion_probe lib up accessToken entitlementToken w w1 userInfo hui hsub]
    rw [probeRegions_all_fail up userInfo.Sub accessToken entitlementToken regionsToTry _
      (by simpa using hfail)]
    rfl
  · intro e w1 hui
    unfold GetPlayerRegion
    rw [hui]
  · intro userInfo w1 hui hsub
    unfold GetPlayerRegion
    rw [hui]
    simp [hsub]

/-! ## The steps of the password login: claims C13, C14 and C18 -/

/-- `Authenticate` after its five steps have succeeded: the session is built
from their results and from the outcome of `GetPlayerRegion`. -/
theorem Authenticate_after_steps (lib : Lib) (up : Upstream) (username password : String)
    (w w1 w2 w3 w4 : World) (authResponse : ValorantAuthResponse)
    (accessToken entitlementToken : String) (userInfo : ValorantUserInfoResponse)
    (h1 : requestAuth up w = (none, w1))
    (h2 : requestLogin lib up username password w1 = (.ok authResponse, w2))
    (h3 : parseAuthURI lib authResponse.uri = .ok accessToken)
    (h4 : getEntitlementToken lib up accessToken w2 = (.ok entitlementToken, w3))
    (h5 : getUserInfo lib up accessToken w3 = (.ok userInfo, w4)) :
    ∃ s, (Authenticate lib up username password w).1 = .ok s ∧
      s.UserID = userInfo.Sub ∧ s.Username = username ∧ s.AccessToken = accessToken ∧
      s.Entitlement = entitlementToken ∧
      s.Region =
        (if (GetPlayerRegion lib up accessToken entitlementToken w4).1.2.isSome then defaultRegion
         else (GetPlayerRegion lib up accessToken entitlementToken w4).1.1) ∧
      s.RiotUsername =
        (if userInfo.GameName ≠ "" ∧ userInfo.TagLine ≠ "" then userInfo.GameName
         else userInfo.Name) ∧
      s.RiotTagline =
        (if userInfo.GameName ≠ "" ∧ userInfo.TagLine ≠ "" then userInfo.TagLine
         else userInfo.Tag) := by
  unfold Authenticate
  simp only [h1, h2, h3, h4, h5]
  by_cases hg : (GetPlayerRegion lib up accessToken entitlementToken w4).1.2.isSome = true <;>
    by_cases hn : userInfo.GameName ≠ "" ∧ userInfo.TagLine ≠ "" <;>
    simp [hg, hn]

/-- A session that `Authenticate` returns comes out of five successful
steps. -/
theorem Authenticate_ok_steps (lib : Lib) (up : Upstream) (username password : String)
    (w w' : World) (s : UserSession)
    (h : Authenticate lib up username password w = (.ok s, w')) :
    ∃ w1 w2 w3 w4 authResponse accessToken entitlementToken userInfo,
      requestAuth up w = (none, w1) ∧
      requestLogin lib up username password w1 = (.ok authResponse, w2) ∧
      parseAuthURI lib authResponse.uri = .ok accessToken ∧
      getEntitlementToken lib up accessToken w2 = (.ok entitlementToken, w3) ∧
      getUserInfo lib up accessToken w3 = (.ok userInfo, w4) := by
  unfold Authenticate at h
  rcases h1 : requestAuth up w with ⟨r1, w1⟩
  rw [h1] at h
  cases r1 with
  | some e => simp at h
  | none =>
    dsimp only at h
    rcases h2 : requestLogin lib up username password w1 with ⟨r2, w2⟩
    rw [h2] at h
    cases r2 with
    | error e => simp at h
    | ok authResponse =>
      dsimp only at h
      cases h3 : parseAuthURI lib authResponse.uri with
      | error e => rw [h3] at h; simp at h
      | ok accessToken =>
        rw [h3] at h
        dsimp only at h
        rcases h4 : getEntitlementToken lib up accessToken w2 with ⟨r4, w3⟩
        rw [h4] at h
        cases r4 with
        | error e => simp at h
        | ok entitlementToken =>
          dsimp only at h
          rcases h5 : getUserInfo lib up accessToken w3 with ⟨r5, w4⟩
          rw [h5] at h
          cases r5 with
          | error e => simp at h
          | ok userInfo =>
            exact ⟨w1, w2, w3, w4, authResponse, accessToken, entitlementToken, userInfo,
              rfl, h2, h3, h4, h5⟩

/-- Claim C13: if the init, credential-submission, token-extraction,
entitlement and userinfo steps of password `Authenticate` all succeed,
`Authenticate` returns a session whatever the outcome of the region
resolution; its region is the resolved region when `GetPlayerRegion` returns no
error and the default `ap` when it returns one, and in every case it is one of
the six codes. -/
theorem Authenticate_region_never_fatal (lib : Lib) (up : Upstream)
    (username password : String) (w w1 w2 w3 w4 : World) (authResponse : ValorantAuthResponse)
    (accessToken entitlementToken : String) (userInfo : ValorantUserInfoResponse)
    (h1 : requestAuth up w = (none, w1))
    (h2 : requestLogin lib up username password w1 = (.ok authResponse, w2))
    (h3 : parseAuthURI lib authResponse.uri = .ok accessToken)
    (h4 : getEntitlementToken lib up accessToken w2 = (.ok entitlementToken, w3))
    (h5 : getUserInfo lib up accessToken w3 = (.ok userInfo, w4)) :
    ∃ s, (Authenticate lib up username password w).1 = .ok s ∧
      ((GetPlayerRegion lib up accessToken entitlementToken w4).1.2 = none →
        s.Region = (GetPlayerRegion lib up accessToken entitlementToken w4).1.1) ∧
      ((GetPlayerRegion lib up accessToken entitlementToken w4).1.2 ≠ none →
        s.Region = "ap") ∧
      s.Region ∈ validRegions := by
  obtain ⟨s, hs, _, _, _, _, hreg, _, _⟩ := Authenticate_after_steps lib up username password
    w w1 w2 w3 w4 authResponse accessToken entitlementToken userInfo h1 h2 h3 h4 h5
  refine ⟨s, hs, ?_, ?_, ?_⟩
  · intro hnone
    rw [hreg, hnone]
    rfl
  · intro hsome
    rw [hreg]
    cases hg : (GetPlayerRegion lib up accessToken entitlementToken w4).1.2 with
    | none => exact absurd hg hsome
    | some e => rfl
  · rw [hreg]
    cases hg : (GetPlayerRegion lib up accessToken entitlementToken w4).1.2 with
    | none =>
      simp only [Option.isSome_none, Bool.false_eq_true, if_false]
      exact GetPlayerRegion_valid lib up accessToken entitlementToken w4 hg
    | some e =>
      simp only [Option.isSome_some, if_true]
      decide

/-- Claim C13 at the sample upstream, where the player is found on `eu`. -/
theorem Authenticate_region_never_fatal_witness :
    ∃ s, (Authenticate sampleLib goodUpstream "neo" "pw" initialWorld).1 = .ok s ∧
      ((GetPlayerRegion sampleLib goodUpstream "tok-1" "ent-1"
          (getUserInfo sampleLib goodUpstream "tok-1"
            (getEntitlementToken sampleLib goodUpstream "tok-1"
              (requestLogin sampleLib goodUpstream "neo" "pw"
                (requestAuth goodUpstream initialWorld).2).2).2).2).1.2 = none →
        s.Region = (GetPlayerRegion sampleLib goodUpstream "tok-1" "ent-1"
          (getUserInfo sampleLib goodUpstream "tok-1"
            (getEntitlementToken sampleLib goodUpstream "tok-1"
              (requestLogin sampleLib goodUpstream "neo" "pw"
                (requestAuth goodUpstream initialWorld).2).2).2).2).1.1) ∧
      ((GetPlayerRegion sampleLib goodUpstream "tok-1" "ent-1"
          (getUserInfo sampleLib goodUpstream "tok-1"
            (getEntitlementToken sampleLib goodUpstream "tok-1"
              (requestLogin sampleLib goodUpstream "neo" "pw"
                (requestAuth goodUpstream initialWorld).2).2).2).2).1.2 ≠ none →
        s.Region = "ap") ∧
      s.Region ∈ validRegions :=
  Authenticate_region_never_fatal sampleLib goodUpstream "neo" "pw" initialWorld
    (requestAuth goodUpstream initialWorld).2
    (requestLogin sampleLib goodUpstream "neo" "pw" (requestAuth goodUpstream initialWorld).2).2
    (getEntitlementToken sampleLib goodUpstream "tok-1"
      (requestLogin sampleLib goodUpstream "neo" "pw"
        (requestAuth goodUpstream initialWorld).2).2).2
    (getUserInfo sampleLib goodUpstream "tok-1"
      (getEntitlementToken sampleLib goodUpstream "tok-1"
        (requestLogin sampleLib goodUpstream "neo" "pw"
          (requestAuth goodUpstream initialWorld).2).2).2).2
    { type := "response", uri := "https://playvalorant.com/opt_in#access_token=tok-1" }
    "tok-1" "ent-1"
    { Sub := "player-1", Email := "neo@example.com", Name := "Neo", Tag := "0001",
      GameName := "", TagLine := "" }
    rfl rfl rfl rfl rfl

/-- Claim C18: in every session that password `Authenticate` returns, the
display name and tag are the fields `acct.game_name` and `acct.tag_line` of the
userinfo response when both are non-empty, whatever the legacy fields hold,
and the legacy fields `name` and `tag` otherwise; the userinfo response is the
one that the fourth transport call of the login, made with the session's
access token, is answered with. -/
theorem Authenticate_display_name (lib : Lib) (up : Upstream) (username password : String)
    (w w' : World) (s : UserSession)
    (h : Authenticate lib up username password w = (.ok s, w')) :
    ∃ w3 w4 userInfo,
      w3.calls.length = w.calls.length + 3 ∧
      getUserInfo lib up s.AccessToken w3 = (.ok userInfo, w4) ∧
      (userInfo.GameName ≠ "" ∧ userInfo.TagLine ≠ "" →
        s.RiotUsername = userInfo.GameName ∧ s.RiotTagline = userInfo.TagLine) ∧
      (¬ (userInfo.GameName ≠ "" ∧ userInfo.TagLine ≠ "") →
        s.RiotUsername = userInfo.Name ∧ s.RiotTagline = userInfo.Tag) := by
  obtain ⟨w1, w2, w3, w4, authResponse, accessToken, entitlementToken, userInfo,
    h1, h2, h3, h4, h5⟩ := Authenticate_ok_steps lib up username password w w' s h
  obtain ⟨s', hs, _, _, hacc, _, _, hname, htag⟩ := Authenticate_after_steps lib up username
    password w w1 w2 w3 w4 authResponse accessToken entitlementToken userInfo h1 h2 h3 h4 h5
  rw [h] at hs
  simp only [Except.ok.injEq] at hs
  subst hs
  have hc1 : w1.calls.length = w.calls.length + 1 := by
    have := requestAuth_world up w
    rw [h1] at this
    dsimp only at this
    rw [this]; simp
  have hc2 : w2.calls.length = w1.calls.length + 1 := by
    have := requestLogin_world lib up username password w1
    rw [h2] at this
    dsimp only at this
    rw [this]; simp
  have hc3 : w3.calls.length = w2.calls.length + 1 := by
    have := getEntitlementToken_calls lib up accessToken w2
    rw [h4] at this
    exact this
  refine ⟨w3, w4, userInfo, by omega, by rw [hacc]; exact h5, ?_, ?_⟩
  · intro hn
    rw [hname, htag]
    simp [hn]
  · intro hn
    rw [hname, htag]
    simp [hn]

/-- Claim C18 at the sample upstream, whose userinfo response has the legacy
fields only. -/
theorem Authenticate_display_name_witness :
    ∃ w3 w4 userInfo,
      w3.calls.length = initialWorld.calls.length + 3 ∧
      getUserInfo sampleLib goodUpstream "tok-1" w3 = (.ok userInfo, w4) ∧
      (userInfo.GameName ≠ "" ∧ userInfo.TagLine ≠ "" →
        "Neo" = userInfo.GameName ∧ "0001" = userInfo.TagLine) ∧
      (¬ (userInfo.GameName ≠ "" ∧ userInfo.TagLine ≠ "") →
        "Neo" = userInfo.Name ∧ "0001" = userInfo.Tag) :=
  Authenticate_display_name sampleLib goodUpstream "neo" "pw" initialWorld
    (Authenticate sampleLib goodUpstream "neo" "pw" initialWorld).2
    { UserID := "player-1", Username := "neo", AccessToken := "tok-1", Entitlement := "ent-1",
      RiotUsername := "Neo", RiotTagline := "0001", Region := "eu", Cookies := [] }
    rfl

/-- A credential response whose `type` is not `response` makes `requestLogin`
fail. -/
theorem requestLogin_rejected (lib : Lib) (up : Upstream) (username password : String)
    (w : World) (resp : Response) (r : ValorantAuthResponse)
    (hup : up w.calls.length (loginRequest w username password) = .ok resp)
    (hdec : lib.decodeAuthResponse resp.body = .ok r) (htype : r.type ≠ "response") :
    ∃ e, requestLogin lib up username password w =
      (.error e, { w with calls := w.calls ++ [loginRequest w username password] }) := by
  have hw := requestLogin_world lib up username password w
  have hup' : up w.calls.length
      { method := "PUT", url := loginURL,
        header := [("Content-Type", "application/json"),
          ("User-Agent", "RiotClient/" ++ w.clientVersion)],
        body := Body.jsonObject [("password", password), ("type", "auth"),
          ("username", username)] } = .ok resp := hup
  have herr : ∃ e, (requestLogin lib up username password w).1 = .error e := by
    unfold requestLogin makeRequest
    simp only [clientDo, newRequest, headerAdd, List.nil_append, List.cons_append, hup', hdec]
    by_cases hst : resp.statusCode < 200 ∨ resp.statusCode ≥ 300
    · simp [hst]
    · simp [hst, htype]
  obtain ⟨e, he⟩ := herr
  exact ⟨e, Prod.ext he hw⟩

/-- A redirect URI whose fragment has no parameter that starts with
`access_token=` makes `parseAuthURI` fail. -/
theorem parseAuthURI_no_token (lib : Lib) (uri fragment : String)
    (hfrag : lib.urlParseFragment uri = .ok fragment)
    (hno : ∀ p ∈ strSplit fragment '&', strHasPrefix p "access_token=" = false) :
    ∃ e, parseAuthURI lib uri = .error e := by
  unfold parseAuthURI
  by_cases hu : uri = ""
  · simp [hu]
  · have hfind : List.find? (fun param => strHasPrefix param "access_token=")
        (strSplit fragment '&') = none := by
      rw [List.find?_eq_none]
      intro p hp
      simp [hno p hp]
    simp [hu, hfrag, hfind]

/-- Claim C14: password `Authenticate` returns an error and no session
whenever the init call fails, the credential submission fails or its response
has a type other than `response`, the redirect URI cannot be parsed or carries
no `access_token`, the entitlement call fails, or the userinfo call fails; and
it ends in the state `wf` in which the failing step ended, that is, without a
further transport call. -/
theorem Authenticate_stops_at_failing_step (lib : Lib) (up : Upstream)
    (username password : String) (w wf : World)
    (h : (∃ e, requestAuth up w = (some e, wf)) ∨
      (∃ w1 e, requestAuth up w = (none, w1) ∧
        requestLogin lib up username password w1 = (.error e, wf)) ∨
      (∃ w1 resp r, requestAuth up w = (none, w1) ∧
        up w1.calls.length (loginRequest w1 username password) = .ok resp ∧
        lib.decodeAuthResponse resp.body = .ok r ∧ r.type ≠ "response" ∧
        wf = { w1 with calls := w1.calls ++ [loginRequest w1 username password] }) ∨
      (∃ w1 r e, requestAuth up w = (none, w1) ∧
        requestLogin lib up username password w1 = (.ok r, wf) ∧
        parseAuthURI lib r.uri = .error e) ∨
      (∃ w1 r fragment, requestAuth up w = (none, w1) ∧
        requestLogin lib up username password w1 = (.ok r, wf) ∧
        lib.urlParseFragment r.uri = .ok fragment ∧
        ∀ p ∈ strSplit fragment '&', strHasPrefix p "access_token=" = false) ∨
      (∃ w1 w2 r accessToken e, requestAuth up w = (none, w1) ∧
        requestLogin lib up username password w1 = (.ok r, w2) ∧
        parseAuthURI lib r.uri = .ok accessToken ∧
        getEntitlementToken lib up accessToken w2 = (.error e, wf)) ∨
      (∃ w1 w2 w3 r accessToken entitlementToken e, requestAuth up w = (none, w1) ∧
        requestLogin lib up username password w1 = (.ok r, w2) ∧
        parseAuthURI lib r.uri = .ok accessToken ∧
        getEntitlementToken lib up accessToken w2 = (.ok entitlementToken, w3) ∧
        getUserInfo lib up accessToken w3 = (.error e, wf))) :
    ∃ E, Authenticate lib up username password w = (.error E, wf) := by
  unfold Authenticate
  rcases h with ⟨e, h1⟩ | ⟨w1, e, h1, h2⟩ | ⟨w1, resp, r, h1, hup, hdec, htype, hwf⟩ |
    ⟨w1, r, e, h1, h2, h3⟩ | ⟨w1, r, fragment, h1, h2, hfrag, hno⟩ |
    ⟨w1, w2, r, accessToken, e, h1, h2, h3, h4⟩ |
    ⟨w1, w2, w3, r, accessToken, entitlementToken, e, h1, h2, h3, h4, h5⟩
  · simp only [h1]
    exact ⟨_, rfl⟩
  · simp only [h1, h2]
    exact ⟨_, rfl⟩
  · obtain ⟨e, h2⟩ := requestLogin_rejected lib up username password w1 resp r hup hdec htype
    simp only [h1, h2, hwf]
    exact ⟨_, rfl⟩
  · simp only [h1, h2, h3]
    exact ⟨_, rfl⟩
  · obtain ⟨e, h3⟩ := parseAuthURI_no_token lib r.uri fragment hfrag hno
    simp only [h1, h2, h3]
    exact ⟨_, rfl⟩
  · simp only [h1, h2, h3, h4]
    exact ⟨_, rfl⟩
  · simp only [h1, h2, h3, h4, h5]
    exact ⟨_, rfl⟩

/-- Claim C14 at a login whose init call fails: the error of the first step is
returned after that one transport call. -/
theorem Authenticate_stops_at_failing_step_witness :
    ∃ E, Authenticate sampleLib hiccupUpstream "neo" "pw" initialWorld =
      (.error E, { initialWorld with calls := initialWorld.calls ++ [initRequest initialWorld] }) :=
  Authenticate_stops_at_failing_step sampleLib hiccupUpstream "neo" "pw" initialWorld
    { initialWorld with calls := initialWorld.calls ++ [initRequest initialWorld] }
    (Or.inl ⟨.net "read tcp: connection reset by peer", rfl⟩)

/-! ## `parseAuthURI`: claim C19 -/

theorem hasPrefixL_append (p t : List Char) : hasPrefixL (p ++ t) p = true := by
  rw [hasPrefixL_iff]
  exact List.prefix_append p t

theorem strTrimPrefix_append (p t : String) : strTrimPrefix (p ++ t) p = t := by
  unfold strTrimPrefix trimPrefixL
  simp [String.data_append, hasPrefixL_append]

/-- Claim C19: `parseAuthURI` returns the text that follows `access_token=` in
the first of the parameters, separated by `&`, of the URI fragment that starts
with `access_token=`; it returns an error when the URI is empty, when it
cannot be parsed, and when its fragment has no such parameter. -/
theorem parseAuthURI_spec (lib : Lib) (uri : String) :
    (uri = "" → parseAuthURI lib uri = .error (.plain "空的认证URI")) ∧
    (∀ e, uri ≠ "" → lib.urlParseFragment uri = .error e → parseAuthURI lib uri = .error e) ∧
    (∀ fragment, uri ≠ "" → lib.urlParseFragment uri = .ok fragment →
      (∀ p ∈ strSplit fragment '&', strHasPrefix p "access_token=" = false) →
      parseAuthURI lib uri = .error (.plain "无法找到访问令牌")) ∧
    (∀ fragment before token after, uri ≠ "" → lib.urlParseFragment uri = .ok fragment →
      strSplit fragment '&' = before ++ ("access_token=" ++ token) :: after →
      (∀ p ∈ before, strHasPrefix p "access_token=" = false) →
      parseAuthURI lib uri = .ok token) := by
  refine ⟨?_, ?_, ?_, ?_⟩
  · intro hu
    simp [parseAuthURI, hu]
  · intro e hu hp
    simp [parseAuthURI, hu, hp]
  · intro fragment hu hp hno
    have hfind : List.find? (fun param => strHasPrefix param "access_token=")
        (strSplit fragment '&') = none := by
      rw [List.find?_eq_none]
      intro p hp
      simp [hno p hp]
    simp [parseAuthURI, hu, hp, hfind]
  · intro fragment before token after hu hp hsplit hno
    have hpre : strHasPrefix ("access_token=" ++ token) "access_token=" = true := by
      unfold strHasPrefix
      rw [String.data_append]
      exact hasPrefixL_append _ _
    have hfind : List.find? (fun param => strHasPrefix param "access_token=")
        (strSplit fragment '&') = some ("access_token=" ++ token) := by
      rw [hsplit, List.find?_append]
      have hnone : List.find? (fun param => strHasPrefix param "access_token=") before = none := by
        rw [List.find?_eq_none]
        intro p hp
        simp [hno p hp]
      simp [hnone, List.find?, hpre]
    simp only [parseAuthURI, hu, hp, hfind, if_false]
    rw [strTrimPrefix_append]

/-! ## The sub-strategies of the cookie login: claim C15 -/

theorem FilterEssentialCookies_eq (cookies : StrMap) : FilterEssentialCookies cookies = cookies := by
  unfold FilterEssentialCookies
  simp

/-- Claim C15, as stated, fails: the direct profile probe succeeds and produces
a session, but `AuthenticateWithCookies` returns an error, because the call of
the userinfo endpoint that it makes afterwards with the session's access token
is answered 401. -/
theorem cookie_login_extra_call_counterexample :
    (authenticateWithCookiesViaAuthorizeEndpoint sampleLib staleUpstream [("ssid", "abc")]
      initialWorld).1 =
      .ok { UserID := "player-1", Username := "neo@example.com", AccessToken := "abc",
            Entitlement := "ent-1", RiotUsername := "Neo", RiotTagline := "0001", Region := "",
            Cookies := [("ssid", "abc")] } ∧
    (AuthenticateWithCookies sampleLib staleUpstream [("ssid", "abc")] initialWorld).1 =
      .error (.wrapf "获取用户信息失败: " (.plain "获取用户信息失败，状态码: 401")) := by
  constructor <;> rfl

/-- Claim C15, amended: `AuthenticateWithCookies` tries the direct profile
probe before the authorize-redirect replay: when the probe and the entitlement
call after it succeed, the session of the probe is produced without the replay.
A session that a sub-strategy produces is not returned at once: the userinfo
endpoint is called once more with the session's access token, and
`AuthenticateWithCookies` succeeds exactly when a sub-strategy has produced a
session and that call succeeds; it then returns that session with name and tag
from that call and an empty region. When that call fails it returns an error,
as it does when every sub-strategy has failed. -/
theorem AuthenticateWithCookies_flow (lib : Lib) (up : Upstream) (cookies : StrMap) (w : World) :
    (∀ resp userInfo token w2, cookies ≠ [] →
      up w.calls.length (cookieProbeRequest cookies) = .ok resp → resp.statusCode = 200 →
      lib.decodeUserInfoResponse resp.body = .ok userInfo →
      getEntitlementToken lib up (mapGet cookies "ssid")
        { w with client := HTTPClient.noRedirect,
                 calls := w.calls ++ [cookieProbeRequest cookies] } = (.ok token, w2) →
      authenticateWithCookiesViaAuthorizeEndpoint lib up cookies w =
        (.ok { UserID := userInfo.Sub, Username := userInfo.Email,
               AccessToken := mapGet cookies "ssid", Entitlement := token,
               RiotUsername := userInfo.Name, RiotTagline := userInfo.Tag, Region := "",
               Cookies := cookies }, w2)) ∧
    (∀ s' w', AuthenticateWithCookies lib up cookies w = (.ok s', w') ↔
      ∃ s w1 userInfo, CookieStrategyProduced lib up cookies w s w1 ∧
        getUserInfo lib up s.AccessToken w1 = (.ok userInfo, w') ∧
        s' = { s with RiotUsername := userInfo.Name, RiotTagline := userInfo.Tag,
                      Region := "" }) ∧
    (∀ s w1 e w2, CookieStrategyProduced lib up cookies w s w1 →
      getUserInfo lib up s.AccessToken w1 = (.error e, w2) →
      AuthenticateWithCookies lib up cookies w = (.error (.wrapf "获取用户信息失败: " e), w2)) ∧
    (∀ e w0 e2 w2, authenticateWithCookiesViaAuthorizeEndpoint lib up cookies w = (.error e, w0) →
      authenticateWithCookiesViaAuthEndpoint lib up cookies w0 = (.error e2, w2) →
      AuthenticateWithCookies lib up cookies w = (.error e2, w2)) := by
  refine ⟨?_, ?_, ?_, ?_⟩
  · intro resp userInfo token w2 hne hup hst hdec hent
    have hlen : ¬ cookies.length = 0 := by
      rw [List.length_eq_zero]; exact hne
    unfold authenticateWithCookiesViaAuthorizeEndpoint
    simp only [FilterEssentialCookies_eq, hlen, if_false, clientDo]
    have hup' : up w.calls.length
        (setRiotRequestHeaders (newRequest "GET" userInfoURL Body.none) cookies) = .ok resp := hup
    simp only [hup', hst, if_true, hdec]
    have hent' : getEntitlementToken lib up (mapGet cookies "ssid")
        { w with client := HTTPClient.noRedirect,
                 calls := w.calls ++
                   [setRiotRequestHeaders (newRequest "GET" userInfoURL Body.none) cookies] } =
        (.ok token, w2) := hent
    simp only [hent']
  · intro s' w'
    unfold AuthenticateWithCookies CookieStrategyProduced
    rcases hv : authenticateWithCookiesViaAuthorizeEndpoint lib up cookies w with ⟨r1, w1⟩
    cases r1 with
    | ok s =>
      dsimp only
      rcases hu : getUserInfo lib up s.AccessToken w1 with ⟨r2, w2⟩
      cases r2 with
      | error e =>
        simp only [Prod.mk.injEq]
        constructor
        · rintro ⟨h, _⟩
          cases h
        · rintro ⟨s0, w0, ui, hprod, hui, _⟩
          exfalso
          rcases hprod with hp | ⟨e0, w00, hp, _⟩
          · simp only [Prod.mk.injEq, Except.ok.injEq] at hp
            obtain ⟨rfl, rfl⟩ := hp
            rw [hu] at hui
            simp at hui
          · simp at hp
      | ok ui =>
        simp only [Prod.mk.injEq, Except.ok.injEq]
        constructor
        · rintro ⟨rfl, rfl⟩
          exact ⟨s, w1, ui, Or.inl ⟨rfl, rfl⟩, ⟨by rw [hu], rfl⟩⟩
        · rintro ⟨s0, w0, ui0, hprod, hui, rfl⟩
          rcases hprod with hp | ⟨e0, w00, hp, _⟩
          · obtain ⟨rfl, rfl⟩ := hp
            rw [hu] at hui
            simp only [Prod.mk.injEq, Except.ok.injEq] at hui
            obtain ⟨rfl, rfl⟩ := hui
            exact ⟨rfl, rfl⟩
          · simp at hp
    | error e =>
      dsimp only
      rcases hv2 : authenticateWithCookiesViaAuthEndpoint lib up cookies w1 with ⟨r2, w2⟩
      cases r2 with
      | error e2 =>
        simp only [Prod.mk.injEq]
        constructor
        · rintro ⟨h, _⟩
          cases h
        · rintro ⟨s0, w0, ui, hprod, _, _⟩
          exfalso
          rcases hprod with hp | ⟨e0, w00, hp, hp2⟩
          · simp at hp
          · simp only [Prod.mk.injEq, Except.error.injEq] at hp
            obtain ⟨_, rfl⟩ := hp
            rw [hv2] at hp2
            simp at hp2
      | ok s =>
        dsimp only
        rcases hu : getUserInfo lib up s.AccessToken w2 with ⟨r3, w3⟩
        cases r3 with
        | error e3 =>
          simp only [Prod.mk.injEq]
          constructor
          · rintro ⟨h, _⟩
            cases h
          · rintro ⟨s0, w0, ui, hprod, hui, _⟩
            exfalso
            rcases hprod with hp | ⟨e0, w00, hp, hp2⟩
            · simp at hp
            · simp only [Prod.mk.injEq, Except.error.injEq] at hp
              obtain ⟨_, rfl⟩ := hp
              rw [hv2] at hp2
              simp only [Prod.mk.injEq, Except.ok.injEq] at hp2
              obtain ⟨rfl, rfl⟩ := hp2
              rw [hu] at hui
              simp at hui
        | ok ui =>
          simp only [Prod.mk.injEq, Except.ok.injEq]
          constructor
          · rintro ⟨rfl, rfl⟩
            exact ⟨s, w2, ui, Or.inr ⟨e, w1, ⟨rfl, rfl⟩, hv2⟩, ⟨by rw [hu], rfl⟩⟩
          · rintro ⟨s0, w0, ui0, hprod, hui, rfl⟩
            rcases hprod with hp | ⟨e0, w00, hp, hp2⟩
            · simp at hp
            · simp only [Prod.mk.injEq, Except.error.injEq] at hp
              obtain ⟨_, rfl⟩ := hp
              rw [hv2] at hp2
              simp only [Prod.mk.injEq, Except.ok.injEq] at hp2
              obtain ⟨rfl, rfl⟩ := hp2
              rw [hu] at hui
              simp only [Prod.mk.injEq, Except.ok.injEq] at hui
              obtain ⟨rfl, rfl⟩ := hui
              exact ⟨rfl, rfl⟩
  · intro s w1 e w2 hprod hui
    unfold AuthenticateWithCookies
    rcases hprod with hp | ⟨e0, w0, hp, hp2⟩
    · simp only [hp, hui]
    · simp only [hp, hp2, hui]
  · intro e w0 e2 w2 h1 h2
    unfold AuthenticateWithCookies
    simp only [h1, h2]

/-! ## The cookie parser: claim C20 -/

theorem dropWhile_append_all (p : Char → Bool) (l s : List Char) (h : ∀ c ∈ l, p c = true) :
    (l ++ s).dropWhile p = s.dropWhile p := by
  induction l with
  | nil => rfl
  | cons a l ih =>
    have ha : p a = true := h a (List.mem_cons_self _ _)
    simp only [List.cons_append, List.dropWhile_cons, ha, if_true]
    exact ih (fun c hc => h c (List.mem_cons_of_mem _ hc))

theorem dropWhile_all (p : Char → Bool) (l : List Char) (h : ∀ c ∈ l, p c = true) :
    l.dropWhile p = [] := by
  have := dropWhile_append_all p l [] h
  simpa using this

theorem eq_nil_or_append_singleton (s : List Char) : s = [] ∨ ∃ init b, s = init ++ [b] := by
  by_cases h : s = []
  · exact Or.inl h
  · exact Or.inr ⟨s.dropLast, s.getLast h, (List.dropLast_append_getLast h).symm⟩

/-- A trimmed text between two runs of characters to trim is what `trimL`
returns. -/
theorem trimL_core (p : Char → Bool) (l core r : List Char) (hl : ∀ c ∈ l, p c = true)
    (hr : ∀ c ∈ r, p c = true) (hc : trimmedL p core = true) :
    trimL p (l ++ core ++ r) = core := by
  unfold trimL
  rw [List.append_assoc, dropWhile_append_all p l _ hl]
  cases core with
  | nil =>
    simp only [List.nil_append]
    rw [dropWhile_all p r hr]
    rfl
  | cons a t =>
    unfold trimmedL at hc
    simp only [Bool.and_eq_true] at hc
    obtain ⟨h1, h2⟩ := hc
    have ha : p a = false := by simpa using h1
    rw [List.cons_append, List.dropWhile_cons_of_neg (by simp [ha])]
    rw [← List.cons_append, List.reverse_append,
      dropWhile_append_all p r.reverse _ (fun c hc => hr c (List.mem_reverse.mp hc))]
    rcases eq_nil_or_append_singleton (a :: t) with h | ⟨init, b, h⟩
    · simp at h
    · rw [h] at h2 ⊢
      have hb : p b = false := by simpa using h2
      simp [List.dropWhile_cons, hb]

theorem trimmedL_of_none (p : Char → Bool) (s : List Char) (h : ∀ c ∈ s, p c = false) :
    trimmedL p s = true := by
  unfold trimmedL
  rcases eq_nil_or_append_singleton s with hs | ⟨init, b, hs⟩
  · subst hs; rfl
  · have hb : p b = false := h b (by rw [hs]; simp)
    cases s with
    | nil => simp at hs
    | cons a t =>
      have ha : p a = false := h a (List.mem_cons_self _ _)
      have h1 : (a :: t).getLast? = some b := by rw [hs]; simp
      simp [h1, ha, hb]

theorem trimmedL_append (p : Char → Bool) (a b : List Char) (ha : trimmedL p a = true)
    (hb : trimmedL p b = true) : trimmedL p (a ++ b) = true := by
  unfold trimmedL at *
  simp only [Bool.and_eq_true] at *
  cases a with
  | nil => simpa using hb
  | cons x a =>
    refine ⟨by simpa using ha.1, ?_⟩
    rcases eq_nil_or_append_singleton b with h | ⟨init, y, h⟩
    · subst h; simpa using ha.2
    · subst h
      have hy : p y = false := by simpa using hb.2
      have h1 : (x :: a ++ (init ++ [y])).getLast? = some y := by
        have e : x :: a ++ (init ++ [y]) = (x :: a ++ init) ++ [y] := by simp
        rw [e, List.getLast?_append]
        rfl
      rw [h1]
      simp [hy]

theorem cutL_found (c : Char) : ∀ (a b : List Char), c ∉ a → cutL c (a ++ c :: b) = some (a, b)
  | [], b, _ => by simp [cutL]
  | d :: a, b, h => by
    have hd : d ≠ c := fun e => h (e ▸ List.mem_cons_self _ _)
    have ih := cutL_found c a b (fun hm => h (List.mem_cons_of_mem _ hm))
    simp [cutL, hd, ih]

theorem cutL_absent (c : Char) : ∀ (s : List Char), c ∉ s → cutL c s = none
  | [], _ => rfl
  | d :: s, h => by
    have hd : d ≠ c := fun e => h (e ▸ List.mem_cons_self _ _)
    have ih := cutL_absent c s (fun hm => h (List.mem_cons_of_mem _ hm))
    simp [cutL, hd, ih]
/-- The loop body of the parser on a part that, trimmed, is a name, white
space, a separator and a rest: the name is set to the rest without its
surrounding white space and quotes. -/
theorem parseCookiePart_core (acc : StrMap) (P nm ws2 X vl : List Char) (sep : Char)
    (hP : trimL isSpace P = nm ++ ws2 ++ sep :: X)
    (hnm : nm ≠ []) (hnmt : trimmedL isSpace nm = true)
    (hnmeq : '=' ∉ nm) (hnmco : ':' ∉ nm)
    (hws2 : ∀ c ∈ ws2, isSpace c = true)
    (hsep : sep = '=' ∨ sep = ':')
    (hX : '=' ∉ X)
    (hXv : trimL isQuote (trimL isSpace X) = vl) :
    parseCookiePart acc (String.mk P) = mapSet acc (String.mk nm) (String.mk vl) := by
  have hXv' : trimL (fun c => "\"\x27".data.contains c) (trimL isSpace X) = vl := hXv
  have hname : trimL isSpace (nm ++ ws2) = nm := by
    have := trimL_core isSpace [] nm ws2 (by simp) hws2 hnmt
    simpa using this
  have hws2eq : '=' ∉ ws2 := fun h => by
    have := hws2 _ h
    revert this
    decide
  have hws2co : ':' ∉ ws2 := fun h => by
    have := hws2 _ h
    revert this
    decide
  have hne : (String.mk (nm ++ ws2 ++ sep :: X) = "") = False := by
    apply eq_false
    intro h
    have := congrArg String.data h
    simp at this
  have hne2 : (String.mk nm = "") = False := by
    apply eq_false
    intro h
    exact hnm (congrArg String.data h)
  unfold parseCookiePart
  simp only [strTrimSpace, strTrim, hP, hne, if_false]
  rcases hsep with rfl | rfl
  · have hcut : cutL '=' (nm ++ ws2 ++ '=' :: X) = some (nm ++ ws2, X) :=
      cutL_found '=' (nm ++ ws2) X (by simp [hnmeq, hws2eq])
    simp only [hcut, hname, hXv', ne_eq, hne2, not_false_eq_true, if_true]
  · have hcut : cutL '=' (nm ++ ws2 ++ ':' :: X) = none :=
      cutL_absent '=' _ (by simp [hnmeq, hws2eq, hX])
    have hcut2 : cutL ':' (nm ++ ws2 ++ ':' :: X) = some (nm ++ ws2, X) :=
      cutL_found ':' (nm ++ ws2) X (by simp [hnmco, hws2co])
    simp only [hcut, hcut2, hname, hXv', ne_eq, hne2, not_false_eq_true, if_true]
theorem trimmedL_mid (p : Char → Bool) (a m b : List Char) (ha : a ≠ []) (hb : b ≠ [])
    (hta : trimmedL p a = true) (htb : trimmedL p b = true) :
    trimmedL p (a ++ m ++ b) = true := by
  unfold trimmedL at *
  simp only [Bool.and_eq_true] at *
  cases a with
  | nil => exact absurd rfl ha
  | cons x a =>
    refine ⟨by simpa using hta.1, ?_⟩
    rcases eq_nil_or_append_singleton b with h | ⟨init, y, h⟩
    · exact absurd h hb
    · subst h
      have hy : p y = false := by simpa using htb.2
      have h1 : (x :: a ++ m ++ (init ++ [y])).getLast? = some y := by
        have e : x :: a ++ m ++ (init ++ [y]) = (x :: a ++ m ++ init) ++ [y] := by simp
        rw [e, List.getLast?_append]
        rfl
      rw [h1]
      simp [hy]

theorem isQuote_cases (c : Char) (h : isQuote c = true) :
    c = Char.ofNat 34 ∨ c = Char.ofNat 39 := by
  have e : "\"\x27".data = [Char.ofNat 34, Char.ofNat 39] := by decide
  unfold isQuote at h
  rw [e] at h
  simpa using h

theorem reserved_cases (c : Char) (h : reservedChars.contains c = false) :
    c ≠ ';' ∧ c ≠ ',' ∧ c ≠ '=' ∧ c ≠ ':' ∧ c ≠ Char.ofNat 34 ∧ c ≠ Char.ofNat 39 ∧
    c ≠ '\r' ∧ c ≠ '\n' := by
  have e : reservedChars = [';', ',', '=', ':', Char.ofNat 34, Char.ofNat 39, '\r', '\n'] := by
    decide
  rw [e] at h
  simpa using h

theorem plainToken_spec (s : String) (h : plainToken s = true) :
    (∀ c ∈ s.data, reservedChars.contains c = false) ∧ trimmedL isSpace s.data = true := by
  unfold plainToken at h
  simp only [Bool.and_eq_true, List.all_eq_true, Bool.not_eq_true'] at h
  exact h

theorem isQuote_not_space (c : Char) (h : isQuote c = true) : isSpace c = false := by
  rcases isQuote_cases c h with rfl | rfl <;> decide

/-- The characters that a well formed format adds to a pair. -/
theorem PairFormat.wellFormed_spec (f : PairFormat) (hf : f.wellFormed = true) :
    (∀ c ∈ f.beforeName, isSpace c = true) ∧ (∀ c ∈ f.afterName, isSpace c = true) ∧
    (∀ c ∈ f.beforeValue, isSpace c = true) ∧ (∀ c ∈ f.afterValue, isSpace c = true) ∧
    (∀ c ∈ f.openQuotes, isQuote c = true) ∧ (∀ c ∈ f.closeQuotes, isQuote c = true) := by
  unfold PairFormat.wellFormed at hf
  simp only [Bool.and_eq_true, List.all_eq_true] at hf
  obtain ⟨⟨⟨⟨⟨h1, h2⟩, h3⟩, h4⟩, h5⟩, h6⟩ := hf
  exact ⟨h1, h2, h3, h4, h5, h6⟩

/-- The loop body of the parser on one written pair sets the name to the
value. -/
theorem parseCookiePart_written (acc : StrMap) (kv : String × String) (f : PairFormat)
    (hf : f.wellFormed = true) (hne : kv.1 ≠ "") (hk : plainToken kv.1 = true)
    (hv : plainToken kv.2 = true) :
    parseCookiePart acc (String.mk (writePair kv f)) = mapSet acc kv.1 kv.2 := by
  obtain ⟨hk1, hk2⟩ := plainToken_spec _ hk
  obtain ⟨hv1, hv2⟩ := plainToken_spec _ hv
  obtain ⟨h1, h2, h3, h4, h5, h6⟩ := f.wellFormed_spec hf
  have hsep : f.separator = '=' ∨ f.separator = ':' := by
    unfold PairFormat.separator
    split
    · exact Or.inr rfl
    · exact Or.inl rfl
  have hsepsp : isSpace f.separator = false := by
    rcases hsep with h | h <;> rw [h] <;> decide
  have hnm : kv.1.data ≠ [] := fun h => hne (String.ext h)
  have hspeq : ∀ c, isSpace c = true → c ≠ '=' := by
    intro c hc e
    subst e
    revert hc
    decide
  have hqeq : ∀ c, isQuote c = true → c ≠ '=' := by
    intro c hc e
    subst e
    revert hc
    decide
  have hvq : trimmedL isQuote kv.2.data = true := by
    apply trimmedL_of_none
    intro c hc
    have := reserved_cases c (hv1 c hc)
    cases hq : isQuote c with
    | false => rfl
    | true =>
      rcases isQuote_cases c hq with e | e
      · exact absurd e this.2.2.2.2.1
      · exact absurd e this.2.2.2.2.2.1
  have hMt : trimmedL isSpace (f.openQuotes ++ kv.2.data ++ f.closeQuotes) = true := by
    apply trimmedL_append
    · apply trimmedL_append
      · exact trimmedL_of_none _ _ (fun c hc => isQuote_not_space c (h5 c hc))
      · exact hv2
    · exact trimmedL_of_none _ _ (fun c hc => isQuote_not_space c (h6 c hc))
  have hMq : trimL isQuote (f.openQuotes ++ kv.2.data ++ f.closeQuotes) = kv.2.data :=
    trimL_core isQuote _ _ _ h5 h6 hvq
  have hseptr : trimmedL isSpace [f.separator] = true :=
    trimmedL_of_none _ _ (fun c hc => by
      rw [List.mem_singleton] at hc
      rw [hc]
      exact hsepsp)
  by_cases hM : f.openQuotes ++ kv.2.data ++ f.closeQuotes = []
  · have hM' := hM
    simp only [List.append_eq_nil] at hM'
    obtain ⟨⟨hq1, hvl⟩, hq2⟩ := hM'
    apply parseCookiePart_core acc _ kv.1.data f.afterName [] kv.2.data f.separator
    · have e : writePair kv f =
          f.beforeName ++ (kv.1.data ++ f.afterName ++ [f.separator]) ++
            (f.beforeValue ++ f.afterValue) := by
        simp [writePair, hq1, hq2, hvl]
      rw [e]
      apply trimL_core isSpace _ _ _ h1
      · intro c hc
        rcases List.mem_append.mp hc with hc | hc
        · exact h3 c hc
        · exact h4 c hc
      · exact trimmedL_mid isSpace _ _ _ hnm (by simp) hk2 hseptr
    · exact hnm
    · exact hk2
    · exact fun h => (reserved_cases _ (hk1 _ h)).2.2.1 rfl
    · exact fun h => (reserved_cases _ (hk1 _ h)).2.2.2.1 rfl
    · exact h2
    · exact hsep
    · simp
    · rw [hvl]
      rfl
  · apply parseCookiePart_core acc _ kv.1.data f.afterName
      (f.beforeValue ++ (f.openQuotes ++ kv.2.data ++ f.closeQuotes)) kv.2.data f.separator
    · have e : writePair kv f =
          f.beforeName ++ (kv.1.data ++ (f.afterName ++ [f.separator] ++ f.beforeValue) ++
            (f.openQuotes ++ kv.2.data ++ f.closeQuotes)) ++ f.afterValue := by
        simp [writePair]
      rw [e, trimL_core isSpace _ _ _ h1 h4 (trimmedL_mid isSpace _ _ _ hnm hM hk2 hMt)]
      simp
    · exact hnm
    · exact hk2
    · exact fun h => (reserved_cases _ (hk1 _ h)).2.2.1 rfl
    · exact fun h => (reserved_cases _ (hk1 _ h)).2.2.2.1 rfl
    · exact h2
    · exact hsep
    · intro h
      simp only [List.mem_append] at h
      rcases h with h | (h | h) | h
      · exact hspeq _ (h3 _ h) rfl
      · exact hqeq _ (h5 _ h) rfl
      · exact (reserved_cases _ (hv1 _ h)).2.2.1 rfl
      · exact hqeq _ (h6 _ h) rfl
    · have := trimL_core isSpace f.beforeValue _ [] h3 (by simp) hMt
      rw [List.append_nil] at this
      rw [this, hMq]
theorem splitL_absent (sep : Char) : ∀ p : List Char, sep ∉ p → splitL sep p = [p]
  | [], _ => rfl
  | c :: p, h => by
    have hc : c ≠ sep := fun e => h (e ▸ List.mem_cons_self _ _)
    have ih := splitL_absent sep p (fun hm => h (List.mem_cons_of_mem _ hm))
    simp [splitL, hc, ih]

theorem splitL_append (sep : Char) : ∀ (p rest : List Char), sep ∉ p →
    splitL sep (p ++ sep :: rest) = p :: splitL sep rest
  | [], rest, _ => by simp [splitL]
  | c :: p, rest, h => by
    have hc : c ≠ sep := fun e => h (e ▸ List.mem_cons_self _ _)
    have ih := splitL_append sep p rest (fun hm => h (List.mem_cons_of_mem _ hm))
    simp [splitL, hc, ih]

/-- Splitting at the joiner gives back the joined texts, when none of them
contains the joiner. -/
theorem splitL_joinL (sep : Char) : ∀ parts : List (List Char), parts ≠ [] →
    (∀ p ∈ parts, sep ∉ p) → splitL sep (joinL sep parts) = parts
  | [], h, _ => absurd rfl h
  | [p], _, h => splitL_absent sep p (h p (List.mem_singleton_self _))
  | p :: q :: ps, _, h => by
    have ih := splitL_joinL sep (q :: ps) (by simp)
      (fun x hx => h x (List.mem_cons_of_mem _ hx))
    rw [joinL, splitL_append sep p _ (h p (List.mem_cons_self _ _)), ih]

theorem containsL_singleton (c : Char) : ∀ s : List Char, containsL s [c] = true ↔ c ∈ s
  | [] => by simp [containsL]
  | d :: s => by
    have ih := containsL_singleton c s
    simp only [containsL, hasPrefixL, Bool.and_true, Bool.or_eq_true, beq_iff_eq, ih,
      List.mem_cons]
    constructor
    · rintro (h | h)
      · exact Or.inl h.symm
      · exact Or.inr h
    · rintro (h | h)
      · exact Or.inl h.symm
      · exact Or.inr h

theorem not_mem_joinL (joiner c : Char) (hc : c ≠ joiner) : ∀ parts : List (List Char),
    (∀ p ∈ parts, c ∉ p) → c ∉ joinL joiner parts
  | [], _ => by simp [joinL]
  | [p], h => by
    rw [joinL]
    exact h p (List.mem_singleton_self _)
  | p :: q :: ps, h => by
    have ih := not_mem_joinL joiner c hc (q :: ps) (fun x hx => h x (List.mem_cons_of_mem _ hx))
    rw [joinL]
    simp only [List.mem_append, List.mem_cons, not_or]
    exact ⟨h p (List.mem_cons_self _ _), hc, ih⟩

/-- The parts that `EnhancedParseCookieString` iterates over are the joined
texts, when none of them contains a semicolon or a comma. -/
theorem cookie_parts (joiner : Char) (hj : joiner = ';' ∨ joiner = ',')
    (parts : List (List Char)) (hne : parts ≠ [])
    (hsemi : ∀ p ∈ parts, ';' ∉ p) (hcomma : ∀ p ∈ parts, ',' ∉ p) :
    (if strContains (String.mk (joinL joiner parts)) ";" then
        strSplit (String.mk (joinL joiner parts)) ';'
      else if strContains (String.mk (joinL joiner parts)) "," then
        strSplit (String.mk (joinL joiner parts)) ','
      else [String.mk (joinL joiner parts)]) = parts.map String.mk := by
  have e1 : (";" : String).data = [';'] := rfl
  have e2 : ("," : String).data = [','] := rfl
  unfold strContains strSplit
  simp only [e1, e2]
  match parts, hne, hsemi, hcomma with
  | [p], _, hsemi, hcomma =>
    have h1 : containsL p [';'] = false := by
      rw [← Bool.not_eq_true, containsL_singleton]
      exact hsemi p (List.mem_singleton_self _)
    have h2 : containsL p [','] = false := by
      rw [← Bool.not_eq_true, containsL_singleton]
      exact hcomma p (List.mem_singleton_self _)
    simp [joinL, h1, h2]
  | p :: q :: ps, _, hsemi, hcomma =>
    have hmem : joiner ∈ joinL joiner (p :: q :: ps) := by
      rw [joinL]
      simp
    rcases hj with rfl | rfl
    · have h1 : containsL (joinL ';' (p :: q :: ps)) [';'] = true :=
        (containsL_singleton _ _).mpr hmem
      simp only [h1, if_true]
      rw [splitL_joinL ';' _ (by simp) hsemi]
    · have h1 : containsL (joinL ',' (p :: q :: ps)) [';'] = false := by
        rw [← Bool.not_eq_true, containsL_singleton]
        exact not_mem_joinL ',' ';' (by decide) _ hsemi
      have h2 : containsL (joinL ',' (p :: q :: ps)) [','] = true :=
        (containsL_singleton _ _).mpr hmem
      simp only [h1, h2, if_true, Bool.false_eq_true, if_false]
      rw [splitL_joinL ',' _ (by simp) hcomma]
theorem filter_joinL (joiner : Char) (hj : notLineBreak joiner = true) :
    ∀ parts : List (List Char),
      (joinL joiner parts).filter notLineBreak =
        joinL joiner (parts.map (fun p => p.filter notLineBreak))
  | [] => rfl
  | [p] => rfl
  | p :: q :: ps => by
    have ih := filter_joinL joiner hj (q :: ps)
    simp only [joinL, List.map_cons, List.filter_append, List.filter_cons, hj, if_true] at ih ⊢
    rw [ih]

theorem plain_notLineBreak (s : String) (h : plainToken s = true) :
    s.data.filter notLineBreak = s.data := by
  rw [List.filter_eq_self]
  intro c hc
  have := reserved_cases c ((plainToken_spec s h).1 c hc)
  simp [notLineBreak, this.2.2.2.2.2.2.1, this.2.2.2.2.2.2.2]

theorem quotes_notLineBreak (q : List Char) (h : ∀ c ∈ q, isQuote c = true) :
    q.filter notLineBreak = q := by
  rw [List.filter_eq_self]
  intro c hc
  rcases isQuote_cases c (h c hc) with rfl | rfl <;> decide

/-- Removing the line breaks from a written pair leaves the pair written
without the line breaks in its white space. -/
theorem filter_writePair (kv : String × String) (f : PairFormat) (hf : f.wellFormed = true)
    (hk : plainToken kv.1 = true) (hv : plainToken kv.2 = true) :
    (writePair kv f).filter notLineBreak = writePair kv f.withoutLineBreaks := by
  obtain ⟨_, _, _, _, h5, h6⟩ := f.wellFormed_spec hf
  have hsep : notLineBreak f.separator = true := by
    unfold PairFormat.separator
    split <;> decide
  have hs : f.withoutLineBreaks.separator = f.separator := rfl
  unfold writePair
  simp only [List.filter_append, plain_notLineBreak _ hk, plain_notLineBreak _ hv, hs]
  have e1 : f.withoutLineBreaks.openQuotes = f.openQuotes := rfl
  have e2 : f.withoutLineBreaks.closeQuotes = f.closeQuotes := rfl
  rw [e1, e2, quotes_notLineBreak _ h5, quotes_notLineBreak _ h6]
  simp only [List.filter_cons, hsep, if_true, List.filter_nil]
  rfl

theorem PairFormat.withoutLineBreaks_wellFormed (f : PairFormat) (hf : f.wellFormed = true) :
    f.withoutLineBreaks.wellFormed = true := by
  obtain ⟨h1, h2, h3, h4, h5, h6⟩ := f.wellFormed_spec hf
  unfold PairFormat.wellFormed PairFormat.withoutLineBreaks
  simp only [Bool.and_eq_true, List.all_eq_true]
  refine ⟨⟨⟨⟨⟨?_, ?_⟩, ?_⟩, ?_⟩, h5⟩, h6⟩
  · exact fun c hc => h1 c (List.mem_filter.mp hc).1
  · exact fun c hc => h2 c (List.mem_filter.mp hc).1
  · exact fun c hc => h3 c (List.mem_filter.mp hc).1
  · exact fun c hc => h4 c (List.mem_filter.mp hc).1

/-- A written pair contains neither a semicolon nor a comma. -/
theorem writePair_no_joiner (kv : String × String) (f : PairFormat) (hf : f.wellFormed = true)
    (hk : plainToken kv.1 = true) (hv : plainToken kv.2 = true) :
    ';' ∉ writePair kv f ∧ ',' ∉ writePair kv f := by
  obtain ⟨h1, h2, h3, h4, h5, h6⟩ := f.wellFormed_spec hf
  have hsp : ∀ c, isSpace c = true → c ≠ ';' ∧ c ≠ ',' := by
    intro c hc
    constructor <;> (intro e; subst e; revert hc; decide)
  have hq : ∀ c, isQuote c = true → c ≠ ';' ∧ c ≠ ',' := by
    intro c hc
    constructor <;> (intro e; subst e; revert hc; decide)
  have hp : ∀ s : String, plainToken s = true → ∀ c ∈ s.data, c ≠ ';' ∧ c ≠ ',' := by
    intro s hs c hc
    have := reserved_cases c ((plainToken_spec s hs).1 c hc)
    exact ⟨this.1, this.2.1⟩
  have hsep : f.separator ≠ ';' ∧ f.separator ≠ ',' := by
    unfold PairFormat.separator
    split <;> decide
  have key : ∀ c ∈ writePair kv f, c ≠ ';' ∧ c ≠ ',' := by
    intro c hc
    unfold writePair at hc
    simp only [List.mem_append, List.mem_singleton] at hc
    rcases hc with (((((((hc | hc) | hc) | hc) | hc) | hc) | hc) | hc) | hc
    · exact hsp c (h1 c hc)
    · exact hp _ hk c hc
    · exact hsp c (h2 c hc)
    · rw [hc]; exact hsep
    · exact hsp c (h3 c hc)
    · exact hq c (h5 c hc)
    · exact hp _ hv c hc
    · exact hq c (h6 c hc)
    · exact hsp c (h4 c hc)
  exact ⟨fun h => (key _ h).1 rfl, fun h => (key _ h).2 rfl⟩

theorem mapSet_absent (m : StrMap) (key value : String) (h : mapLookup m key = none) :
    mapSet m key value = m ++ [(key, value)] := by
  unfold mapSet
  simp [h]

theorem mapLookup_append_absent (m : StrMap) (key other value : String)
    (h : mapLookup m key = none) (hne : other ≠ key) :
    mapLookup (m ++ [(other, value)]) key = none := by
  unfold mapLookup at *
  simp only [Option.map_eq_none', List.find?_eq_none, List.mem_append, List.mem_singleton] at *
  rintro x (hx | hx)
  · exact h x hx
  · rw [hx]
    simpa using hne

/-- The loop of the parser over written pairs with distinct names, none of
which is in the map yet, appends the pairs to the map. -/
theorem foldl_parseCookiePart_written (fmt : String → PairFormat) :
    ∀ (pairs : List (String × String)) (acc : StrMap),
      (pairs.map Prod.fst).Nodup →
      (∀ kv ∈ pairs, mapLookup acc kv.1 = none) →
      (∀ kv ∈ pairs, kv.1 ≠ "" ∧ plainToken kv.1 = true ∧ plainToken kv.2 = true ∧
        (fmt kv.1).wellFormed = true) →
      (pairs.map (fun kv => String.mk (writePair kv (fmt kv.1)))).foldl parseCookiePart acc =
        acc ++ pairs
  | [], acc, _, _, _ => by simp
  | kv :: pairs, acc, hnd, habs, hp => by
    obtain ⟨hne, hk, hv, hf⟩ := hp kv (List.mem_cons_self _ _)
    rw [List.map_cons, List.nodup_cons] at hnd
    rw [List.map_cons, List.foldl_cons, parseCookiePart_written acc kv _ hf hne hk hv,
      mapSet_absent acc kv.1 kv.2 (habs kv (List.mem_cons_self _ _)),
      foldl_parseCookiePart_written fmt pairs _ hnd.2 ?_
        (fun x hx => hp x (List.mem_cons_of_mem _ hx))]
    · simp
    · intro x hx
      apply mapLookup_append_absent _ _ _ _ (habs x (List.mem_cons_of_mem _ hx))
      intro e
      exact hnd.1 (e ▸ List.mem_map_of_mem Prod.fst hx)
theorem joinL_ne_nil (joiner : Char) (p : List Char) (ps : List (List Char)) (hp : p ≠ []) :
    joinL joiner (p :: ps) ≠ [] := by
  cases ps with
  | nil => simpa [joinL] using hp
  | cons q ps => simp [joinL, hp]

/-- The two calls of `strRemoveAll` in `EnhancedParseCookieString` remove the
line breaks. -/
theorem strRemoveAll_lineBreaks (s : String) :
    strRemoveAll (strRemoveAll s '\r') '\n' = String.mk (s.data.filter notLineBreak) := by
  unfold strRemoveAll
  simp only [List.filter_filter]
  congr 1
  apply List.filter_congr
  intro c _
  unfold notLineBreak
  exact Bool.and_comm _ _

/-- Claim C20: for every list of cookie pairs with distinct non-empty names,
whose names and values contain no semicolon, comma, equals sign, colon, quote
character or line break and neither start nor end with white space, and for
every choice of a well formed format for each name (white space around the
name and around the value, quote characters around the value, an equals sign
or a colon), the text that joins the written pairs with semicolons throughout
or with commas throughout is parsed by `EnhancedParseCookieString` to the map
of exactly these pairs. -/
theorem EnhancedParseCookieString_written (pairs : List (String × String))
    (fmt : String → PairFormat) (joiner : Char)
    (hj : joiner = ';' ∨ joiner = ',')
    (hnames : (pairs.map Prod.fst).Nodup)
    (hne : ∀ kv ∈ pairs, kv.1 ≠ "")
    (hplain : ∀ kv ∈ pairs, plainToken kv.1 = true ∧ plainToken kv.2 = true)
    (hfmt : ∀ kv ∈ pairs, (fmt kv.1).wellFormed = true) :
    EnhancedParseCookieString (writeCookies joiner fmt pairs) = pairs := by
  cases pairs with
  | nil => rfl
  | cons kv rest =>
    have hkv : kv.1.data ≠ [] := fun h => hne kv (List.mem_cons_self _ _) (String.ext h)
    have htext : writeCookies joiner fmt (kv :: rest) ≠ "" := by
      intro h
      have h2 := congrArg String.data h
      unfold writeCookies at h2
      rw [List.map_cons] at h2
      exact joinL_ne_nil joiner _ _ (by simp [writePair, hkv]) h2
    have hjb : notLineBreak joiner = true := by
      rcases hj with rfl | rfl <;> decide
    have hclean : strRemoveAll (strRemoveAll (writeCookies joiner fmt (kv :: rest)) '\r') '\n' =
        String.mk (joinL joiner
          ((kv :: rest).map (fun kv => writePair kv (fmt kv.1).withoutLineBreaks))) := by
      rw [strRemoveAll_lineBreaks]
      unfold writeCookies
      rw [filter_joinL joiner hjb, List.map_map]
      congr 2
      apply List.map_congr_left
      intro x hx
      exact filter_writePair x _ (hfmt x hx) (hplain x hx).1 (hplain x hx).2
    have hparts := cookie_parts joiner hj
      ((kv :: rest).map (fun kv => writePair kv (fmt kv.1).withoutLineBreaks)) (by simp)
      (fun p hp => by
        obtain ⟨x, hx, rfl⟩ := List.mem_map.mp hp
        exact (writePair_no_joiner x _ ((fmt x.1).withoutLineBreaks_wellFormed (hfmt x hx))
          (hplain x hx).1 (hplain x hx).2).1)
      (fun p hp => by
        obtain ⟨x, hx, rfl⟩ := List.mem_map.mp hp
        exact (writePair_no_joiner x _ ((fmt x.1).withoutLineBreaks_wellFormed (hfmt x hx))
          (hplain x hx).1 (hplain x hx).2).2)
    have hfold := foldl_parseCookiePart_written (fun n => (fmt n).withoutLineBreaks)
      (kv :: rest) [] hnames (fun _ _ => rfl)
      (fun x hx => ⟨hne x hx, (hplain x hx).1, (hplain x hx).2,
        (fmt x.1).withoutLineBreaks_wellFormed (hfmt x hx)⟩)
    unfold EnhancedParseCookieString
    rw [if_neg htext]
    simp only [hclean, hparts, List.map_map]
    simpa using hfold

theorem EnhancedParseCookieString_written_witness :
    writeCookies ';' sampleFormat samplePairs = " ssid=\n\"abc\";\r\nclid : x y\x27 \t" ∧
    EnhancedParseCookieString (writeCookies ';' sampleFormat samplePairs) =
      [("ssid", "abc"), ("clid", "x y")] :=
  ⟨by decide, EnhancedParseCookieString_written samplePairs sampleFormat ';' (Or.inl rfl)
    (by decide) (by decide) (by decide) (by decide)⟩

/-! ## The session cache: claims C21 and C22 -/

theorem mapLookup_replace_other {β : Type} (key other : String) (value : β)
    (h : other ≠ key) : ∀ m : GoMap β,
    mapLookup (m.map (fun kv => if kv.1 == key then (key, value) else kv)) other =
      mapLookup m other
  | [] => rfl
  | kv :: m => by
    have ih := mapLookup_replace_other key other value h m
    have ho2 : (key == other) = false := by simpa using fun e => h e.symm
    unfold mapLookup at ih ⊢
    by_cases hk : kv.1 = key
    · have ho : (kv.1 == other) = false := by
        rw [hk]
        exact ho2
      simp only [List.map_cons, hk, beq_self_eq_true, if_true, List.find?_cons, ho, ho2]
      exact ih
    · have hk' : (kv.1 == key) = false := by simpa using hk
      simp only [List.map_cons, hk', Bool.false_eq_true, if_false, List.find?_cons]
      cases kv.1 == other with
      | true => rfl
      | false => exact ih

theorem mapLookup_mapSet_other {β : Type} (m : GoMap β) (key other : String) (value : β)
    (h : other ≠ key) : mapLookup (mapSet m key value) other = mapLookup m other := by
  unfold mapSet
  split
  · exact mapLookup_replace_other key other value h m
  · have ho : (key == other) = false := by simpa using fun e => h e.symm
    simp [mapLookup, List.find?_append, ho]

/-- A call that writes to the cache leaves absent every user id that it does
not cache. -/
theorem CacheCall.run_absent (call : CacheCall) (st : Services × World) (userID : String)
    (hcall : ∀ session, call ≠ .cache userID session)
    (h : GetCachedSession userID st.1 = none) :
    GetCachedSession userID (call.run st).1 = none := by
  obtain ⟨sv, w⟩ := st
  cases call with
  | cache u session =>
    have hu : userID ≠ u := fun e => hcall session (by rw [e])
    simp only [CacheCall.run, GetCachedSession, CacheUserSession]
    rw [mapLookup_mapSet_other _ _ _ _ hu]
    exact h
  | updateRegion u region =>
    simp only [CacheCall.run, UpdateUserRegion]
    cases hl : mapLookup sv.sessionCache u with
    | none => exact h
    | some session =>
      simp only [GetCachedSession]
      by_cases hu : userID = u
      · subst hu
        simp only [GetCachedSession] at h
        rw [h] at hl
        cases hl
      · rw [mapLookup_mapSet_other _ _ _ _ hu]
        exact h

theorem runCacheCalls_absent (userID : String) : ∀ (calls : List CacheCall)
    (st : Services × World), (∀ session, CacheCall.cache userID session ∉ calls) →
    GetCachedSession userID st.1 = none →
    GetCachedSession userID (runCacheCalls calls st).1 = none
  | [], _, _, h => h
  | call :: calls, st, hcalls, h => by
    have h1 := CacheCall.run_absent call st userID
      (fun session e => hcalls session (e ▸ List.mem_cons_self _ _)) h
    exact runCacheCalls_absent userID calls (call.run st)
      (fun session hm => hcalls session (List.mem_cons_of_mem _ hm)) h1

/-- Claim C21: after `CacheUserSession(u, s)`, `GetCachedSession(u)` returns
`s` and found, whatever was stored for `u` before; `GetCachedSession` of every
other user id returns what it returned before; and a user id that no call of
`CacheUserSession` has stored since the cache was made is not found. -/
theorem cache_then_get (sv : Services) (u : String) (s : UserSession) :
    GetCachedSession u (CacheUserSession u s sv) = some s ∧
    (∀ s0, GetCachedSession u (CacheUserSession u s (CacheUserSession u s0 sv)) = some s) ∧
    (∀ other, other ≠ u →
      GetCachedSession other (CacheUserSession u s sv) = GetCachedSession other sv) ∧
    (∀ (calls : List CacheCall) (w : World), sv.sessionCache = [] →
      (∀ session, CacheCall.cache u session ∉ calls) →
      GetCachedSession u (runCacheCalls calls (sv, w)).1 = none) := by
  refine ⟨mapLookup_mapSet_self _ _ _, fun _ => mapLookup_mapSet_self _ _ _, ?_, ?_⟩
  · intro other ho
    exact mapLookup_mapSet_other _ _ _ _ ho
  · intro calls w hsv hcalls
    apply runCacheCalls_absent u calls (sv, w) hcalls
    simp [GetCachedSession, hsv, mapLookup]

/-- Claim C22: for every user id that has no cached session,
`UpdateUserRegion` returns the error that the session does not exist and
leaves the session cache, as the whole state, unchanged. -/
theorem UpdateUserRegion_unknown_user (userID region : String) (sv : Services) (w : World)
    (h : GetCachedSession userID sv = none) :
    UpdateUserRegion userID region sv w =
      (some (.plain "用户会话不存在，请先登录"), sv, w) := by
  unfold GetCachedSession at h
  unfold UpdateUserRegion
  rw [h]

/-- Claim C22 at a cache that holds the session of `player-1` only. -/
theorem UpdateUserRegion_unknown_user_witness :
    UpdateUserRegion "player-2" "eu"
        (CacheUserSession "player-1" sampleSession initialServices) initialWorld =
      (some (.plain "用户会话不存在，请先登录"),
        CacheUserSession "player-1" sampleSession initialServices, initialWorld) :=
  UpdateUserRegion_unknown_user "player-2" "eu" _ initialWorld (by decide)

/-! ## Issued tokens and their validation: claims C23 to C26 -/

theorem formattedUsername_eq (session : UserSession) :
    formattedUsername session = displayNameWithTag session.RiotUsername session.RiotTagline := by
  unfold formattedUsername displayNameWithTag
  by_cases h : session.RiotTagline = "" <;> simp [h]

/-- What `generateJWT` hands to the signer, and the state it ends in. -/
theorem generateJWT_eq (lib : Lib) (clock : Clock) (sv : Services) (session : UserSession)
    (w : World) :
    generateJWT lib clock sv session w =
      (lib.signHS256 sv.jwtSecret session.UserID
          (displayNameWithTag session.RiotUsername session.RiotTagline)
          (newNumericDate (clock w.clockReads + sv.tokenExpiry))
          (newNumericDate (clock (w.clockReads + 1))),
        { w with clockReads := w.clockReads + 2 }) := by
  unfold generateJWT
  rw [formattedUsername_eq]

/-- `ValidateToken` on a token that decodes, has an HMAC method, verifies under
the secret of the service and has valid dates at the next reading of the
clock. -/
theorem ValidateToken_accepts (jl : JwtLib) (clock : Clock) (sv : Services)
    (tokenString : String) (w : World) (token : Token)
    (hparse : jl.parseUnverified tokenString = .ok token)
    (hmethod : token.methodIsHMAC = true)
    (hverify : jl.verify tokenString token sv.jwtSecret = true)
    (hdates : validateClaims (clock w.clockReads) token.claims = none) :
    ValidateToken jl clock sv tokenString w =
      (.ok token.claims, { w with clockReads := w.clockReads + 1 }) := by
  unfold ValidateToken parseWithClaims
  simp [hparse, hmethod, hverify, hdates]

/-- The sample signer and the sample decoder keep the contract. -/
theorem signingLib_contract : SignThenParse signingLib sampleJwt := by
  intro secret userID username expiresAt issuedAt tokenString h
  simp only [signingLib] at h
  split at h
  · rename_i hc
    obtain ⟨h1, h2, h3, h4, h5⟩ := hc
    simp only [Except.ok.injEq] at h
    subst h1 h2 h3 h4 h5 h
    refine ⟨{ alg := "HS256", methodIsHMAC := true, claims := sampleClaims, valid := false },
      ?_, rfl, rfl, ?_⟩
    · simp [sampleJwt]
    · simp [sampleJwt]
  · simp at h

/-- Claim C23: for every session, with a library that keeps the contract
between signing and parsing, the token that `generateJWT` produces is accepted
by `ValidateToken` of the same service whenever the clock reading of the
validation lies before the token's expiry date, and the claims returned have
the user id of the session and its formatted display name. -/
theorem issued_token_is_accepted (lib : Lib) (jl : JwtLib) (clock : Clock) (sv : Services)
    (session : UserSession) (w w1 v : World) (tokenString : String)
    (hlib : SignThenParse lib jl)
    (hgen : generateJWT lib clock sv session w = (.ok tokenString, w1))
    (hbefore : clock v.clockReads < newNumericDate (clock w.clockReads + sv.tokenExpiry)) :
    ∃ claims, (ValidateToken jl clock sv tokenString v).1 = .ok claims ∧
      claims.UserID = session.UserID ∧
      claims.Username = formattedUsername session ∧
      claims.ExpiresAt = some (newNumericDate (clock w.clockReads + sv.tokenExpiry)) := by
  rw [generateJWT_eq] at hgen
  simp only [Prod.mk.injEq] at hgen
  obtain ⟨token, hparse, hmethod, hclaims, hverify⟩ := hlib _ _ _ _ _ _ hgen.1
  have hdates : validateClaims (clock v.clockReads) token.claims = none := by
    rw [hclaims]
    simp [validateClaims, hbefore]
  rw [ValidateToken_accepts jl clock sv tokenString v token hparse hmethod hverify hdates]
  refine ⟨token.claims, rfl, ?_, ?_, ?_⟩
  · rw [hclaims]
  · rw [hclaims, formattedUsername_eq]
  · rw [hclaims]

/-- Claim C23 at the sample session: the token issued at the first second of
2025 is accepted at that instant. -/
theorem issued_token_is_accepted_witness :
    ∃ claims, (ValidateToken sampleJwt sampleClock initialServices sampleToken initialWorld).1 =
        .ok claims ∧
      claims.UserID = sampleSession.UserID ∧
      claims.Username = formattedUsername sampleSession ∧
      claims.ExpiresAt = some (newNumericDate
        (sampleClock initialWorld.clockReads + initialServices.tokenExpiry)) :=
  issued_token_is_accepted signingLib sampleJwt sampleClock initialServices sampleSession
    initialWorld { initialWorld with clockReads := initialWorld.clockReads + 2 } initialWorld
    sampleToken signingLib_contract rfl (by decide)

/-- The three rejections of `ValidateToken`: an error, and with it no claims,
for every token whose signature does not verify under the secret of the
service, whose signing method is not an HMAC method, or whose expiry date lies
before the clock reading of the validation. -/
theorem ValidateToken_rejects (jl : JwtLib) (clock : Clock) (sv : Services)
    (tokenString : String) (w : World) (token : Token)
    (hparse : jl.parseUnverified tokenString = .ok token)
    (hbad : jl.verify tokenString token sv.jwtSecret = false ∨ token.methodIsHMAC = false ∨
      ∃ expiresAt, token.claims.ExpiresAt = some expiresAt ∧ expiresAt < clock w.clockReads) :
    ∃ err, (ValidateToken jl clock sv tokenString w).1 = .error (.wrapf "解析令牌失败: " err) := by
  unfold ValidateToken parseWithClaims
  simp only [hparse]
  cases hm : token.methodIsHMAC with
  | false =>
    simp only [Bool.false_eq_true, not_false_eq_true, if_true]
    exact ⟨_, rfl⟩
  | true =>
    cases hv : jl.verify tokenString token sv.jwtSecret with
    | false =>
      simp only [not_true_eq_false, if_false, hv, Bool.false_eq_true, not_false_eq_true,
        if_true]
      exact ⟨_, rfl⟩
    | true =>
      rcases hbad with h | h | ⟨expiresAt, hexp, hlt⟩
      · rw [hv] at h
        cases h
      · rw [hm] at h
        cases h
      · have hnot : ¬ clock w.clockReads < expiresAt := not_lt.mpr (le_of_lt hlt)
        simp only [not_true_eq_false, if_false, hv, validateClaims, hexp, hnot,
          not_false_eq_true, if_true]
        exact ⟨_, rfl⟩

/-- The sample token is rejected 25 hours after it was issued. -/
theorem ValidateToken_rejects_expired_sample :
    ∃ err, (ValidateToken sampleJwt lateClock initialServices sampleToken initialWorld).1 =
      .error (.wrapf "解析令牌失败: " err) :=
  ValidateToken_rejects sampleJwt lateClock initialServices sampleToken initialWorld
    { alg := "HS256", methodIsHMAC := true, claims := sampleClaims, valid := false }
    rfl (Or.inr (Or.inr ⟨1735776000 * second, rfl, by decide⟩))

/-- Claim C25: the username claim that `generateJWT` embeds is the display
name followed by `#` and the display tag when the tag of the session is not
empty, and exactly the display name otherwise, and the user-id claim is the
user id of the session: these are the claims handed to the signer, and the
claims of the produced token under every library that keeps the contract
between signing and parsing. -/
theorem generateJWT_embeds_identity (lib : Lib) (clock : Clock) (sv : Services)
    (session : UserSession) (w : World) :
    (generateJWT lib clock sv session w).1 =
      lib.signHS256 sv.jwtSecret session.UserID
        (if session.RiotTagline = "" then session.RiotUsername
          else session.RiotUsername ++ "#" ++ session.RiotTagline)
        (newNumericDate (clock w.clockReads + sv.tokenExpiry))
        (newNumericDate (clock (w.clockReads + 1))) ∧
    (∀ (jl : JwtLib) (tokenString : String), SignThenParse lib jl →
      (generateJWT lib clock sv session w).1 = .ok tokenString →
      ∃ token, jl.parseUnverified tokenString = .ok token ∧
        token.claims.UserID = session.UserID ∧
        (session.RiotTagline ≠ "" →
          token.claims.Username = session.RiotUsername ++ "#" ++ session.RiotTagline) ∧
        (session.RiotTagline = "" → token.claims.Username = session.RiotUsername)) := by
  rw [generateJWT_eq]
  refine ⟨rfl, ?_⟩
  intro jl tokenString hlib hgen
  obtain ⟨token, hparse, _, hclaims, _⟩ := hlib _ _ _ _ _ _ hgen
  refine ⟨token, hparse, ?_, ?_, ?_⟩
  · rw [hclaims]
  · intro h
    rw [hclaims]
    simp [displayNameWithTag, h]
  · intro h
    rw [hclaims]
    simp [displayNameWithTag, h]

/-- The dates that `generateJWT` embeds when both readings of the clock return
the same instant and the validity window is a whole number of seconds: the
expiry date is the issue date plus the window. -/
theorem generateJWT_dates_same_instant (lib : Lib) (clock : Clock) (sv : Services)
    (session : UserSession) (w : World) (n : Int)
    (hclock : clock (w.clockReads + 1) = clock w.clockReads)
    (hwindow : sv.tokenExpiry = n * second) :
    (generateJWT lib clock sv session w).1 =
      lib.signHS256 sv.jwtSecret session.UserID (formattedUsername session)
        (newNumericDate (clock w.clockReads) + sv.tokenExpiry)
        (newNumericDate (clock w.clockReads)) := by
  have h : newNumericDate (clock w.clockReads + sv.tokenExpiry) =
      newNumericDate (clock w.clockReads) + sv.tokenExpiry := by
    unfold newNumericDate
    rw [hwindow, Int.add_mul_emod_self]
    ring
  unfold generateJWT
  simp only [hclock, h]

/-- Claim C26 at a failing input: with a clock whose two readings in
`generateJWT` fall into different seconds, the expiry date handed to the signer
is one second less than the issue date plus 24 hours, whereas the claim has
the expiry date equal to the issue date plus 24 hours. -/
theorem generateJWT_reads_clock_twice (lib : Lib) (session : UserSession) :
    (generateJWT lib tickingClock initialServices session initialWorld).1 =
      lib.signHS256 initialServices.jwtSecret session.UserID (formattedUsername session)
        (1735776000 * second) (1735689601 * second) ∧
    (1735776000 * second : Int) = 1735689601 * second + 24 * 3600 * second - 1 * second ∧
    (1735776000 * second : Int) ≠ 1735689601 * second + 24 * 3600 * second := by
  refine ⟨?_, by decide, by decide⟩
  have h1 : newNumericDate (tickingClock initialWorld.clockReads + initialServices.tokenExpiry) =
      1735776000 * second := by decide
  have h2 : newNumericDate (tickingClock (initialWorld.clockReads + 1)) =
      1735689601 * second := by decide
  unfold generateJWT
  simp only [h1, h2]

/-! ## What a login response depends on: claim C27 -/

theorem SetRegion_clockReads (region : String) (w : World) :
    (SetRegion region w).clockReads = w.clockReads := by
  rw [SetRegion_eq]

/-- The response of `Login` after a successful `Authenticate`. -/
theorem Login_response (lib : Lib) (clock : Clock) (up : Upstream) (username password : String)
    (sv : Services) (w v : World) (s : UserSession)
    (h : Authenticate lib up username password w = (.ok s, v)) :
    (Login lib clock up username password sv w).1 =
      tokenResponse lib clock sv.jwtSecret sv.tokenExpiry v.clockReads s.UserID s.RiotUsername
        s.RiotTagline "生成令牌失败: " := by
  unfold Login tokenResponse
  rw [h]
  dsimp only
  by_cases hr : s.Region = ""
  · simp only [hr, if_true, generateJWT_eq, SetRegion_clockReads, formattedUsername_eq]
    by_cases hc : sv.cacheSet = true
    · simp only [hc, if_true, CacheUserSession]
      split <;> simp_all
    · simp only [hc, if_false]
      split <;> simp_all
  · simp only [hr, if_false, generateJWT_eq, formattedUsername_eq]
    by_cases hc : sv.cacheSet = true
    · simp only [hc, if_true, CacheUserSession]
      split <;> simp_all
    · simp only [hc, if_false]
      split <;> simp_all

/-- The response of `LoginWithCookies` after a successful
`AuthenticateWithCookies`. -/
theorem LoginWithCookies_response (lib : Lib) (clock : Clock) (up : Upstream)
    (cookieStr region : String) (sv : Services) (w v : World) (s : UserSession)
    (h : AuthenticateWithCookies lib up (EnhancedParseCookieString cookieStr) w = (.ok s, v)) :
    (LoginWithCookies lib clock up cookieStr region sv w).1 =
      tokenResponse lib clock sv.jwtSecret sv.tokenExpiry v.clockReads s.UserID s.RiotUsername
        s.RiotTagline "生成JWT失败: " := by
  have hne : ¬ (EnhancedParseCookieString cookieStr).length = 0 := by
    intro h0
    rw [List.length_eq_zero] at h0
    rw [h0] at h
    have hfast : AuthenticateWithCookies lib up [] w =
        (.error (.plain "没有提供任何Cookie"), { w with client := HTTPClient.freshJar }) := rfl
    rw [hfast] at h
    simp at h
  unfold LoginWithCookies tokenResponse
  simp only [hne, if_false, h]
  by_cases hr : region = ""
  · simp only [hr, ne_eq, not_true_eq_false, if_false, generateJWT_eq, SetRegion_clockReads,
      formattedUsername_eq]
    split <;> simp_all
  · simp only [hr, ne_eq, not_false_eq_true, if_true, generateJWT_eq, SetRegion_clockReads,
      formattedUsername_eq]
    split <;> simp_all

/-- Claim C27: the response of `Login` and of `LoginWithCookies` carries the
signed token, the formatted user name and the user id and nothing else of the
session: for one secret, validity window and clock, two logins whose sessions
agree on user id, display name and display tag, made after the same number of
clock readings, return the same response, whatever the cookies, the access
token, the entitlement token, the region and the cache are. -/
theorem login_response_from_identity_only (lib : Lib) (clock : Clock) (sv1 sv2 : Services)
    (up1 up2 : Upstream) (username1 password1 username2 password2 : String)
    (w1 w2 v1 v2 : World) (s1 s2 : UserSession)
    (cup1 cup2 : Upstream) (cookieStr1 cookieStr2 region1 region2 : String)
    (cw1 cw2 cv1 cv2 : World) (c1 c2 : UserSession)
    (hsecret : sv1.jwtSecret = sv2.jwtSecret) (hwindow : sv1.tokenExpiry = sv2.tokenExpiry)
    (h1 : Authenticate lib up1 username1 password1 w1 = (.ok s1, v1))
    (h2 : Authenticate lib up2 username2 password2 w2 = (.ok s2, v2))
    (hs : s1.UserID = s2.UserID ∧ s1.RiotUsername = s2.RiotUsername ∧
      s1.RiotTagline = s2.RiotTagline)
    (hreads : v1.clockReads = v2.clockReads)
    (hc1 : AuthenticateWithCookies lib cup1 (EnhancedParseCookieString cookieStr1) cw1 =
      (.ok c1, cv1))
    (hc2 : AuthenticateWithCookies lib cup2 (EnhancedParseCookieString cookieStr2) cw2 =
      (.ok c2, cv2))
    (hcs : c1.UserID = c2.UserID ∧ c1.RiotUsername = c2.RiotUsername ∧
      c1.RiotTagline = c2.RiotTagline)
    (hcreads : cv1.clockReads = cv2.clockReads) :
    (Login lib clock up1 username1 password1 sv1 w1).1 =
      (Login lib clock up2 username2 password2 sv2 w2).1 ∧
    (LoginWithCookies lib clock cup1 cookieStr1 region1 sv1 cw1).1 =
      (LoginWithCookies lib clock cup2 cookieStr2 region2 sv2 cw2).1 := by
  constructor
  · rw [Login_response lib clock up1 username1 password1 sv1 w1 v1 s1 h1,
      Login_response lib clock up2 username2 password2 sv2 w2 v2 s2 h2,
      hsecret, hwindow, hreads, hs.1, hs.2.1, hs.2.2]
  · rw [LoginWithCookies_response lib clock cup1 cookieStr1 region1 sv1 cw1 cv1 c1 hc1,
      LoginWithCookies_response lib clock cup2 cookieStr2 region2 sv2 cw2 cv2 c2 hc2,
      hsecret, hwindow, hcreads, hcs.1, hcs.2.1, hcs.2.2]

/-- Claim C27 at two password logins of `player-1`, found on `eu` and on `na`,
and two cookie logins of `player-1` with different cookies, access tokens and
region hints, the second pair with a cache that already holds a session. -/
theorem login_response_from_identity_only_witness :
    (Login signingLib sampleClock goodUpstream "neo" "pw" initialServices initialWorld).1 =
      (Login signingLib sampleClock naShardUpstream "neo" "pw"
        (CacheUserSession "player-1" sampleSession initialServices) initialWorld).1 ∧
    (LoginWithCookies signingLib sampleClock goodUpstream "ssid=abc" "eu" initialServices
        initialWorld).1 =
      (LoginWithCookies signingLib sampleClock goodUpstream "ssid=xyz; clid=1" ""
        (CacheUserSession "player-1" sampleSession initialServices) initialWorld).1 :=
  login_response_from_identity_only signingLib sampleClock initialServices
    (CacheUserSession "player-1" sampleSession initialServices)
    goodUpstream naShardUpstream "neo" "pw" "neo" "pw" initialWorld initialWorld
    (Authenticate signingLib goodUpstream "neo" "pw" initialWorld).2
    (Authenticate signingLib naShardUpstream "neo" "pw" initialWorld).2
    { UserID := "player-1", Username := "neo", AccessToken := "tok-1", Entitlement := "ent-1",
      RiotUsername := "Neo", RiotTagline := "0001", Region := "eu", Cookies := [] }
    { UserID := "player-1", Username := "neo", AccessToken := "tok-1", Entitlement := "ent-1",
      RiotUsername := "Neo", RiotTagline := "0001", Region := "na", Cookies := [] }
    goodUpstream goodUpstream "ssid=abc" "ssid=xyz; clid=1" "eu" "" initialWorld initialWorld
    (AuthenticateWithCookies signingLib goodUpstream (EnhancedParseCookieString "ssid=abc")
      initialWorld).2
    (AuthenticateWithCookies signingLib goodUpstream
      (EnhancedParseCookieString "ssid=xyz; clid=1") initialWorld).2
    { UserID := "player-1", Username := "neo@example.com", AccessToken := "abc",
      Entitlement := "ent-1", RiotUsername := "Neo", RiotTagline := "0001", Region := "",
      Cookies := [("ssid", "abc")] }
    { UserID := "player-1", Username := "neo@example.com", AccessToken := "xyz",
      Entitlement := "ent-1", RiotUsername := "Neo", RiotTagline := "0001", Region := "",
      Cookies := [("ssid", "xyz"), ("clid", "1")] }
    rfl rfl rfl rfl ⟨rfl, rfl, rfl⟩ rfl rfl rfl ⟨rfl, rfl, rfl⟩ rfl

/-! ## URL errors in `isNetworkError`: claim C28 -/

/-- Claim C28 at a failing input: a `*url.Error` satisfies `net.Error`, so the
first test of `isNetworkError` answers `true` for it before the test that would
look at its cause; here the cause alone is classified `false`, whereas the
claim has the error classified as its cause is. -/
theorem isNetworkError_url_skips_cause :
    isNetworkError (some (.url "Get" "htp://localhost"
      (.plain "unsupported protocol scheme \"htp\""))) = true ∧
    isNetworkError (some (.plain "unsupported protocol scheme \"htp\"")) = false ∧
    (∀ op u cause, isNetworkError (some (.url op u cause)) = true) := by
  refine ⟨rfl, by decide, ?_⟩
  intro op u cause
  simp [isNetworkError, isNetworkErr, GoError.implementsNetError]

/-! ## Candidates that share a shard: claim C29 -/

/-- The probing loop over the six candidates, when the outcome of a probe
depends only on its address: the candidates `latam` and `br` are probed at the
address of `na`, so the loop returns one of the first four candidates or the
default with the error. -/
theorem probeRegions_by_shard (up : Upstream) (puuid accessToken entitlementToken : String)
    (w : World) (hshard : ProbeByShard up accessToken entitlementToken) :
    (probeRegions up puuid accessToken entitlementToken regionsToTry w).1 ∈
      [("na", none), ("eu", none), ("ap", none), ("kr", none),
        (defaultRegion, some regionUndetermined)] := by
  by_cases h0 : answers200 (up (w.calls.length + 0)
      (probeRequest "na" puuid accessToken entitlementToken))
  · rw [probeRegions_run up puuid accessToken entitlementToken regionsToTry w 0 "na" rfl
      (fun i r hi => absurd hi (Nat.not_lt_zero i)) h0]
    simp
  by_cases h1 : answers200 (up (w.calls.length + 1)
      (probeRequest "eu" puuid accessToken entitlementToken))
  · rw [probeRegions_run up puuid accessToken entitlementToken regionsToTry w 1 "eu" rfl
      (fun i r hi hr => by
        match i, hi, hr with
        | 0, _, hr =>
          simp only [regionsToTry, List.getElem?_cons_zero, Option.some.injEq] at hr
          rw [← hr]
          exact h0) h1]
    simp
  by_cases h2 : answers200 (up (w.calls.length + 2)
      (probeRequest "ap" puuid accessToken entitlementToken))
  · rw [probeRegions_run up puuid accessToken entitlementToken regionsToTry w 2 "ap" rfl
      (fun i r hi hr => by
        match i, hi, hr with
        | 0, _, hr =>
          simp only [regionsToTry, List.getElem?_cons_zero, Option.some.injEq] at hr
          rw [← hr]
          exact h0
        | 1, _, hr =>
          simp only [regionsToTry, List.getElem?_cons_succ, List.getElem?_cons_zero,
            Option.some.injEq] at hr
          rw [← hr]
          exact h1) h2]
    simp
  by_cases h3 : answers200 (up (w.calls.length + 3)
      (probeRequest "kr" puuid accessToken entitlementToken))
  · rw [probeRegions_run up puuid accessToken entitlementToken regionsToTry w 3 "kr" rfl
      (fun i r hi hr => by
        match i, hi, hr with
        | 0, _, hr =>
          simp only [regionsToTry, List.getElem?_cons_zero, Option.some.injEq] at hr
          rw [← hr]
          exact h0
        | 1, _, hr =>
          simp only [regionsToTry, List.getElem?_cons_succ, List.getElem?_cons_zero,
            Option.some.injEq] at hr
          rw [← hr]
          exact h1
        | 2, _, hr =>
          simp only [regionsToTry, List.getElem?_cons_succ, List.getElem?_cons_zero,
            Option.some.injEq] at hr
          rw [← hr]
          exact h2) h3]
    simp
  have h4 : ¬ answers200 (up (w.calls.length + 4)
      (probeRequest "latam" puuid accessToken entitlementToken)) := fun h =>
    h0 ((hshard puuid (w.calls.length + 4) (w.calls.length + 0) "latam" "na"
      (by decide) (by decide) rfl).mp h)
  have h5 : ¬ answers200 (up (w.calls.length + 5)
      (probeRequest "br" puuid accessToken entitlementToken)) := fun h =>
    h0 ((hshard puuid (w.calls.length + 5) (w.calls.length + 0) "br" "na"
      (by decide) (by decide) rfl).mp h)
  rw [probeRegions_all_fail up puuid accessToken entitlementToken regionsToTry w
    (fun i r hr => by
      match i, hr with
      | 0, hr =>
        simp only [regionsToTry, List.getElem?_cons_zero, Option.some.injEq] at hr
        rw [← hr]
        exact h0
      | 1, hr =>
        simp only [regionsToTry, List.getElem?_cons_succ, List.getElem?_cons_zero,
          Option.some.injEq] at hr
        rw [← hr]
        exact h1
      | 2, hr =>
        simp only [regionsToTry, List.getElem?_cons_succ, List.getElem?_cons_zero,
          Option.some.injEq] at hr
        rw [← hr]
        exact h2
      | 3, hr =>
        simp only [regionsToTry, List.getElem?_cons_succ, List.getElem?_cons_zero,
          Option.some.injEq] at hr
        rw [← hr]
        exact h3
      | 4, hr =>
        simp only [regionsToTry, List.getElem?_cons_succ, List.getElem?_cons_zero,
          Option.some.injEq] at hr
        rw [← hr]
        exact h4
      | 5, hr =>
        simp only [regionsToTry, List.getElem?_cons_succ, List.getElem?_cons_zero,
          Option.some.injEq] at hr
        rw [← hr]
        exact h5
      | n + 6, hr =>
        simp [regionsToTry] at hr)]
  simp

/-- Claim C29, as stated, fails: every request is answered 401, so the outcome
of a probe depends on nothing; the user-info lookup fails and `GetPlayerRegion`
returns the empty string, which is none of `na`, `eu`, `ap`, `kr` and not the
default. -/
theorem GetPlayerRegion_by_shard_counterexample :
    ProbeByShard unauthorizedUpstream "tok-1" "ent-1" ∧
    (GetPlayerRegion sampleLib unauthorizedUpstream "tok-1" "ent-1" initialWorld).1 =
      ("", some (.wrapf "获取用户信息失败: " (.plain "获取用户信息失败，状态码: 401"))) ∧
    "" ∉ ["na", "eu", "ap", "kr"] ∧ "" ≠ defaultRegion := by
  refine ⟨?_, rfl, by decide, by decide⟩
  intro puuid n m r r' _ _ _
  have h : ∀ k req, ¬ answers200 (unauthorizedUpstream k req) := by
    rintro k req ⟨resp, hresp, h200⟩
    simp only [unauthorizedUpstream, Except.ok.injEq] at hresp
    rw [← hresp] at h200
    exact absurd h200 (by decide)
  exact ⟨fun h1 => absurd h1 (h _ _), fun h1 => absurd h1 (h _ _)⟩

/-- Claim C29, amended: if the outcome of a region probe depends only on the
address it is sent to, `GetPlayerRegion` never returns `latam` or `br`: a
region returned without an error is one of `na`, `eu`, `ap`, `kr`, and a region
returned with an error is the default `ap`, or the empty string, which is
returned only when the user-info lookup fails or gives no user id. -/
theorem GetPlayerRegion_never_latam_br (lib : Lib) (up : Upstream)
    (accessToken entitlementToken : String) (w : World)
    (hshard : ProbeByShard up accessToken entitlementToken) :
    (GetPlayerRegion lib up accessToken entitlementToken w).1.1 ≠ "latam" ∧
    (GetPlayerRegion lib up accessToken entitlementToken w).1.1 ≠ "br" ∧
    ((GetPlayerRegion lib up accessToken entitlementToken w).1.2 = none →
      (GetPlayerRegion lib up accessToken entitlementToken w).1.1 ∈ ["na", "eu", "ap", "kr"]) ∧
    ((GetPlayerRegion lib up accessToken entitlementToken w).1.2 ≠ none →
      (GetPlayerRegion lib up accessToken entitlementToken w).1.1 = defaultRegion ∨
      ((GetPlayerRegion lib up accessToken entitlementToken w).1.1 = "" ∧
        ¬ ∃ userInfo w1, getUserInfo lib up accessToken w = (.ok userInfo, w1) ∧
          userInfo.Sub ≠ "")) := by
  rcases hui : getUserInfo lib up accessToken w with ⟨r, w1⟩
  cases r with
  | error e =>
    have hres : (GetPlayerRegion lib up accessToken entitlementToken w).1 =
        ("", some (.wrapf "获取用户信息失败: " e)) := by
      unfold GetPlayerRegion
      rw [hui]
    rw [hres]
    refine ⟨by simp, by simp, by simp, fun _ => Or.inr ⟨rfl, ?_⟩⟩
    rintro ⟨userInfo, w2, h, _⟩
    simp at h
  | ok userInfo =>
    by_cases hsub : userInfo.Sub = ""
    · have hres : (GetPlayerRegion lib up accessToken entitlementToken w).1 =
          ("", some (.plain "无法获取用户ID")) := by
        unfold GetPlayerRegion
        rw [hui]
        simp [hsub]
      rw [hres]
      refine ⟨by simp, by simp, by simp, fun _ => Or.inr ⟨rfl, ?_⟩⟩
      rintro ⟨userInfo2, w2, h, hne⟩
      simp only [Prod.mk.injEq, Except.ok.injEq] at h
      exact hne (h.1 ▸ hsub)
    · rw [GetPlayerRegion_probe lib up accessToken entitlementToken w w1 userInfo hui hsub]
      have hmem := probeRegions_by_shard up userInfo.Sub accessToken entitlementToken
        { w with calls := w.calls ++ [userInfoRequest w accessToken] } hshard
      generalize (probeRegions up userInfo.Sub accessToken entitlementToken regionsToTry
        { w with calls := w.calls ++ [userInfoRequest w accessToken] }).1 = res at hmem
      simp only [List.mem_cons, List.mem_singleton, List.not_mem_nil, or_false] at hmem
      rcases hmem with h | h | h | h | h <;> subst h <;>
        refine ⟨by decide, by decide, ?_, ?_⟩ <;> simp [defaultRegion]

/-- Claim C29 at the sample upstream, which answers by the address alone: the
player is found on `eu`. -/
theorem GetPlayerRegion_never_latam_br_witness :
    (GetPlayerRegion sampleLib goodUpstream "tok-1" "ent-1" initialWorld).1.1 ≠ "latam" ∧
    (GetPlayerRegion sampleLib goodUpstream "tok-1" "ent-1" initialWorld).1.1 ≠ "br" ∧
    ((GetPlayerRegion sampleLib goodUpstream "tok-1" "ent-1" initialWorld).1.2 = none →
      (GetPlayerRegion sampleLib goodUpstream "tok-1" "ent-1" initialWorld).1.1 ∈
        ["na", "eu", "ap", "kr"]) ∧
    ((GetPlayerRegion sampleLib goodUpstream "tok-1" "ent-1" initialWorld).1.2 ≠ none →
      (GetPlayerRegion sampleLib goodUpstream "tok-1" "ent-1" initialWorld).1.1 =
        defaultRegion ∨
      ((GetPlayerRegion sampleLib goodUpstream "tok-1" "ent-1" initialWorld).1.1 = "" ∧
        ¬ ∃ userInfo w1, getUserInfo sampleLib goodUpstream "tok-1" initialWorld =
          (.ok userInfo, w1) ∧ userInfo.Sub ≠ "")) :=
  GetPlayerRegion_never_latam_br sampleLib goodUpstream "tok-1" "ent-1" initialWorld
    (fun puuid n m r r' _ _ hurl => by
      have h : ∀ k q, goodUpstream k q = goodUpstream 0 q := fun _ _ => rfl
      have hreq : probeRequest r puuid "tok-1" "ent-1" = probeRequest r' puuid "tok-1" "ent-1" := by
        unfold probeRequest at hurl ⊢
        simp only [addCommonHeaders, newRequest] at hurl ⊢
        simp_all
      rw [h n, h m, hreq])

/-! ## Cookie maps written and read back: claim C30 -/

theorem intercalate_go_data (sep : String) : ∀ (l : List String) (acc : String),
    (String.intercalate.go acc sep l).data =
      acc.data ++ (l.map (fun a => sep.data ++ a.data)).flatten
  | [], acc => by simp [String.intercalate.go]
  | a :: l, acc => by
    rw [String.intercalate.go, intercalate_go_data sep l]
    simp [String.data_append]

theorem joinL_spaced : ∀ (rest : List (List Char)) (p : List Char),
    joinL ';' (p :: rest.map (fun a => ' ' :: a)) =
      p ++ (rest.map (fun a => ';' :: ' ' :: a)).flatten
  | [], p => by simp [joinL]
  | q :: rest, p => by
    have ih := joinL_spaced rest (' ' :: q)
    rw [List.map_cons, joinL, ih]
    simp

/-- The text that `StringifyCookies` writes, as the written entries joined with
semicolons. -/
theorem StringifyCookies_data (kv : String × String) (rest : StrMap) :
    (StringifyCookies (kv :: rest)).data =
      joinL ';' ((kv.1.data ++ '=' :: kv.2.data) ::
        rest.map (fun x => ' ' :: (x.1.data ++ '=' :: x.2.data))) := by
  have h := joinL_spaced (rest.map (fun x => x.1.data ++ '=' :: x.2.data))
    (kv.1.data ++ '=' :: kv.2.data)
  rw [List.map_map] at h
  have e : ((fun a => ' ' :: a) ∘ fun (x : String × String) => x.1.data ++ '=' :: x.2.data) =
      fun x => ' ' :: (x.1.data ++ '=' :: x.2.data) := rfl
  rw [e] at h
  rw [h]
  unfold StringifyCookies
  rw [List.map_cons, String.intercalate, intercalate_go_data]
  simp [String.data_append, Function.comp_def]

theorem cookieSafe_spec (s : String) (h : cookieSafe s = true) :
    (∀ c ∈ s.data, c ≠ ';' ∧ c ≠ ',' ∧ c ≠ '=' ∧ c ≠ Char.ofNat 34 ∧ c ≠ Char.ofNat 39 ∧
      c ≠ '\r' ∧ c ≠ '\n') ∧ trimmedL isSpace s.data = true := by
  unfold cookieSafe at h
  have e : ";,=\"\x27\r\n".data = [';', ',', '=', Char.ofNat 34, Char.ofNat 39, '\r', '\n'] := by
    decide
  rw [e] at h
  simp only [Bool.and_eq_true, List.all_eq_true, Bool.not_eq_true'] at h
  refine ⟨fun c hc => ?_, h.2⟩
  simpa using h.1 c hc

/-- The loop body of the parser on an entry that `StringifyCookies` wrote,
possibly after white space. -/
theorem parseCookiePart_stringified (acc : StrMap) (ws : List Char) (kv : String × String)
    (hws : ∀ c ∈ ws, isSpace c = true) (hne : kv.1 ≠ "") (hk : cookieSafe kv.1 = true)
    (hv : cookieSafe kv.2 = true) :
    parseCookiePart acc (String.mk (ws ++ kv.1.data ++ '=' :: kv.2.data)) =
      mapSet acc kv.1 kv.2 := by
  obtain ⟨hk1, hk2⟩ := cookieSafe_spec _ hk
  obtain ⟨hv1, hv2⟩ := cookieSafe_spec _ hv
  have hnm : kv.1.data ≠ [] := fun h => hne (String.ext h)
  have heq : trimmedL isSpace ['='] = true := by decide
  have hcore : trimmedL isSpace (kv.1.data ++ '=' :: kv.2.data) = true := by
    have := trimmedL_mid isSpace kv.1.data [] ('=' :: kv.2.data) hnm (by simp) hk2
      (trimmedL_append isSpace ['='] kv.2.data heq hv2)
    simpa using this
  have hP : trimL isSpace (ws ++ kv.1.data ++ '=' :: kv.2.data) =
      kv.1.data ++ '=' :: kv.2.data := by
    have := trimL_core isSpace ws (kv.1.data ++ '=' :: kv.2.data) [] hws (by simp) hcore
    simpa using this
  have hcut : cutL '=' (kv.1.data ++ '=' :: kv.2.data) = some (kv.1.data, kv.2.data) :=
    cutL_found '=' _ _ (fun h => (hk1 _ h).2.2.1 rfl)
  have hname : trimL isSpace kv.1.data = kv.1.data := by
    have := trimL_core isSpace [] kv.1.data [] (by simp) (by simp) hk2
    simpa using this
  have hval : trimL isSpace kv.2.data = kv.2.data := by
    have := trimL_core isSpace [] kv.2.data [] (by simp) (by simp) hv2
    simpa using this
  have hvq : trimL (fun c => "\"\x27".data.contains c) kv.2.data = kv.2.data := by
    have hq : trimmedL isQuote kv.2.data = true := by
      apply trimmedL_of_none
      intro c hc
      cases hq : isQuote c with
      | false => rfl
      | true =>
        rcases isQuote_cases c hq with e | e
        · exact absurd e (hv1 c hc).2.2.2.1
        · exact absurd e (hv1 c hc).2.2.2.2.1
    have h1 := trimL_core isQuote [] kv.2.data [] (by simp) (by simp) hq
    rw [List.nil_append, List.append_nil] at h1
    exact h1
  have hne1 : (String.mk (kv.1.data ++ '=' :: kv.2.data) = "") = False := by
    apply eq_false
    intro h
    have := congrArg String.data h
    simp at this
  have hne2 : (String.mk kv.1.data = "") = False := by
    apply eq_false
    intro h
    exact hnm (congrArg String.data h)
  unfold parseCookiePart
  simp only [strTrimSpace, strTrim, hP, hne1, if_false, hcut, hname, hval, hvq, ne_eq, hne2,
    not_false_eq_true, if_true]
/-- The loop of the parser over entries that `StringifyCookies` wrote, with
distinct names none of which is in the map yet, appends the entries to the
map. -/
theorem foldl_parseCookiePart_stringified :
    ∀ (items : List (List Char × (String × String))) (acc : StrMap),
      (items.map (fun x => x.2.1)).Nodup →
      (∀ x ∈ items, mapLookup acc x.2.1 = none) →
      (∀ x ∈ items, (∀ c ∈ x.1, c = ' ') ∧ x.2.1 ≠ "" ∧ cookieSafe x.2.1 = true ∧
        cookieSafe x.2.2 = true) →
      (items.map (fun x => String.mk (x.1 ++ x.2.1.data ++ '=' :: x.2.2.data))).foldl
          parseCookiePart acc = acc ++ items.map Prod.snd
  | [], acc, _, _, _ => by simp
  | x :: items, acc, hnd, habs, hp => by
    obtain ⟨hws, hne, hk, hv⟩ := hp x (List.mem_cons_self _ _)
    rw [List.map_cons, List.nodup_cons] at hnd
    rw [List.map_cons, List.foldl_cons,
      parseCookiePart_stringified acc x.1 x.2
        (fun c hc => by rw [hws c hc]; decide) hne hk hv,
      mapSet_absent acc x.2.1 x.2.2 (habs x (List.mem_cons_self _ _)),
      foldl_parseCookiePart_stringified items _ hnd.2 ?_
        (fun y hy => hp y (List.mem_cons_of_mem _ hy))]
    · simp
    · intro y hy
      apply mapLookup_append_absent _ _ _ _ (habs y (List.mem_cons_of_mem _ hy))
      intro e
      exact hnd.1 (e ▸ List.mem_map_of_mem (fun x => x.2.1) hy)

/-- The characters of an entry that `StringifyCookies` wrote. -/
theorem stringified_part_chars (x : List Char × (String × String))
    (hws : ∀ c ∈ x.1, c = ' ') (hk : cookieSafe x.2.1 = true) (hv : cookieSafe x.2.2 = true) :
    ∀ c ∈ x.1 ++ x.2.1.data ++ '=' :: x.2.2.data,
      c ≠ ';' ∧ c ≠ ',' ∧ notLineBreak c = true := by
  intro c hc
  have hs : ∀ s : String, cookieSafe s = true → ∀ c ∈ s.data,
      c ≠ ';' ∧ c ≠ ',' ∧ notLineBreak c = true := by
    intro s hs c hc
    have := (cookieSafe_spec s hs).1 c hc
    exact ⟨this.1, this.2.1, by simp [notLineBreak, this.2.2.2.2.2.1, this.2.2.2.2.2.2]⟩
  simp only [List.mem_append, List.mem_cons] at hc
  rcases hc with (hc | hc) | hc | hc
  · rw [hws c hc]
    decide
  · exact hs _ hk c hc
  · rw [hc]
    decide
  · exact hs _ hv c hc

/-- In a map with distinct names, a name is looked up to a value exactly when
the map has that entry. -/
theorem mapLookup_eq_some_iff : ∀ (m : StrMap), (m.map Prod.fst).Nodup →
    ∀ (name value : String), mapLookup m name = some value ↔ (name, value) ∈ m
  | [], _, name, value => by simp [mapLookup]
  | kv :: m, hnd, name, value => by
    rw [List.map_cons, List.nodup_cons] at hnd
    have ih := mapLookup_eq_some_iff m hnd.2 name value
    unfold mapLookup at ih ⊢
    rw [List.find?_cons]
    by_cases hk : kv.1 = name
    · have hb : (kv.1 == name) = true := by simpa using hk
      simp only [hb, Option.map_some', Option.some.injEq, List.mem_cons]
      constructor
      · intro h
        exact Or.inl (by rw [← h, ← hk])
      · rintro (h | h)
        · rw [← h]
        · exact absurd (List.mem_map_of_mem Prod.fst h) (by rw [← hk] at *; exact hnd.1)
    · have hb : (kv.1 == name) = false := by simpa using hk
      simp only [hb, List.mem_cons]
      rw [ih]
      constructor
      · exact Or.inr
      · rintro (h | h)
        · exact absurd (by rw [← h]) hk
        · exact h

/-- Two maps with the same entries and distinct names look every name up
alike. -/
theorem mapLookup_perm (m emitted : StrMap) (hperm : emitted.Perm m)
    (hkeys : (m.map Prod.fst).Nodup) (name : String) :
    mapLookup emitted name = mapLookup m name := by
  have hkeys2 : (emitted.map Prod.fst).Nodup := (hperm.map Prod.fst).nodup_iff.mpr hkeys
  cases h1 : mapLookup m name with
  | some v =>
    rw [mapLookup_eq_some_iff m hkeys] at h1
    rw [mapLookup_eq_some_iff emitted hkeys2]
    exact hperm.mem_iff.mpr h1
  | none =>
    cases h2 : mapLookup emitted name with
    | none => rfl
    | some v =>
      rw [mapLookup_eq_some_iff emitted hkeys2] at h2
      have := (mapLookup_eq_some_iff m hkeys name v).mpr (hperm.mem_iff.mp h2)
      rw [h1] at this
      cases this
/-- Claim C30: for every cookie map whose names are not empty and whose names
and values contain no semicolon, comma, equals sign, quote character or line
break and neither start nor end with white space, and for every order
`emitted` in which `StringifyCookies` takes the entries of the map,
`EnhancedParseCookieString` reads the written text back to these entries, and
so to a map that looks every name up as the map `m` does. -/
theorem parse_of_stringified_cookies (m emitted : StrMap) (hperm : emitted.Perm m)
    (hkeys : (m.map Prod.fst).Nodup)
    (hne : ∀ kv ∈ m, kv.1 ≠ "")
    (hsafe : ∀ kv ∈ m, cookieSafe kv.1 = true ∧ cookieSafe kv.2 = true) :
    EnhancedParseCookieString (StringifyCookies emitted) = emitted ∧
    ∀ name, mapLookup (EnhancedParseCookieString (StringifyCookies emitted)) name =
      mapLookup m name := by
  have hmain : EnhancedParseCookieString (StringifyCookies emitted) = emitted := by
    have hkeys2 : (emitted.map Prod.fst).Nodup := (hperm.map Prod.fst).nodup_iff.mpr hkeys
    have hne2 : ∀ kv ∈ emitted, kv.1 ≠ "" := fun kv h => hne kv (hperm.mem_iff.mp h)
    have hsafe2 : ∀ kv ∈ emitted, cookieSafe kv.1 = true ∧ cookieSafe kv.2 = true :=
      fun kv h => hsafe kv (hperm.mem_iff.mp h)
    cases emitted with
    | nil => rfl
    | cons kv rest =>
      have hitems : ∀ x ∈ (([], kv) :: rest.map (fun y => ([' '], y)) :
          List (List Char × (String × String))),
          (∀ c ∈ x.1, c = ' ') ∧ x.2.1 ≠ "" ∧ cookieSafe x.2.1 = true ∧
            cookieSafe x.2.2 = true := by
        intro x hx
        rcases List.mem_cons.mp hx with hx | hx
        · rw [hx]
          exact ⟨by simp, hne2 kv (List.mem_cons_self _ _),
            hsafe2 kv (List.mem_cons_self _ _)⟩
        · obtain ⟨y, hy, rfl⟩ := List.mem_map.mp hx
          exact ⟨by simp, hne2 y (List.mem_cons_of_mem _ hy),
            hsafe2 y (List.mem_cons_of_mem _ hy)⟩
      have hdata : (StringifyCookies (kv :: rest)).data =
          joinL ';' ((([], kv) :: rest.map (fun y => ([' '], y)) :
            List (List Char × (String × String))).map
              (fun x => x.1 ++ x.2.1.data ++ '=' :: x.2.2.data)) := by
        rw [StringifyCookies_data]
        simp [Function.comp_def]
      have hchars : ∀ p ∈ (([], kv) :: rest.map (fun y => ([' '], y)) :
          List (List Char × (String × String))).map
            (fun x => x.1 ++ x.2.1.data ++ '=' :: x.2.2.data),
          ∀ c ∈ p, c ≠ ';' ∧ c ≠ ',' ∧ notLineBreak c = true := by
        intro p hp
        obtain ⟨x, hx, rfl⟩ := List.mem_map.mp hp
        exact stringified_part_chars x (hitems x hx).1 (hitems x hx).2.2.1 (hitems x hx).2.2.2
      have htext : ¬ StringifyCookies (kv :: rest) = "" := by
        intro h
        have h2 := congrArg String.data h
        rw [hdata, List.map_cons] at h2
        exact joinL_ne_nil ';' _ _ (by simp) h2
      have hclean : strRemoveAll (strRemoveAll (StringifyCookies (kv :: rest)) '\r') '\n' =
          String.mk (joinL ';' ((([], kv) :: rest.map (fun y => ([' '], y)) :
            List (List Char × (String × String))).map
              (fun x => x.1 ++ x.2.1.data ++ '=' :: x.2.2.data))) := by
        rw [strRemoveAll_lineBreaks, hdata, filter_joinL ';' (by decide)]
        congr 2
        conv => rhs; rw [← List.map_id (List.map _ _)]
        apply List.map_congr_left
        intro p hp
        rw [id, List.filter_eq_self]
        exact fun c hc => (hchars p hp c hc).2.2
      have hparts := cookie_parts ';' (Or.inl rfl) _ (by simp)
        (fun p hp h => (hchars p hp _ h).1 rfl) (fun p hp h => (hchars p hp _ h).2.1 rfl)
      have hfold := foldl_parseCookiePart_stringified _ []
        (by simpa [Function.comp_def] using hkeys2) (fun _ _ => rfl) hitems
      unfold EnhancedParseCookieString
      rw [if_neg htext]
      simp only [hclean, hparts, List.map_map]
      simpa [Function.comp_def] using hfold
  exact ⟨hmain, fun name => by rw [hmain]; exact mapLookup_perm m emitted hperm hkeys name⟩

/-- Claim C30 at a map of three entries, emitted in another order than the map
holds them. -/
theorem parse_of_stringified_cookies_witness :
    StringifyCookies [("sub", "a:b c"), ("ssid", "abc"), ("clid", "")] =
      "sub=a:b c; ssid=abc; clid=" ∧
    EnhancedParseCookieString
        (StringifyCookies [("sub", "a:b c"), ("ssid", "abc"), ("clid", "")]) =
      [("sub", "a:b c"), ("ssid", "abc"), ("clid", "")] ∧
    ∀ name, mapLookup (EnhancedParseCookieString
        (StringifyCookies [("sub", "a:b c"), ("ssid", "abc"), ("clid", "")])) name =
      mapLookup sampleCookies name :=
  ⟨by decide, parse_of_stringified_cookies sampleCookies
    [("sub", "a:b c"), ("ssid", "abc"), ("clid", "")]
    (by decide) (by decide) (by decide) (by decide)⟩

/-! ## The entitlement call of a login: claim C2 -/

theorem getElem?_of_extension {α : Type} (l1 l2 : List α) (h : l1 <+: l2) (n : Nat) (x : α)
    (hx : l1[n]? = some x) : l2[n]? = some x := by
  obtain ⟨t, rfl⟩ := h
  have hn : n < l1.length := by
    by_contra hc
    rw [List.getElem?_eq_none (by omega)] at hx
    cases hx
  rw [List.getElem?_append_left hn]
  exact hx

/-- An entitlement call made during a part of a call was made during the
call. -/
theorem EntitlementCallMade.mono (lib : Lib) (up : Upstream) (w0 w1 w2 w3 : World)
    (token : String) (h : EntitlementCallMade lib up w1 w2 token)
    (h0 : w0.calls.length ≤ w1.calls.length) (hp : w2.calls <+: w3.calls) :
    EntitlementCallMade lib up w0 w3 token := by
  obtain ⟨n, req, resp, r, hn, hlog, hm, hu, hup, hst, hdec, hr⟩ := h
  exact ⟨n, req, resp, r, le_trans h0 hn, getElem?_of_extension _ _ hp n req hlog, hm, hu, hup,
    hst, hdec, hr⟩

/-- A successful `getEntitlementToken` has made the entitlement call. -/
theorem getEntitlementToken_made (lib : Lib) (up : Upstream) (accessToken token : String)
    (w w' : World) (h : getEntitlementToken lib up accessToken w = (.ok token, w')) :
    EntitlementCallMade lib up w w' token := by
  have hw := getEntitlementToken_world lib up accessToken w
  rw [h] at hw
  dsimp only at hw
  unfold getEntitlementToken at h
  simp only [clientDo] at h
  split at h
  · simp at h
  · rename_i resp w1 hdo
    simp only [Prod.mk.injEq] at hdo
    split at h
    · simp at h
    · rename_i hst
      split at h
      · simp at h
      · rename_i r hdec
        simp only [Prod.mk.injEq, Except.ok.injEq] at h
        refine ⟨w.calls.length, _, resp, r, le_refl _, ?_, ?_, ?_, hdo.1, by simpa using hst,
          hdec, h.1⟩
        · rw [hw]
          simp
        · rfl
        · rfl

theorem probeRegions_calls_extend (up : Upstream) (puuid accessToken entitlementToken : String) :
    ∀ (rs : List String) (w : World),
      w.calls <+: (probeRegions up puuid accessToken entitlementToken rs w).2.calls := by
  intro rs
  induction rs with
  | nil =>
    intro w
    simp [probeRegions]
  | cons region rest ih =>
    intro w
    rw [probeRegions_cons]
    have hstep := ih { w with calls := w.calls ++
      [probeRequest region puuid accessToken entitlementToken] }
    have hpre : w.calls <+: w.calls ++
        [probeRequest region puuid accessToken entitlementToken] := List.prefix_append _ _
    cases up w.calls.length (probeRequest region puuid accessToken entitlementToken) with
    | error e => exact hpre.trans hstep
    | ok resp =>
      dsimp only
      split
      · exact hpre
      · exact hpre.trans hstep

theorem GetPlayerRegion_calls_extend (lib : Lib) (up : Upstream)
    (accessToken entitlementToken : String) (w : World) :
    w.calls <+: (GetPlayerRegion lib up accessToken entitlementToken w).2.calls := by
  have hw := getUserInfo_world lib up accessToken w
  unfold GetPlayerRegion
  rcases hui : getUserInfo lib up accessToken w with ⟨r, w1⟩
  rw [hui] at hw
  dsimp only at hw
  have hpre : w.calls <+: w1.calls := by
    rw [hw]
    exact List.prefix_append _ _
  cases r with
  | error e => exact hpre
  | ok userInfo =>
    dsimp only
    split
    · exact hpre
    · exact hpre.trans (probeRegions_calls_extend up _ _ _ _ w1)

/-- A session that password `Authenticate` returns has the token of an
entitlement call made during the login. -/
theorem Authenticate_entitlement_call (lib : Lib) (up : Upstream) (username password : String)
    (w w' : World) (s : UserSession)
    (h : Authenticate lib up username password w = (.ok s, w')) :
    EntitlementCallMade lib up w w' s.Entitlement := by
  obtain ⟨w1, w2, w3, w4, authResponse, accessToken, entitlementToken, userInfo, h1, h2, h3, h4,
    h5⟩ := Authenticate_ok_steps lib up username password w w' s h
  have hw1 := requestAuth_world up w
  rw [h1] at hw1
  have hw2 := requestLogin_world lib up username password w1
  rw [h2] at hw2
  have hw4 := getUserInfo_ok_world lib up accessToken w3 w4 _ h5
  dsimp only at hw1 hw2
  have hlen : w.calls.length ≤ w2.calls.length := by
    rw [hw2, hw1]
    simp
  have hpre : w3.calls <+: w'.calls := by
    have h34 : w3.calls <+: w4.calls := by
      rw [hw4]
      exact List.prefix_append _ _
    have h45 := GetPlayerRegion_calls_extend lib up accessToken entitlementToken w4
    have hw' : w'.calls = (GetPlayerRegion lib up accessToken entitlementToken w4).2.calls := by
      unfold Authenticate at h
      simp only [h1, h2, h3, h4, h5] at h
      by_cases hg : (GetPlayerRegion lib up accessToken entitlementToken w4).1.2.isSome = true
      · simp only [hg, if_true, Prod.mk.injEq] at h
        rw [← h.2]
      · simp only [hg, Bool.false_eq_true, if_false, Prod.mk.injEq] at h
        rw [← h.2, SetRegion_calls]
    rw [hw']
    exact h34.trans h45
  have hent : s.Entitlement = entitlementToken := by
    obtain ⟨s', hs', _, _, _, he, _⟩ := Authenticate_after_steps lib up username password w w1 w2
      w3 w4 authResponse accessToken entitlementToken userInfo h1 h2 h3 h4 h5
    rw [h] at hs'
    simp only [Except.ok.injEq] at hs'
    rw [hs']
    exact he
  rw [hent]
  exact EntitlementCallMade.mono lib up w w2 w3 w' _
    (getEntitlementToken_made lib up accessToken entitlementToken w2 w3 h4) hlen hpre

theorem authorizeRedirect_entitlement_call (lib : Lib) (up : Upstream) (cookies : StrMap)
    (w w' : World) (s : UserSession)
    (h : authorizeRedirect lib up cookies w = (.ok s, w')) :
    EntitlementCallMade lib up w w' s.Entitlement := by
  unfold authorizeRedirect at h
  simp only [clientDo] at h
  repeat' split at h
  all_goals first | (simp at h; done) | skip
  all_goals
    simp only [Prod.mk.injEq, Except.ok.injEq] at h
    obtain ⟨rfl, rfl⟩ := h
    have he := getEntitlementToken_made _ _ _ _ _ _ ‹getEntitlementToken _ _ _ _ = _›
    have hu := getUserInfo_ok_world _ _ _ _ _ _ ‹getUserInfo _ _ _ _ = _›
    refine EntitlementCallMade.mono lib up _ _ _ _ _ he ?_ ?_
    · have hw := (Prod.mk.inj ‹(up _ _, _) = _›).2
      rw [← hw]
      simp
    · rw [hu]
      exact List.prefix_append _ _

theorem viaAuthorizeEndpoint_entitlement_call (lib : Lib) (up : Upstream) (cookies : StrMap)
    (w w' : World) (s : UserSession)
    (h : authenticateWithCookiesViaAuthorizeEndpoint lib up cookies w = (.ok s, w')) :
    EntitlementCallMade lib up w w' s.Entitlement := by
  unfold authenticateWithCookiesViaAuthorizeEndpoint at h
  simp only [clientDo] at h
  repeat' split at h
  all_goals first | (simp at h; done) | skip
  all_goals
    have hw0 := congrArg (fun p : World => p.calls.length) (Prod.mk.inj ‹(up _ _, _) = _›).2
    simp only [List.length_append, List.length_singleton] at hw0
  all_goals first
    | (simp only [Prod.mk.injEq, Except.ok.injEq] at h
       obtain ⟨rfl, rfl⟩ := h
       have he := getEntitlementToken_made _ _ _ _ _ _ ‹getEntitlementToken _ _ _ _ = _›
       exact EntitlementCallMade.mono lib up _ _ _ _ _ he (by omega) (List.prefix_refl _))
    | (have hc := congrArg (fun p : Except GoError String × World => p.2.calls.length) ‹getEntitlementToken _ _ _ _ = _›
       simp only [getEntitlementToken_calls] at hc
       exact EntitlementCallMade.mono lib up _ _ _ _ _
         (authorizeRedirect_entitlement_call _ _ _ _ _ _ h) (by omega) (List.prefix_refl _))
    | exact EntitlementCallMade.mono lib up _ _ _ _ _
        (authorizeRedirect_entitlement_call _ _ _ _ _ _ h) (by omega) (List.prefix_refl _)

theorem authEndpointReplay_entitlement_call (lib : Lib) (up : Upstream) (cookies : StrMap)
    (w w' : World) (s : UserSession)
    (h : authEndpointReplay lib up cookies w = (.ok s, w')) :
    EntitlementCallMade lib up w w' s.Entitlement := by
  unfold authEndpointReplay at h
  simp only [clientDo] at h
  repeat' split at h
  all_goals first | (simp at h; done) | skip
  all_goals
    simp only [Prod.mk.injEq, Except.ok.injEq] at *
    casesm* _ ∧ _
    subst_vars
    refine ⟨_, _, _, _, ?_, ?_, ?_, ?_,
      ‹up _ (setRiotRequestHeaders (newRequest "POST"
        "https://entitlements.auth.riotgames.com/api/token/v1" _) _) = _›,
      by assumption, by assumption, rfl⟩
    · simp
    · exact List.getElem?_concat_length _ _
    · rfl
    · rfl

theorem viaAuthEndpoint_entitlement_call (lib : Lib) (up : Upstream) (cookies : StrMap)
    (w w' : World) (s : UserSession)
    (h : authenticateWithCookiesViaAuthEndpoint lib up cookies w = (.ok s, w')) :
    EntitlementCallMade lib up w w' s.Entitlement := by
  unfold authenticateWithCookiesViaAuthEndpoint at h
  simp only [clientDo] at h
  repeat' split at h
  all_goals first | (simp at h; done) | skip
  all_goals first
    | (simp only [Prod.mk.injEq, Except.ok.injEq] at h
       obtain ⟨rfl, rfl⟩ := h
       have hw0 := congrArg (fun p : World => p.calls.length) (Prod.mk.inj ‹(up _ _, _) = _›).2
       simp only [List.length_append, List.length_singleton] at hw0
       have he := getEntitlementToken_made _ _ _ _ _ _ ‹getEntitlementToken _ _ _ _ = _›
       exact EntitlementCallMade.mono lib up _ _ _ _ _ he (by omega) (List.prefix_refl _))
    | (have hw0 := congrArg (fun p : World => p.calls.length) (Prod.mk.inj ‹(up _ _, _) = _›).2
       simp only [List.length_append, List.length_singleton] at hw0
       exact EntitlementCallMade.mono lib up _ _ _ _ _
         (authEndpointReplay_entitlement_call _ _ _ _ _ _ h) (by omega) (List.prefix_refl _))
    | exact EntitlementCallMade.mono lib up _ _ _ _ _
        (authEndpointReplay_entitlement_call _ _ _ _ _ _ h) (le_refl _) (List.prefix_refl _)

theorem viaAuthorizeEndpoint_calls_le (lib : Lib) (up : Upstream) (cookies : StrMap)
    (w : World) :
    w.calls.length ≤
      (authenticateWithCookiesViaAuthorizeEndpoint lib up cookies w).2.calls.length := by
  by_cases hne : cookies = []
  · subst hne
    have h : authenticateWithCookiesViaAuthorizeEndpoint lib up [] w =
        (.error (.plain "没有提供任何Cookie"), { w with client := HTTPClient.noRedirect }) := rfl
    rw [h]
  · exact le_of_lt (viaAuthorizeEndpoint_calls lib up cookies w hne)

/-- A session that `AuthenticateWithCookies` returns has the token of an
entitlement call made during the login. -/
theorem AuthenticateWithCookies_entitlement_call (lib : Lib) (up : Upstream) (cookies : StrMap)
    (w w' : World) (s : UserSession)
    (h : AuthenticateWithCookies lib up cookies w = (.ok s, w')) :
    EntitlementCallMade lib up w w' s.Entitlement := by
  have hfinish : ∀ (s0 : UserSession) (w1 : World),
      EntitlementCallMade lib up w w1 s0.Entitlement →
      (match getUserInfo lib up s0.AccessToken w1 with
        | (.error err, w) => ((.error (.wrapf "获取用户信息失败: " err), w) :
            Except GoError UserSession × World)
        | (.ok userInfo, w) =>
          (.ok { s0 with RiotUsername := userInfo.Name, RiotTagline := userInfo.Tag,
                         Region := "" }, w)) = (.ok s, w') →
      EntitlementCallMade lib up w w' s.Entitlement := by
    intro s0 w1 he hfin
    rcases hu : getUserInfo lib up s0.AccessToken w1 with ⟨r, w2⟩
    rw [hu] at hfin
    have hw2 := getUserInfo_ok_world lib up s0.AccessToken w1 w2 _ hu
    cases r with
    | error e => simp at hfin
    | ok userInfo =>
      simp only [Prod.mk.injEq, Except.ok.injEq] at hfin
      obtain ⟨rfl, rfl⟩ := hfin
      refine EntitlementCallMade.mono lib up w w w1 w2 _ he (le_refl _) ?_
      rw [hw2]
      exact List.prefix_append _ _
  unfold AuthenticateWithCookies at h
  rcases hv : authenticateWithCookiesViaAuthorizeEndpoint lib up cookies w with ⟨r1, w1⟩
  rw [hv] at h
  cases r1 with
  | ok s0 =>
    exact hfinish s0 w1 (viaAuthorizeEndpoint_entitlement_call lib up cookies w w1 s0 hv) h
  | error e =>
    dsimp only at h
    rcases hv2 : authenticateWithCookiesViaAuthEndpoint lib up cookies w1 with ⟨r2, w2⟩
    rw [hv2] at h
    cases r2 with
    | error e2 => simp at h
    | ok s0 =>
      have hlen : w.calls.length ≤ w1.calls.length := by
        have := viaAuthorizeEndpoint_calls_le lib up cookies w
        rw [hv] at this
        exact this
      exact hfinish s0 w2 (EntitlementCallMade.mono lib up w w1 w2 w2 _
        (viaAuthEndpoint_entitlement_call lib up cookies w1 w2 s0 hv2) hlen
        (List.prefix_refl _)) h

/-- Claim C2, amended: whenever password `Authenticate` or
`AuthenticateWithCookies` returns a session, the session's `Entitlement` is
the field `entitlements_token` decoded from the answer, with the status 200, to
an entitlement request that this login has made: a POST to the entitlements
endpoint that stands in the call log at an index not before the login began.
The token is taken over without a test for emptiness, so the `Entitlement` is
not empty exactly when the decoded token is not empty. -/
theorem session_entitlement_from_upstream (lib : Lib) (up : Upstream)
    (username password : String) (cookies : StrMap) (w w' : World) (s : UserSession)
    (h : Authenticate lib up username password w = (.ok s, w') ∨
      AuthenticateWithCookies lib up cookies w = (.ok s, w')) :
    ∃ n req resp r, w.calls.length ≤ n ∧ w'.calls[n]? = some req ∧
      req.method = "POST" ∧ req.url = entitlementsURL ∧
      up n req = .ok resp ∧ resp.statusCode = 200 ∧
      lib.decodeEntitlementResponse resp.body = .ok r ∧
      s.Entitlement = r.EntitlementToken ∧
      (s.Entitlement ≠ "" ↔ r.EntitlementToken ≠ "") := by
  have hmade : EntitlementCallMade lib up w w' s.Entitlement := by
    rcases h with h | h
    · exact Authenticate_entitlement_call lib up username password w w' s h
    · exact AuthenticateWithCookies_entitlement_call lib up cookies w w' s h
  obtain ⟨n, req, resp, r, hn, hlog, hm, hu, hup, hst, hdec, hr⟩ := hmade
  exact ⟨n, req, resp, r, hn, hlog, hm, hu, hup, hst, hdec, hr.symm, by rw [hr]⟩

/-- Claim C2, amended, at the password login of the sample upstream: the
entitlement request is the third transport call and its answer decodes to
`ent-1`. -/
theorem session_entitlement_from_upstream_witness :
    ∃ n req resp r, initialWorld.calls.length ≤ n ∧
      (Authenticate sampleLib goodUpstream "neo" "pw" initialWorld).2.calls[n]? = some req ∧
      req.method = "POST" ∧ req.url = entitlementsURL ∧
      goodUpstream n req = .ok resp ∧ resp.statusCode = 200 ∧
      sampleLib.decodeEntitlementResponse resp.body = .ok r ∧
      "ent-1" = r.EntitlementToken ∧
      ("ent-1" ≠ "" ↔ r.EntitlementToken ≠ "") :=
  session_entitlement_from_upstream sampleLib goodUpstream "neo" "pw" [] initialWorld
    (Authenticate sampleLib goodUpstream "neo" "pw" initialWorld).2
    { UserID := "player-1", Username := "neo", AccessToken := "tok-1", Entitlement := "ent-1",
      RiotUsername := "Neo", RiotTagline := "0001", Region := "eu", Cookies := [] }
    (Or.inl rfl)

/-! ## Altered tokens -/

theorem splitL_ne_nil (sep : Char) : ∀ l : List Char, splitL sep l ≠ []
  | [] => by simp [splitL]
  | c :: cs => by
    unfold splitL
    split
    · simp
    · split <;> simp

/-- The three segments of a token text. -/
theorem strSplit_three (header claims signature : String)
    (hh : '.' ∉ header.data) (hc : '.' ∉ claims.data) (hs : '.' ∉ signature.data) :
    strSplit (header ++ "." ++ claims ++ "." ++ signature) '.' = [header, claims, signature] := by
  unfold strSplit
  have e : (header ++ "." ++ claims ++ "." ++ signature).data =
      header.data ++ '.' :: (claims.data ++ '.' :: signature.data) := by
    simp [String.data_append]
  rw [e, splitL_append _ _ _ hh, splitL_append _ _ _ hc, splitL_absent _ _ hs]
  rfl

/-- A token text with a dot in its last part has more than three segments. -/
theorem strSplit_more (header claims signature : String)
    (hh : '.' ∉ header.data) (hc : '.' ∉ claims.data) (hs : '.' ∈ signature.data) :
    ∃ a b rest, strSplit (header ++ "." ++ claims ++ "." ++ signature) '.' =
      header :: claims :: a :: b :: rest := by
  obtain ⟨p, q, hpq, hp⟩ := List.eq_append_cons_of_mem hs
  unfold strSplit
  have e : (header ++ "." ++ claims ++ "." ++ signature).data =
      header.data ++ '.' :: (claims.data ++ '.' :: (p ++ '.' :: q)) := by
    simp [String.data_append, hpq]
  rw [e, splitL_append _ _ _ hh, splitL_append _ _ _ hc, splitL_append _ _ _ hp]
  rcases hq : splitL '.' q with _ | ⟨b, rest⟩
  · exact absurd hq (splitL_ne_nil _ _)
  · exact ⟨_, _, _, rfl⟩
/-- With `jwtLibOf`, the decoding of a token text of three segments looks at
the first two only. -/
theorem jwtLibOf_parseUnverified (decodeParts : String → String → Except GoError Token)
    (mac : String → String → String → List Nat) (header claims signature : String)
    (hh : '.' ∉ header.data) (hc : '.' ∉ claims.data) (hs : '.' ∉ signature.data) :
    (jwtLibOf decodeParts mac).parseUnverified (header ++ "." ++ claims ++ "." ++ signature) =
      decodeParts header claims := by
  simp only [jwtLibOf, strSplit_three header claims signature hh hc hs]

/-- With `jwtLibOf`, the verification of a token text of three segments looks
at the bytes that its third segment decodes to. -/
theorem jwtLibOf_verify (decodeParts : String → String → Except GoError Token)
    (mac : String → String → String → List Nat) (header claims signature : String)
    (token : Token) (key : String)
    (hh : '.' ∉ header.data) (hc : '.' ∉ claims.data) (hs : '.' ∉ signature.data) :
    (jwtLibOf decodeParts mac).verify (header ++ "." ++ claims ++ "." ++ signature) token key =
      match decodeSegment signature with
      | some sig => sig == mac token.alg key (header ++ "." ++ claims)
      | none => false := by
  simp only [jwtLibOf, strSplit_three header claims signature hh hc hs]

/-- A segment that decodes has no dot. -/
theorem base64Values_no_dot : ∀ (cs : List Char) (vs : List Nat),
    base64Values cs = some vs → '.' ∉ cs
  | [], _, _ => by simp
  | c :: cs, vs, h => by
    unfold base64Values at h
    split at h
    · rename_i hc
      have ih := base64Values_no_dot cs vs h
      rcases hc with hc | hc <;> subst hc <;> simpa using ih
    · split at h
      · rename_i v vs1 hv hvs
        have ih := base64Values_no_dot cs vs1 hvs
        have hne : c ≠ '.' := by
          rintro rfl
          simp [base64Value] at hv
        simp only [List.mem_cons, not_or]
        exact ⟨fun e => hne e.symm, ih⟩
      · cases h

theorem decodeSegment_no_dot (seg : String) (bytes : List Nat)
    (h : decodeSegment seg = some bytes) : '.' ∉ seg.data := by
  unfold decodeSegment at h
  rcases hv : base64Values seg.data with _ | vs
  · rw [hv] at h
    cases h
  · exact base64Values_no_dot _ _ hv

/-- With `jwtLibOf`, two token texts with the same first two segments whose
third segments decode to the same bytes get the same verdict. -/
theorem ValidateToken_same_bytes (decodeParts : String → String → Except GoError Token)
    (mac : String → String → String → List Nat) (clock : Clock) (sv : Services) (w : World)
    (header claims signature altered : String)
    (hh : '.' ∉ header.data) (hc : '.' ∉ claims.data)
    (hs : '.' ∉ signature.data) (ha : '.' ∉ altered.data)
    (hsame : decodeSegment altered = decodeSegment signature) :
    ValidateToken (jwtLibOf decodeParts mac) clock sv
        (header ++ "." ++ claims ++ "." ++ altered) w =
      ValidateToken (jwtLibOf decodeParts mac) clock sv
        (header ++ "." ++ claims ++ "." ++ signature) w := by
  unfold ValidateToken parseWithClaims
  simp only [jwtLibOf_parseUnverified _ _ _ _ _ hh hc hs,
    jwtLibOf_parseUnverified _ _ _ _ _ hh hc ha,
    jwtLibOf_verify _ _ _ _ _ _ _ hh hc hs, jwtLibOf_verify _ _ _ _ _ _ _ hh hc ha, hsame]

/-- With `jwtLibOf`, a token text is rejected when a text with the same first
two segments verifies and the third segment does not decode to the same
bytes. -/
theorem ValidateToken_other_bytes (decodeParts : String → String → Except GoError Token)
    (mac : String → String → String → List Nat) (clock : Clock) (sv : Services) (w : World)
    (header claims signature altered : String) (token : Token)
    (hh : '.' ∉ header.data) (hc : '.' ∉ claims.data)
    (hparse : (jwtLibOf decodeParts mac).parseUnverified
      (header ++ "." ++ claims ++ "." ++ signature) = .ok token)
    (hverify : (jwtLibOf decodeParts mac).verify
      (header ++ "." ++ claims ++ "." ++ signature) token sv.jwtSecret = true)
    (hother : decodeSegment altered ≠ decodeSegment signature) :
    ∃ err, (ValidateToken (jwtLibOf decodeParts mac) clock sv
        (header ++ "." ++ claims ++ "." ++ altered) w).1 =
      .error (.wrapf "解析令牌失败: " err) := by
  have hs : '.' ∉ signature.data := by
    by_cases hs : '.' ∈ signature.data
    · obtain ⟨a, b, rest, e⟩ := strSplit_more header claims signature hh hc hs
      simp [jwtLibOf, e] at hverify
    · exact hs
  rw [jwtLibOf_parseUnverified _ _ _ _ _ hh hc hs] at hparse
  rw [jwtLibOf_verify _ _ _ _ _ _ _ hh hc hs] at hverify
  by_cases ha : '.' ∈ altered.data
  · obtain ⟨a, b, rest, e⟩ := strSplit_more header claims altered hh hc ha
    unfold ValidateToken parseWithClaims
    simp only [jwtLibOf, e]
    exact ⟨_, rfl⟩
  · apply ValidateToken_rejects _ clock sv _ w token
    · rw [jwtLibOf_parseUnverified _ _ _ _ _ hh hc ha]
      exact hparse
    · left
      rw [jwtLibOf_verify _ _ _ _ _ _ _ hh hc ha]
      rcases hsig : decodeSegment signature with _ | bytes
      · rw [hsig] at hverify
        cases hverify
      · rw [hsig] at hverify hother
        rcases halt : decodeSegment altered with _ | other
        · rfl
        · rw [halt] at hother
          simp only at hverify ⊢
          have h1 : bytes = mac token.alg sv.jwtSecret (header ++ "." ++ claims) := by
            simpa using hverify
          simp only [beq_eq_false_iff_ne, ne_eq]
          rintro h2
          exact hother (by rw [h2, h1])
theorem base64Value_not_lineBreak (c : Char) (v : Nat) (h : base64Value c = some v) :
    ¬ (c = '\r' ∨ c = '\n') := by
  rintro (rfl | rfl) <;> simp [base64Value] at h

theorem base64Values_append_last : ∀ (p : List Char) (vs : List Nat) (c : Char) (v : Nat),
    base64Values p = some vs → base64Value c = some v →
    base64Values (p ++ [c]) = some (vs ++ [v])
  | [], vs, c, v, hp, hc => by
    have hn := base64Value_not_lineBreak c v hc
    simp only [base64Values, Option.some.injEq] at hp
    subst hp
    simp [base64Values, hn, hc]
  | x :: p, vs, c, v, hp, hc => by
    unfold base64Values at hp
    rw [List.cons_append]
    unfold base64Values
    split at hp
    · rename_i hx
      rw [if_pos hx]
      exact base64Values_append_last p vs c v hp hc
    · rename_i hx
      rw [if_neg hx]
      split at hp
      · rename_i vx vs1 hvx hvs
        simp only [Option.some.injEq] at hp
        subst hp
        rw [hvx, base64Values_append_last p vs1 c v hvs hc]
        rfl
      · cases hp

/-- The two low bits of the last value of a group of three do not reach the
bytes. -/
theorem decodeQuanta_last : ∀ (vs : List Nat) (a b : Nat), vs.length % 4 = 2 → a / 4 = b / 4 →
    decodeQuanta (vs ++ [a]) = decodeQuanta (vs ++ [b])
  | [], _, _, hl, _ => by simp at hl
  | [_], _, _, hl, _ => by simp at hl
  | [x, y], a, b, _, h => by simp [decodeQuanta, h]
  | [_, _, _], _, _, hl, _ => by simp at hl
  | x :: y :: z :: t :: rest, a, b, hl, h => by
    have hl2 : rest.length % 4 = 2 := by
      simp only [List.length_cons] at hl
      omega
    have ih := decodeQuanta_last rest a b hl2 h
    simp only [List.cons_append]
    rcases rest with _ | ⟨r, rest⟩
    · simp at hl2
    · simp only [List.cons_append] at ih ⊢
      simp only [decodeQuanta, ih]

/-- A segment whose characters before the last one number two more than a
multiple of four decodes to the same bytes when the last character is replaced
by one whose value differs in the two low bits only. -/
theorem decodeSegment_last (p : List Char) (vs : List Nat) (a b : Char) (va vb : Nat)
    (hp : base64Values p = some vs) (hl : vs.length % 4 = 2)
    (ha : base64Value a = some va) (hb : base64Value b = some vb) (hab : va / 4 = vb / 4) :
    decodeSegment (String.mk (p ++ [b])) = decodeSegment (String.mk (p ++ [a])) := by
  unfold decodeSegment
  simp only [base64Values_append_last p vs a va hp ha, base64Values_append_last p vs b vb hp hb,
    Option.some_bind, decodeQuanta_last vs vb va hl hab.symm]
/-- Claim C24 fails for a changed byte that does not lead to a rejection:
`generateJWT` of the sample service issues `issuedToken` for the sample session;
`alteredToken` is that text with its last character `Y` replaced by `Z`, and
`ValidateToken` of the same service, at the instant of the issue, accepts it
with the claims of the issued token. -/
theorem altered_token_accepted_counterexample :
    (generateJWT hs256Lib sampleClock initialServices sampleSession initialWorld).1 =
        .ok issuedToken ∧
      (∃ p : List Char, issuedToken.data = p ++ ['Y'] ∧ alteredToken.data = p ++ ['Z']) ∧
      alteredToken ≠ issuedToken ∧
      (ValidateToken hs256Jwt sampleClock initialServices issuedToken initialWorld).1 =
        .ok sampleClaims ∧
      (ValidateToken hs256Jwt sampleClock initialServices alteredToken initialWorld).1 =
        .ok sampleClaims := by
  refine ⟨rfl, ⟨issuedToken.data.dropLast, rfl, rfl⟩, ?_, rfl, rfl⟩
  intro h
  have h2 := congrArg (fun s : String => s.data.getLast?) h
  revert h2
  decide

/-- Claim C24, amended.  For every library, `ValidateToken` returns an error,
and with it no claims, for every token that decodes and whose signature does
not verify under the secret of the service, whose signing method is not an HMAC
method, or whose expiry date lies before the clock reading of the validation.
With the HMAC verification of `golang-jwt`, for a token of three segments that
verifies under the secret: a text with the same first two segments and a third
segment that does not decode to the same bytes is rejected; a text with the same
first two segments and a third segment that decodes to the same bytes gets the
verdict of the token; and this is so when the last character of a third segment
with two characters more than a multiple of four before it (the 43 characters
of an HS256 signature) is replaced by a character whose value differs in the
two low bits only. -/
theorem altered_token_verdict (clock : Clock) (sv : Services) (w : World) :
    (∀ (jl : JwtLib) (tokenString : String) (token : Token),
      jl.parseUnverified tokenString = .ok token →
      (jl.verify tokenString token sv.jwtSecret = false ∨ token.methodIsHMAC = false ∨
        ∃ expiresAt, token.claims.ExpiresAt = some expiresAt ∧ expiresAt < clock w.clockReads) →
      ∃ err, (ValidateToken jl clock sv tokenString w).1 =
        .error (.wrapf "解析令牌失败: " err)) ∧
    (∀ (decodeParts : String → String → Except GoError Token)
      (mac : String → String → String → List Nat)
      (header claims signature altered : String) (token : Token),
      '.' ∉ header.data → '.' ∉ claims.data →
      (jwtLibOf decodeParts mac).parseUnverified
        (header ++ "." ++ claims ++ "." ++ signature) = .ok token →
      (jwtLibOf decodeParts mac).verify
        (header ++ "." ++ claims ++ "." ++ signature) token sv.jwtSecret = true →
      decodeSegment altered ≠ decodeSegment signature →
      ∃ err, (ValidateToken (jwtLibOf decodeParts mac) clock sv
          (header ++ "." ++ claims ++ "." ++ altered) w).1 =
        .error (.wrapf "解析令牌失败: " err)) ∧
    (∀ (decodeParts : String → String → Except GoError Token)
      (mac : String → String → String → List Nat)
      (header claims signature altered : String),
      '.' ∉ header.data → '.' ∉ claims.data → '.' ∉ signature.data → '.' ∉ altered.data →
      decodeSegment altered = decodeSegment signature →
      ValidateToken (jwtLibOf decodeParts mac) clock sv
          (header ++ "." ++ claims ++ "." ++ altered) w =
        ValidateToken (jwtLibOf decodeParts mac) clock sv
          (header ++ "." ++ claims ++ "." ++ signature) w) ∧
    (∀ (decodeParts : String → String → Except GoError Token)
      (mac : String → String → String → List Nat)
      (header claims : String) (p : List Char) (vs : List Nat) (a b : Char) (va vb : Nat),
      '.' ∉ header.data → '.' ∉ claims.data →
      base64Values p = some vs → vs.length % 4 = 2 →
      base64Value a = some va → base64Value b = some vb → va / 4 = vb / 4 →
      ValidateToken (jwtLibOf decodeParts mac) clock sv
          (header ++ "." ++ claims ++ "." ++ String.mk (p ++ [b])) w =
        ValidateToken (jwtLibOf decodeParts mac) clock sv
          (header ++ "." ++ claims ++ "." ++ String.mk (p ++ [a])) w) := by
  refine ⟨?_, ?_, ?_, ?_⟩
  · intro jl tokenString token hparse hbad
    exact ValidateToken_rejects jl clock sv tokenString w token hparse hbad
  · intro decodeParts mac header claims signature altered token hh hc hparse hverify hother
    exact ValidateToken_other_bytes decodeParts mac clock sv w header claims signature altered
      token hh hc hparse hverify hother
  · intro decodeParts mac header claims signature altered hh hc hs ha hsame
    exact ValidateToken_same_bytes decodeParts mac clock sv w header claims signature altered
      hh hc hs ha hsame
  · intro decodeParts mac header claims p vs a b va vb hh hc hp hl ha hb hab
    have hpa := base64Values_no_dot _ _ (base64Values_append_last p vs a va hp ha)
    have hpb := base64Values_no_dot _ _ (base64Values_append_last p vs b vb hp hb)
    exact ValidateToken_same_bytes decodeParts mac clock sv w header claims _ _
      hh hc hpa hpb (decodeSegment_last p vs a b va vb hp hl ha hb hab)

/-- Claim C24 at the issued token with the eleventh character of its signature
changed: the bytes of the signature differ and the token is rejected. -/
theorem altered_token_verdict_witness :
    ∃ err, (ValidateToken hs256Jwt sampleClock initialServices forgedToken initialWorld).1 =
      .error (.wrapf "解析令牌失败: " err) :=
  (altered_token_verdict sampleClock initialServices initialWorld).2.1
    sampleDecodeParts sampleMac hs256Header sampleClaimsSegment
    "38m9T6V6ZR8HCVaLlzA9UXNQzoPwtZS3BS6FzojlC0Y" "38m9T6V6ZRAHCVaLlzA9UXNQzoPwtZS3BS6FzojlC0Y"
    { alg := "HS256", methodIsHMAC := true, claims := sampleClaims, valid := false }
    (by decide) (by decide) rfl rfl (by decide)

end ValStore
